import Mathlib

/-!
Compositor (RPI back end): scene registry, transform setters and render passes

A shallow embedding of `Compositor/lib/RPI/RPI.cpp`, and of the transport
channel of `BluetoothAudioSink/TransportChannel.h`.

Conventions of the embedding

* `GLfloat` / `GLclampf` values are embedded as rationals: the code only
  compares them with the constants `-1`, `0`, `1` and with each other, and on
  finite floating point values these comparisons agree with the comparisons
  of the rationals they denote.
* Pointer-like handles (`EGLImage`, `gbm_bo *`) are embedded as natural
  numbers, respectively as `Option`; the null handle is `0`, respectively `none`.
* The GL / EGL driver is an environment (`World`): it decides which command
  raises an error, hands out texture and image names, and records the
  commands that were issued.
-/

namespace Compositor

/-! ## Transform fields of `GLES` (RPI.cpp 752-801) -/

/-- Struct `GLES::offset`: each coordinate is meant to lie in `[-1, 1]`. -/
structure offset where
  _x : ℚ
  _y : ℚ
  _z : ℚ
deriving DecidableEq, Repr

namespace offset
def _left : ℚ := -1
def _right : ℚ := 1
def _bottom : ℚ := -1
def _top : ℚ := 1
def _near : ℚ := -1
def _far : ℚ := 1
end offset

/-- Struct `GLES::scale`: both fractions are meant to lie in `[0, 1]`. -/
structure scale where
  _horiz : ℚ
  _vert : ℚ
deriving DecidableEq, Repr

namespace scale
def _identity : ℚ := 1
def _min : ℚ := 0
def _max : ℚ := 1
end scale

/-- Struct `GLES::opacity`: alpha is meant to lie in `[0, 1]`. -/
structure opacity where
  _alpha : ℚ
deriving DecidableEq, Repr

namespace opacity
def _min : ℚ := 0
def _max : ℚ := 1
end opacity

/-- The default constructor `offset ()`: the midpoint of each range. -/
def InitialOffset : offset :=
  ⟨(offset._right - offset._left) / 2 + offset._left,
   (offset._top - offset._bottom) / 2 + offset._bottom,
   (offset._far - offset._near) / 2 + offset._near⟩

/-- The default constructor `scale ()`. -/
def InitialScale : scale := ⟨scale._identity, scale._identity⟩

/-- The default constructor `opacity ()`. -/
def InitialOpacity : opacity := ⟨opacity._max⟩

/-! ## Handles -/

/-- Type `EGL::img_t`, an image identity; `InvalidImage` is the null handle. -/
abbrev img_t := Nat

def InvalidImage : img_t := 0

abbrev tex_t := Nat
abbrev tgt_t := Nat

def InvalidTex : tex_t := 0

def GL_INVALID_ENUM : tgt_t := 0x0500
def GL_TEXTURE_2D : tgt_t := 0x0DE1
def GL_TEXTURE_EXTERNAL_OES : tgt_t := 0x8D65

/-- Struct `GLES::texture` (RPI.cpp 822-836). -/
structure texture where
  _tex : tex_t
  _target : tgt_t
  _offset : offset
  _scale : scale
  _opacity : opacity
  _width : Nat
  _height : Nat
deriving DecidableEq, Repr

/-- The constructor `texture (target, offset, scale, opacity)`. -/
def texture.make (target : tgt_t) (off : offset) (scl : scale) (op : opacity) : texture :=
  ⟨0, target, off, scl, op, 0, 0⟩

/-! ## The scene registry: `std::map <EGL::img_t, texture_t> _scene` -/

/-- The map `_scene`, as its key-ordered list of entries (the order in which
`begin () .. end ()` visits them). -/
abbrev Scene := List (img_t × texture)

namespace Scene

/-- Well-formed maps: keys strictly increasing (hence unique). -/
def WF (s : Scene) : Prop := s.Pairwise (fun a b => a.1 < b.1)

instance (s : Scene) : Decidable (WF s) := by unfold WF; infer_instance

/-- Method `std::map::find`: `none` stands for `end ()`. -/
def find : Scene → img_t → Option texture
  | [], _ => none
  | (k, v) :: rest, img => if k = img then some v else find rest img

/-- Ordered placement of a binding, replacing the binding of an equal key. -/
def put (img : img_t) (t : texture) : Scene → Scene
  | [] => [(img, t)]
  | (k, v) :: rest =>
    if img < k then (img, t) :: (k, v) :: rest
    else if img = k then (img, t) :: rest
    else (k, v) :: put img t rest

/-- Method `std::map::insert`: an existing binding is kept, and the flag tells
whether the pair was inserted. -/
def insert (s : Scene) (img : img_t) (t : texture) : Scene × Bool :=
  match s.find img with
  | some _ => (s, false)
  | none => (put img t s, true)

/-- The assignment `_scene [img] = t`. -/
def assign (s : Scene) (img : img_t) (t : texture) : Scene := put img t s

/-- Method `std::map::erase` at the position `find` returned for `img`. -/
def erase : Scene → img_t → Scene
  | [], _ => []
  | (k, v) :: rest, img => if k = img then rest else (k, v) :: erase rest img

/-- The keys of the map. -/
def keys (s : Scene) : List img_t := s.map Prod.fst

end Scene

/-! ## Buffers and client surfaces (RPI.cpp 137-222) -/

/-- A buffer object of the allocator, with what the `gbm_bo_get_*` queries
yield for it. -/
structure gbm_bo where
  width : Nat
  height : Nat
  stride : Nat
  format : Nat
  modifier : Nat
  /-- The descriptor `gbm_bo_get_fd` yields. -/
  fd : Int
deriving DecidableEq, Repr

/-- The member `ClientSurface::_nativeSurface`. -/
structure surf_t where
  _buf : Option gbm_bo
  _fd : Int
  _khr : img_t
deriving DecidableEq, Repr

namespace surf_t

def Valid (s : surf_t) : Bool := s._buf.isSome

def DMAComplete (s : surf_t) : Bool := s.Valid && decide (s._fd > -1)

def RenderComplete (s : surf_t) : Bool :=
  s.Valid && decide (s._fd > -1) && decide (s._khr ≠ InvalidImage)

end surf_t

/-- Struct `Exchange::IComposition::Rectangle`. -/
structure Rectangle where
  x : Int
  y : Int
  width : Nat
  height : Nat
deriving DecidableEq, Repr

/-- The constants of `Exchange::IComposition` the compositor uses; the header
is not part of the sources at hand, so they are parameters. The z range is
positive by the `static_assert` of `CompositeFor` (RPI.cpp 2638), the opacity
range is taken to be positive as well. -/
structure IComposition where
  minZOrder : Nat
  maxZOrder : Nat
  minOpacity : Nat
  maxOpacity : Nat
  zRange : minZOrder < maxZOrder
  opacityRange : minOpacity < maxOpacity

/-- Class `ClientSurface`. -/
structure ClientSurface where
  _nativeSurface : surf_t
  _name : String
  _opacity : Nat
  _layer : Nat
  _destination : Rectangle
deriving DecidableEq, Repr

namespace ClientSurface

/-- Method `ClientSurface::Surface (khr)` (RPI.cpp 200-206): the image is
stored only when it is not the invalid image. -/
def Surface (c : ClientSurface) (khr : img_t) : surf_t × ClientSurface :=
  if khr ≠ InvalidImage then
    ({ c._nativeSurface with _khr := khr },
     { c with _nativeSurface := { c._nativeSurface with _khr := khr } })
  else (c._nativeSurface, c)

/-- Method `ClientSurface::Native`. -/
def Native (c : ClientSurface) : Int := c._nativeSurface._fd

/-- Method `ClientSurface::Opacity (value)` (RPI.cpp 177-179). -/
def Opacity (c : ClientSurface) (value : Nat) : ClientSurface := { c with _opacity := value }

/-- Method `ClientSurface::Geometry (rectangle)` (RPI.cpp 183-186). -/
def Geometry (c : ClientSurface) (rectangle : Rectangle) : ClientSurface :=
  { c with _destination := rectangle }

/-- Method `ClientSurface::ZOrder (zorder)` (RPI.cpp 190-193), for a 16-bit
`zorder`. -/
def ZOrder (c : ClientSurface) (zorder : Nat) : ClientSurface := { c with _layer := zorder }

end ClientSurface

/-! ## The driver environment -/

/-- The GL commands the render passes issue. -/
inductive GLCmd where
  | ActiveTexture
  | GenTextures (tex : tex_t)
  | BindTexture (target : tgt_t) (tex : tex_t)
  | TexParameteri (target : tgt_t)
  | EGLImageTargetTexture2DOES (target : tgt_t) (img : img_t)
  | TexImage2D (width height : Nat)
  | DeleteTextures (tex : tex_t)
  | GenFramebuffers
  | BindFramebuffer (fbo : Nat)
  | FramebufferTexture2D (tex : tex_t)
  | CheckFramebufferStatus
  | EnableBlend
  | DisableBlend
  | EnableDepthTest
  | DisableDepthTest
  | BlendEquationSeparate
  | BlendFuncSeparate
  | GetDepthBits
  | DepthMask
  | DepthFunc
  | DepthRangef
  | ClearDepthf
  | ClearDepthBuffer
  | ClearColor
  | ClearColorBuffer
  | Flush
  | GetMaxViewportDims
  | Viewport (x y width height : Int)
  | DeleteCurrentProgram
  | LoadShader (fragment : Bool)
  | ShadersToProgram
  | GetCurrentProgram
  | GetUniformLocation
  | Uniform1f (alpha : ℚ)
  | GetAttribLocation
  | VertexAttribPointer (z : ℚ)
  | EnableVertexAttribArray
  | DrawArrays
  | DisableVertexAttribArray
deriving DecidableEq, Repr

/-- Observable events, in the order in which they happen. -/
inductive Ev where
  | gl (cmd : GLCmd)
  | lock
  | unlock
  | warn
  | makeCurrent (ok : Bool)
  | releaseCurrent (ok : Bool)
  | bindAPI (ok : Bool)
  | swapBuffers (ok : Bool)
  | sync
  | createImage (attrs : List Int) (img : img_t)
  | destroyImage (img : img_t)
  | platformSwap
  | sleep (ms : Int)
  | attached (observer : Nat) (name : String)
  | detached (observer : Nat) (name : String)
  | send (msg : String) (fd : Int)
  | close (fd : Int)
  | channelUp (valid : Bool)
  | channelDown
deriving DecidableEq, Repr

/-- The GL / EGL driver and the platform, as seen by the calling thread. -/
structure World where
  /-- Whether the n-th driver call raises an error. -/
  fail : Nat → Bool
  /-- The number of driver calls made so far. -/
  issued : Nat
  /-- The pending GL error flag, returned and cleared by `glGetError`. -/
  glError : Bool
  /-- The pending EGL error flag, returned and cleared by `eglGetError`. -/
  eglError : Bool
  /-- The next texture name `glGenTextures` hands out. -/
  nextTex : tex_t
  /-- The texture names that currently exist in the GL context. -/
  textures : List tex_t
  /-- The next image identity the driver hands out. -/
  nextImg : img_t
  /-- The images that currently exist. -/
  images : List img_t
  /-- Whether a context (with its surface) is current on the calling thread. -/
  current : Bool
  /-- The size of the draw surface, as `eglQuerySurface` reports it. -/
  surfaceWidth : Int
  surfaceHeight : Int
  /-- The value of `GL_MAX_VIEWPORT_DIMS`. -/
  maxViewportDims : Int × Int
  /-- The value of `GL_DEPTH_BITS`. -/
  depthBits : Int
  /-- The string `glGetString (GL_EXTENSIONS)`, `none` for a null pointer. -/
  glExtensions : Option (List Char)
  /-- The string `eglQueryString (dpy, EGL_EXTENSIONS)`, `none` for a null pointer. -/
  eglExtensions : Option (List Char)
  /-- Whether the build defines `EGL_VERSION_1_5`. -/
  egl15 : Bool
  /-- Whether `eglGetProcAddress` resolves the extension entry points. -/
  procs : Bool
  /-- The formats `ModeSet::AvailableFormats` lists for the display device. -/
  drmFormats : List Nat
  /-- The formats `eglQueryDmaBufFormatsEXT` lists. -/
  eglFormats : List Nat
  /-- The modifiers `eglQueryDmaBufModifiersEXT` lists for a format, each with
  its external-only flag. -/
  eglModifiers : Nat → List (Nat × Bool)
  /-- The reading of `std::chrono::steady_clock`, in milliseconds. -/
  now : Int
  /-- The time one stage 2 pass with its presentation takes, in milliseconds. -/
  passCost : Int
  /-- The descriptor `accept` returns to the transfer worker. -/
  accepted : Int
  /-- The message and descriptor `recvmsg` delivers, `none` for an error, an
  orderly shutdown or an empty receive buffer. -/
  incoming : Option (String × Int)
  /-- Whether `errno` is zero when the transfer channel looks at it. -/
  errnoZero : Bool
  /-- The descriptor `socket` returns for the listening socket. -/
  listenFd : Int
  /-- Whether the client registry yields a valid object. -/
  registryOk : Bool
  /-- The buffer `ModeSet::CreateBufferObject` allocates, `none` for a null pointer. -/
  bufferObject : Nat → Nat → Option gbm_bo
  /-- The events so far, oldest first. -/
  trace : List Ev

namespace World

/-- Record an event. -/
def emit (w : World) (e : Ev) : World := { w with trace := w.trace ++ [e] }

/-- The effect of a GL command that did not raise an error on the objects of
the context. -/
def effect (w : World) : GLCmd → World
  | .GenTextures t => { w with nextTex := w.nextTex + 1, textures := t :: w.textures }
  | .DeleteTextures t => { w with textures := w.textures.filter (fun x => x ≠ t) }
  | _ => w

/-- Issue a GL command: it either raises an error, which stays pending and
leaves the context unchanged, or takes effect. -/
def gl (w : World) (cmd : GLCmd) : World :=
  if w.fail w.issued then
    { w with issued := w.issued + 1, glError := true, trace := w.trace ++ [Ev.gl cmd] }
  else
    { w.effect cmd with issued := w.issued + 1, trace := w.trace ++ [Ev.gl cmd] }

/-- The test `glGetError () == GL_NO_ERROR`, which clears the pending error. -/
def glGetError (w : World) : Bool × World := (!w.glError, { w with glError := false })

/-- The statement pair `cmd; _ret = glGetError () == GL_NO_ERROR;`. -/
def checked (w : World) (cmd : GLCmd) : Bool × World := (w.gl cmd).glGetError

/-- An EGL call that reports success or failure; a failure stays pending for
`eglGetError`. -/
def egl (w : World) : Bool × World :=
  (!w.fail w.issued, { w with issued := w.issued + 1, eglError := w.fail w.issued })

/-- A system call that reports success or failure. -/
def sys (w : World) : Bool × World := (!w.fail w.issued, { w with issued := w.issued + 1 })

/-- The test `eglGetError () == EGL_SUCCESS`, which clears the pending error. -/
def eglGetError (w : World) : Bool × World := (!w.eglError, { w with eglError := false })

end World

/-- The block `if (_ret != false) { cmd; _ret = glGetError () == GL_NO_ERROR; }`. -/
def step (cmd : GLCmd) (s : Bool × World) : Bool × World :=
  if s.1 then s.2.checked cmd else s

/-- A run of such blocks. -/
def steps (cmds : List GLCmd) (s : Bool × World) : Bool × World :=
  cmds.foldl (fun s c => step c s) s

/-- The test `std::string (hay).find (needle) != std::string::npos`. -/
def strFind : List Char → List Char → Bool
  | [], needle => needle.isEmpty
  | c :: hay, needle => needle.isPrefixOf (c :: hay) || strFind hay needle

/-- The cast `static_cast <GLint>` of a floating point value: truncation
towards zero. -/
def truncToInt (q : ℚ) : Int := if 0 ≤ q then ⌊q⌋ else ⌈q⌉

/-! ## Class `GLES` (RPI.cpp 746-1830) -/

/-- The data members of `GLES`; the mutex `_token` shows as lock events. -/
structure GLES where
  _offset : offset
  _scale : scale
  _opacity : opacity
  _valid : Bool
  _scene : Scene
deriving DecidableEq, Repr

/-- The state a member function of `GLES` threads: `_ret`, the object, the driver. -/
abbrev St := Bool × GLES × World

/-- The operand `&& f ()` for a member function that only touches the object. -/
def andG (f : GLES → Bool × GLES) (s : St) : St :=
  if s.1 then ((f s.2.1).1, (f s.2.1).2, s.2.2) else s

/-- The operand `&& f ()` for a member function that only talks to the driver. -/
def andW (f : GLES → World → Bool × World) (s : St) : St :=
  if s.1 then ((f s.2.1 s.2.2).1, s.2.1, (f s.2.1 s.2.2).2) else s

/-- The block `if (_ret != false) { cmd; _ret = glGetError () == GL_NO_ERROR; }`
inside a member function. -/
def stepS (cmd : GLCmd) (s : St) : St :=
  ((step cmd (s.1, s.2.2)).1, s.2.1, (step cmd (s.1, s.2.2)).2)

namespace GLES

/-- The constructor `GLES ()`, with `Initialize ()` returning true. -/
def init : GLES := ⟨InitialOffset, InitialScale, InitialOpacity, true, []⟩

/-- Method `GLES::UpdateOffset` (RPI.cpp 858-875). -/
def UpdateOffset (g : GLES) (off : offset) : Bool × GLES :=
  if off._x ≥ offset._left
      ∧ off._x ≤ offset._right
      ∧ off._y ≥ offset._bottom
      ∧ off._y ≤ offset._top
      ∧ off._z ≥ offset._near
      ∧ off._z ≤ offset._far
  then (true, { g with _offset := off })
  else (false, g)

/-- Method `GLES::UpdateScale` (RPI.cpp 879-894). -/
def UpdateScale (g : GLES) (scl : scale) : Bool × GLES :=
  if scl._horiz ≥ scale._min
      ∧ scl._horiz ≤ scale._max
      ∧ scl._vert ≥ scale._min
      ∧ scl._vert ≤ scale._max
  then (true, { g with _scale := scl })
  else (false, g)

/-- Method `GLES::UpdateOpacity` (RPI.cpp 898-910). The upper bound is tested
on the member `_opacity`, not on the argument. -/
def UpdateOpacity (g : GLES) (op : opacity) : Bool × GLES :=
  if op._alpha ≥ opacity._min
      ∧ g._opacity._alpha ≤ opacity._max
  then (true, { g with _opacity := op })
  else (false, g)

/-- Method `GLES::Valid`. -/
def Valid (g : GLES) : Bool := g._valid

/-- Method `GLES::Supported` (RPI.cpp 1751-1768). -/
def Supported (w : World) (name : List Char) : Bool :=
  match w.glExtensions with
  | none => false
  | some ext => decide (name.length > 0) && strFind ext name

/-- Method `GLES::RenderColor` (RPI.cpp 924-961), for the color the callers
pass (`false, false, false`, that is black whatever the rotation `_degree`). -/
def RenderColor (g : GLES) (w : World) : Bool × World :=
  steps [GLCmd.ClearColor, GLCmd.ClearColorBuffer, GLCmd.Flush] (g.Valid, w)

/-- Method `GLES::SkipEGLImageFromScene` (RPI.cpp 963-983). -/
def SkipEGLImageFromScene (g : GLES) (w : World) (img : img_t) : St :=
  let w1 := w.emit Ev.lock
  match g._scene.find img with
  | none => (false, g, w1.emit Ev.unlock)
  | some _ =>
    let _size := g._scene.length
    let scene := g._scene.erase img
    (decide (_size - scene.length = 1), { g with _scene := scene }, w1.emit Ev.unlock)

/-- The program setup of `GLES::SetupProgram` (RPI.cpp 1426-1601): the three
local functions are single driver interactions here. -/
def SetupProgram (w : World) : Bool × World :=
  let r0 := w.glGetError
  let r1 : Bool × World :=
    if r0.1 && Supported r0.2 "GL_OES_EGL_image_external".toList then
      r0.2.checked GLCmd.DeleteCurrentProgram
    else (false, r0.2)
  let r2 : Bool × World :=
    if r1.1 then
      let wv := ((r1.2.gl (GLCmd.LoadShader false)).glGetError).2
      let wf := ((wv.gl (GLCmd.LoadShader true)).glGetError).2
      wf.checked GLCmd.ShadersToProgram
    else r1
  if r2.1 then r2 else (false, r2.2.gl GLCmd.ClearColor)

/-- Method `GLES::RenderPolygon` (RPI.cpp 1698-1749); `z` is the depth of the
four vertices. -/
def RenderPolygon (g : GLES) (z : ℚ) (w : World) : Bool × World :=
  steps [GLCmd.GetCurrentProgram, GLCmd.GetUniformLocation, GLCmd.Uniform1f g._opacity._alpha,
         GLCmd.GetAttribLocation, GLCmd.VertexAttribPointer z, GLCmd.EnableVertexAttribArray,
         GLCmd.DrawArrays, GLCmd.DisableVertexAttribArray] w.glGetError

/-- Method `GLES::RenderTileOES` (RPI.cpp 1603-1647). -/
def RenderTileOES (g : GLES) (w : World) : Bool × World :=
  let r0 := step GLCmd.DisableBlend w.glGetError
  let r1 := if r0.1 then g.RenderColor r0.2 else r0
  let r2 := if r1.1 then SetupProgram r1.2 else r1
  if r2.1 then g.RenderPolygon 0 r2.2 else r2

/-- Method `GLES::RenderTile` (RPI.cpp 1649-1695). -/
def RenderTile (g : GLES) (w : World) : Bool × World :=
  let w0 := w.glGetError.2
  let r0 := w0.glGetError
  let r1 := if r0.1 then SetupProgram r0.2 else r0
  if r1.1 then g.RenderPolygon g._offset._z r1.2 else r1

/-- Method `GLES::SetupViewport` (RPI.cpp 1771-1828), in exact arithmetic. -/
def SetupViewport (_width _height : Int) (g : GLES) (w : World) : Bool × World :=
  let r0 := w.glGetError
  if r0.1 then
    let w1 := r0.2.gl GLCmd.GetMaxViewportDims
    let _dims : Int × Int := if r0.2.fail r0.2.issued then (0, 0) else r0.2.maxViewportDims
    let r1 := w1.glGetError
    if r1.1 then
      let _mult : ℚ := 2
      let _quirk_width : ℚ := (_width : ℚ) * _mult * g._scale._horiz
      let _quirk_height : ℚ := (_height : ℚ) * _mult * g._scale._vert
      let _quirk_x : ℚ := ((-_width : Int) : ℚ) * g._scale._horiz + g._offset._x * (_width : ℚ)
      let _quirk_y : ℚ := ((-_height : Int) : ℚ) * g._scale._vert + g._offset._y * (_height : ℚ)
      let w2 :=
        if _quirk_x < -_quirk_width / _mult
            ∨ _quirk_y < -_quirk_height / _mult
            ∨ _quirk_x > 0
            ∨ _quirk_y > 0
            ∨ _quirk_width > (_width : ℚ) * _mult
            ∨ _quirk_height > (_height : ℚ) * _mult
            ∨ (_width : ℚ) > (_dims.1 : ℚ)
            ∨ (_height : ℚ) > (_dims.2 : ℚ)
        then r1.2.emit Ev.warn else r1.2
      (true, w2.gl (GLCmd.Viewport (truncToInt _quirk_x) (truncToInt _quirk_y)
                      (truncToInt _quirk_width) (truncToInt _quirk_height)))
    else r1
  else r0

end GLES

/-! ### The sort of `std::list` -/

/-- The inner walk of the merge while `x` is the pending element of the
receiver: elements of `other` that `comp` puts strictly before `x` go first,
then `k` continues with what is left of `other`. -/
def mergeInto {α : Type} (comp : α → α → Bool) (x : α) (k : List α → List α) :
    List α → List α
  | [] => k []
  | y :: rest => if comp y x then y :: mergeInto comp x k rest else k (y :: rest)

/-- Method `std::list::merge (other, comp)`, with the first list the receiver:
an element of `other` goes first only when `comp` puts it strictly before the
pending element of the receiver. -/
def listMerge {α : Type} (comp : α → α → Bool) : List α → List α → List α
  | [] => fun ys => ys
  | x :: xs => fun ys => mergeInto comp x (fun r => x :: listMerge comp xs r) ys

/-- One round of the sort: the run `carry` is stored in the first empty
counter, after merging into it the counters met on the way (older elements
are the receiver of each merge). -/
def addRun {α : Type} (comp : α → α → Bool) : List α → List (List α) → List (List α)
  | carry, [] => [carry]
  | carry, [] :: rest => carry :: rest
  | carry, (c :: cs) :: rest => [] :: addRun comp (listMerge comp (c :: cs) carry) rest

/-- The final round: each counter receives the merge of the younger ones. -/
def collectRuns {α : Type} (comp : α → α → Bool) : List α → List (List α) → List α
  | acc, [] => acc
  | acc, c :: rest => collectRuns comp (listMerge comp c acc) rest

/-- Method `std::list::sort (comp)`: the bottom-up merge sort of the list
container, which is stable. -/
def listSort {α : Type} (comp : α → α → Bool) (l : List α) : List α :=
  collectRuns comp [] (l.foldl (fun bins x => addRun comp [x] bins) [])

/-! ### The two render passes -/

/-- The local function `DestroyTexture` of `RenderEGLImage` (RPI.cpp 989-1006). -/
def DestroyTexture (tex : texture) (w : World) : Bool × texture × World :=
  if tex._tex ≠ InvalidTex then
    let r := w.checked (GLCmd.DeleteTextures tex._tex)
    if r.1 then (true, { tex with _tex := InvalidTex }, r.2) else (false, tex, r.2)
  else (false, tex, w)

/-- Method `EGL::Supported` (RPI.cpp 2270-2296); `dpy` tells whether the
display handle is valid. -/
def EGLSupported (w : World) (dpy : Bool) (name : List Char) : Bool :=
  let builtin : Bool :=
    w.egl15 && (strFind name "EGL_KHR_fence_sync".toList
                || strFind name "EGL_KHR_image".toList
                || strFind name "EGL_KHR_image_base".toList)
  if builtin then true
  else
    match (if dpy then w.eglExtensions else none) with
    | none => false
    | some ext => decide (name.length > 0) && strFind ext name

/-- The switch of `SetupTexture` on the target (RPI.cpp 1049-1086): the
storage of the texture comes from the image for an external texture, from
`glTexImage2D` for a plain one. -/
def textureStorage (dpy ctx : Bool) (target : tgt_t) (img : img_t) (width height : Nat)
    (w : World) : Bool × World :=
  if target = GL_TEXTURE_EXTERNAL_OES then
    if dpy && ctx then
      if GLES.Supported w "GL_OES_EGL_image".toList
          && (EGLSupported w dpy "EGL_KHR_image".toList
              || EGLSupported w dpy "EGL_KHR_image_base".toList) then
        if w.procs then w.checked (GLCmd.EGLImageTargetTexture2DOES target img)
        else (false, w)
      else (true, w)
    else (false, w)
  else if target = GL_TEXTURE_2D then
    w.checked (GLCmd.TexImage2D width height)
  else (false, w)

/-- The local function `SetupTexture` of `RenderEGLImage` (RPI.cpp 1008-1096);
`dpy` and `ctx` tell whether the captured display and context are valid. -/
def SetupTexture (dpy ctx : Bool) (tex : texture) (img : img_t) (width height : Int)
    (w : World) : Bool × texture × World :=
  let r0 := w.glGetError
  -- glGenTextures (1, &_tex)
  let gen : Bool × texture × World :=
    if r0.1 then
      let fresh := r0.2.nextTex
      let failed := r0.2.fail r0.2.issued
      let r := r0.2.checked (GLCmd.GenTextures fresh)
      (r.1, (if failed then tex else { tex with _tex := fresh }), r.2)
    else (false, tex, r0.2)
  let t1 := gen.2.1
  let r1 := steps [GLCmd.BindTexture t1._target t1._tex, GLCmd.TexParameteri t1._target,
                   GLCmd.TexParameteri t1._target, GLCmd.TexParameteri t1._target,
                   GLCmd.TexParameteri t1._target] (gen.1, gen.2.2)
  if r1.1 then
    let t2 : texture := { t1 with _width := width.toNat, _height := height.toNat }
    let r2 := textureStorage dpy ctx t2._target img t2._width t2._height r1.2
    let r3 := step (GLCmd.BindTexture t2._target InvalidTex) r2
    (r3.1, t2, r3.2)
  else (false, t1, r1.2)

namespace GLES

/-- The scene block of `RenderEGLImage` (RPI.cpp 1154-1186), entered with
`_ret` true: look the image up, create and insert its texture when it is
absent, then refresh the cached transform. It yields `_ret`, `_tex_fbo`, the
object and the driver. -/
def sceneBlock (g : GLES) (w : World) (dpy ctx : Bool) (_tex_fbo : texture) (img : img_t)
    (width height : Int) : Bool × texture × GLES × World :=
  let found : Bool × texture × GLES × World :=
    match g._scene.find img with
    | some t => (true, t, g, w)
    | none =>
      let r := SetupTexture dpy ctx _tex_fbo img width height w
      if r.1 then
        let ins := g._scene.insert img r.2.1
        (ins.2, r.2.1, { g with _scene := ins.1 }, r.2.2)
      else (false, r.2.1, g, r.2.2)
  if found.1 then
    let t : texture :=
      { found.2.1 with _offset := found.2.2.1._offset, _scale := found.2.2.1._scale,
                       _opacity := found.2.2.1._opacity }
    (true, t, { found.2.2.1 with _scene := found.2.2.1._scene.assign img t }, found.2.2.2)
  else found

/-- The first part of `RenderEGLImage` (RPI.cpp 1099-1152): the checks of the
arguments and of the current context, the size of the draw surface, and the
external texture `_tex_oes` of the image. It yields `_ret`, `_tex_oes`, the
surface size `_width`, `_height`, and the driver. -/
def imagePrelude (w : World) (img : img_t) (width height : Int) :
    Bool × texture × Int × Int × World :=
  let r0 := w.glGetError
  let ret0 : Bool :=
    r0.1 && decide (img ≠ InvalidImage) && decide (width > 0) && decide (height > 0)
  let _ctx : Bool := w.current
  let _dpy : Bool := w.current
  let r1 : Bool × World :=
    if ret0 then ((r0.2.eglGetError.1 && _ctx), r0.2.eglGetError.2) else (false, r0.2)
  -- eglGetCurrentSurface (EGL_DRAW)
  let r2 : Bool × World :=
    if r1.1 then ((r1.2.eglGetError.1 && r1.2.current), r1.2.eglGetError.2) else r1
  -- eglQuerySurface, twice
  let r3 : Bool × World :=
    if r2.1 then
      if r2.2.egl.1 then
        if r2.2.egl.2.egl.1 then r2.2.egl.2.egl.2.eglGetError else (false, r2.2.egl.2.egl.2)
      else (false, r2.2.egl.2)
    else r2
  let _width : Int := if r3.1 then r3.2.surfaceWidth else 0
  let _height : Int := if r3.1 then r3.2.surfaceHeight else 0
  let _tex_oes := texture.make GL_TEXTURE_EXTERNAL_OES InitialOffset InitialScale InitialOpacity
  let _tex_fbo := texture.make GL_TEXTURE_2D InitialOffset InitialScale InitialOpacity
  let r4 := steps [GLCmd.ActiveTexture, GLCmd.BindTexture _tex_oes._target InvalidTex,
                   GLCmd.BindTexture _tex_fbo._target InvalidTex] r3
  let r5 : Bool × texture × World :=
    if r4.1 then SetupTexture _dpy _ctx _tex_oes img width height r4.2 else (false, _tex_oes, r4.2)
  (r5.1, r5.2.1, _width, _height, r5.2.2)

/-- The last part of `RenderEGLImage` (RPI.cpp 1188-1251): the image is drawn
into the texture of its scene entry through a framebuffer, then the external
texture is destroyed. -/
def imageDraw (g : GLES) (s : Bool × World) (_tex_oes _tex_fbo : texture)
    (_width _height : Int) : St :=
  let r7 := steps [GLCmd.GenFramebuffers, GLCmd.BindFramebuffer 1,
                   GLCmd.BindTexture _tex_oes._target _tex_oes._tex,
                   GLCmd.BindTexture _tex_fbo._target _tex_fbo._tex,
                   GLCmd.FramebufferTexture2D _tex_fbo._tex, GLCmd.CheckFramebufferStatus,
                   GLCmd.DisableDepthTest, GLCmd.DisableBlend] s
  let s8 : St :=
    (r7.1, g, r7.2)
      |> andG (fun g => g.UpdateScale _tex_oes._scale)
      |> andG (fun g => g.UpdateOffset _tex_oes._offset)
      |> andG (fun g => g.UpdateOpacity _tex_fbo._opacity)
      |> andW (SetupViewport _width _height)
      |> andW RenderTileOES
  let s9 := s8 |> stepS (GLCmd.BindTexture _tex_oes._target InvalidTex)
               |> stepS (GLCmd.BindTexture _tex_fbo._target InvalidTex)
  (s9.1, s9.2.1, (DestroyTexture _tex_oes s9.2.2).2.2)

/-- Method `GLES::RenderEGLImage` (RPI.cpp 985-1252), stage 1. -/
def RenderEGLImage (g : GLES) (w : World) (img : img_t) (width height : Int) : St :=
  let p := imagePrelude w img width height
  let _tex_oes := p.2.1
  let _tex_fbo := texture.make GL_TEXTURE_2D InitialOffset InitialScale InitialOpacity
  -- the scene block, under the lock
  let w6 := p.2.2.2.2.emit Ev.lock
  let r6 : Bool × texture × GLES × World :=
    if p.1 then sceneBlock g w6 w.current w.current _tex_fbo img width height
    else (false, _tex_fbo, g, w6)
  let w7 := r6.2.2.2.emit Ev.unlock
  imageDraw r6.2.2.1 (r6.1, w7) _tex_oes r6.2.1 p.2.2.1 p.2.2.2.1

/-- The snapshot `_sorted` of `RenderScene` before the sort (RPI.cpp 1259-1267). -/
def snapshot (g : GLES) : List texture := g._scene.map Prod.snd

/-- The loop of `RenderScene` over the sorted snapshot (RPI.cpp 1359-1379),
entered with `_ret` true. -/
def sceneLoop (width height : Int) : List texture → St → St
  | [], s => s
  | t :: rest, s =>
    let s1 := s |> stepS (GLCmd.BindTexture t._target t._tex)
                |> andG (fun g => g.UpdateScale t._scale)
                |> andG (fun g => g.UpdateOffset t._offset)
                |> andG (fun g => g.UpdateOpacity t._opacity)
                |> andW (SetupViewport width height)
                |> andW RenderTile
                |> stepS (GLCmd.BindTexture t._target InvalidTex)
    if s1.1 then sceneLoop width height rest s1 else s1

/-- The set-up of the frame in `RenderScene` (RPI.cpp 1272-1350): the default
framebuffer, blending, the depth test with a cleared depth buffer, and the
black background. -/
def sceneSetup (g : GLES) (s : Bool × World) : Bool × World :=
  let r1 := steps [GLCmd.BindFramebuffer 0, GLCmd.CheckFramebufferStatus,
                   GLCmd.EnableBlend, GLCmd.BlendEquationSeparate, GLCmd.BlendFuncSeparate] s
  -- glGetIntegerv (GL_DEPTH_BITS, &_bits)
  let r2 : Bool × World :=
    if r1.1 then
      ((r1.2.checked GLCmd.GetDepthBits).1
          && decide ((r1.2.checked GLCmd.GetDepthBits).2.depthBits > 0),
       (r1.2.checked GLCmd.GetDepthBits).2)
    else r1
  let r3 := step GLCmd.EnableDepthTest r2
  let r4 : Bool × World := if r3.1 then (true, r3.2.gl GLCmd.DepthMask) else r3
  let r5 := steps [GLCmd.DepthFunc, GLCmd.DepthRangef, GLCmd.ClearDepthf,
                   GLCmd.ClearDepthBuffer] r4
  if r5.1 then g.RenderColor r5.2 else r5

/-- The end of `RenderScene` (RPI.cpp 1385-1393): both capabilities are
disabled unconditionally, the error is looked at only while `_ret` holds. -/
def sceneFinish (s : Bool × World) : Bool × World :=
  let w8 := s.2.gl GLCmd.DisableDepthTest
  let r8 : Bool × World := if s.1 then w8.glGetError else (false, w8)
  let w9 := r8.2.gl GLCmd.DisableBlend
  if r8.1 then w9.glGetError else (false, w9)

/-- Method `GLES::RenderScene` (RPI.cpp 1254-1394), stage 2. -/
def RenderScene (g : GLES) (w : World) (width height : Nat)
    (sortfunc : texture → texture → Bool) : St :=
  let r0 := w.glGetError
  let w1 := (r0.2.emit Ev.lock).emit Ev.unlock
  let _sorted := listSort sortfunc g.snapshot
  let r6 := g.sceneSetup (r0.1, w1)
  let s7 : St :=
    if r6.1 then
      let _off := g._offset
      let _scl := g._scale
      let _op := g._opacity
      sceneLoop width height _sorted (true, g, r6.2)
        |> andG (fun g => g.UpdateScale _scl)
        |> andG (fun g => g.UpdateOffset _off)
        |> andG (fun g => g.UpdateOpacity _op)
    else (false, g, r6.2)
  let r9 := sceneFinish (s7.1, s7.2.2)
  (r9.1, s7.2.1, r9.2)

/-- Method `GLES::Deinitialize` (RPI.cpp 1404-1422): both targets are unbound,
then the texture of every scene entry is deleted, the lock being held from
before the first deletion to the return. -/
def Deinitialize (g : GLES) (w : World) : Bool × World :=
  let r1 := w.checked (GLCmd.BindTexture GL_TEXTURE_2D InvalidTex)
  let w2 := r1.2.gl (GLCmd.BindTexture GL_TEXTURE_EXTERNAL_OES InvalidTex)
  let r2 : Bool × World := if r1.1 then w2.glGetError else (false, w2)
  let r3 : Bool × World :=
    g._scene.foldl
      (fun r e =>
        let wd := r.2.gl (GLCmd.DeleteTextures e.2._tex)
        if r.1 then wd.glGetError else (false, wd))
      (r2.1, r2.2.emit Ev.lock)
  (r3.1, r3.2.emit Ev.unlock)

end GLES

/-- The comparator `CompositeFor` passes to `RenderScene` (RPI.cpp 2709). -/
def zGreater (left right : texture) : Bool := decide (left._offset._z > right._offset._z)

/-! ## Class `EGL` (RPI.cpp 1835-2410) -/

/-- The data member of `EGL` the passes look at. -/
structure EGL where
  _valid : Bool
deriving DecidableEq, Repr

namespace EGL

/-- Method `EGL::Valid`. -/
def Valid (e : EGL) : Bool := e._valid

/-- The attribute list `_attrs` of `CreateImage` (RPI.cpp 2098-2110), each
value before its cast to `EGLAttrib`. -/
def imageAttrs (bo : gbm_bo) (fd : Int) : List Int :=
  [0x3057, bo.width,
   0x3056, bo.height,
   0x3271, bo.format,
   0x3272, fd,
   0x3273, 0,
   0x3274, bo.stride,
   0x3443, (bo.modifier % 2 ^ 64) % 2 ^ 32,
   0x3444, (bo.modifier % 2 ^ 64) / 2 ^ 32,
   0x30D2, 1,
   0x3038]

/-- Method `EGL::CreateImage` (RPI.cpp 1997-2126). A surface without a buffer
does not reach it (the caller requires a descriptor); it yields the invalid
image for one. -/
def CreateImage (egl : EGL) (surf : surf_t) (w : World) : img_t × World :=
  if egl.Valid
      && (EGLSupported w egl.Valid "EGL_KHR_image".toList
          && EGLSupported w egl.Valid "EGL_KHR_image_base".toList
          && EGLSupported w egl.Valid "EGL_EXT_image_dma_buf_import".toList
          && EGLSupported w egl.Valid "EGL_EXT_image_dma_buf_import_modifiers".toList) then
    if w.procs then
      match surf._buf with
      | none => (InvalidImage, w)
      | some bo =>
        let valid0 : Bool := decide (bo.format ∈ w.drmFormats) && w.procs
        -- eglQueryDmaBufFormatsEXT, three times
        let q1 : Bool × World := if valid0 then w.egl else (false, w)
        let q2 : Bool × World := if q1.1 then q1.2.egl else q1
        let q3 : Bool × World := if q2.1 then q2.2.egl else q2
        let valid1 : Bool := q3.1 && decide (bo.format ∈ q3.2.eglFormats)
        -- eglQueryDmaBufModifiersEXT, twice
        let q4 : Bool × World := if valid1 then q3.2.egl else (false, q3.2)
        let q5 : Bool × World := if q4.1 then q4.2.egl else q4
        let valid2 : Bool :=
          q5.1 && decide (bo.modifier ∈ (q5.2.eglModifiers bo.format).map Prod.fst)
        if valid2 then
          -- _eglCreateImage
          let r := q5.2.egl
          if r.1 then
            (r.2.nextImg,
             { r.2 with nextImg := r.2.nextImg + 1, images := r.2.nextImg :: r.2.images,
                        trace := r.2.trace ++ [Ev.createImage (imageAttrs bo surf._fd) r.2.nextImg] })
          else (InvalidImage, r.2.emit (Ev.createImage (imageAttrs bo surf._fd) InvalidImage))
        else (InvalidImage, q5.2)
    else (InvalidImage, w)
  else (InvalidImage, w)

/-- Method `EGL::DestroyImage` (RPI.cpp 2128-2153). -/
def DestroyImage (egl : EGL) (surf : surf_t) (w : World) : img_t × World :=
  if egl.Valid && EGLSupported w egl.Valid "EGL_KHR_image".toList
      && EGLSupported w egl.Valid "EGL_KHR_image_base".toList then
    if w.procs && surf.RenderComplete then
      -- _eglDestroyImage
      let r := w.egl
      let w1 := r.2.emit (Ev.destroyImage surf._khr)
      if r.1 then (InvalidImage, { w1 with images := w1.images.filter (fun i => i ≠ surf._khr) })
      else (surf._khr, w1)
    else (surf._khr, w)
  else (surf._khr, w)

/-- The common prologue of the render functions: `Valid () && eglMakeCurrent
(_dpy, _surf, _surf, _ctx) && eglBindAPI (EGL_OPENGL_ES_API)`. -/
def enter (egl : EGL) (w : World) : Bool × World :=
  if egl.Valid then
    let m := w.egl
    let w1 : World := { m.2 with current := m.2.current || m.1,
                                 trace := m.2.trace ++ [Ev.makeCurrent m.1] }
    if m.1 then
      let b := w1.egl
      (b.1, b.2.emit (Ev.bindAPI b.1))
    else (false, w1)
  else (false, w)

/-- The call `eglMakeCurrent (_dpy, EGL_NO_SURFACE, EGL_NO_SURFACE, EGL_NO_CONTEXT)`. -/
def release (w : World) : Bool × World :=
  let m := w.egl
  (m.1, { m.2 with current := m.2.current && !m.1, trace := m.2.trace ++ [Ev.releaseCurrent m.1] })

/-- The call `eglSwapBuffers (_dpy, _surf)`. -/
def swapBuffers (w : World) : Bool × World :=
  let m := w.egl
  (m.1, m.2.emit (Ev.swapBuffers m.1))

/-- Method `EGL::RenderWithoutSwap` (RPI.cpp 2375-2394). -/
def RenderWithoutSwap (egl : EGL) (func : GLES → World → St) (g : GLES) (w : World) : St :=
  let e := egl.enter w
  if e.1 then
    let s := func g e.2
    let r := release (s.2.2.emit Ev.sync)
    (r.1 && s.1, s.2.1, r.2)
  else (false, g, e.2)

/-- Method `EGL::Render (func, post)` (RPI.cpp 2319-2347). -/
def Render (egl : EGL) (func : GLES → World → St) (post : Bool) (g : GLES) (w : World) : St :=
  let e := egl.enter w
  if e.1 then
    let s : St :=
      if post then
        let s1 := func g e.2
        let w1 := s1.2.2.emit Ev.sync
        if s1.1 then ((swapBuffers w1).1, s1.2.1, (swapBuffers w1).2) else (false, s1.2.1, w1)
      else
        let sw := swapBuffers e.2
        if sw.1 then func g sw.2 else (false, g, sw.2)
    let r := release (s.2.2.emit Ev.sync)
    (r.1 && s.1, s.2.1, r.2)
  else (false, g, e.2)

/-- Method `EGL::Render (gles)` (RPI.cpp 2298-2317), the overload that only
presents. -/
def Render_gles (egl : EGL) (w : World) : Bool × World :=
  let e := egl.enter w
  if e.1 then
    let sw := swapBuffers e.2
    let r := release (sw.2.emit Ev.sync)
    (r.1 && sw.1, r.2)
  else (false, e.2)

/-- Method `EGL::Render (prefunc, postfunc)` (RPI.cpp 2349-2373). -/
def Render_pre_post (egl : EGL) (prefunc postfunc : GLES → World → St) (g : GLES)
    (w : World) : St :=
  let e := egl.enter w
  if e.1 then
    let s1 := prefunc g e.2
    let w1 := s1.2.2.emit Ev.sync
    let s2 : St :=
      if s1.1 then
        let sw := swapBuffers w1
        if sw.1 then postfunc s1.2.1 sw.2 else (false, s1.2.1, sw.2)
      else (false, s1.2.1, w1)
    let r := release (s2.2.2.emit Ev.sync)
    (r.1 && s2.1, s2.2.1, r.2)
  else (false, g, e.2)

end EGL

/-! ## Class `CompositorImplementation` (RPI.cpp 224-3031) -/

/-- The values of `Exchange::IComposition::ScreenResolution` the code names,
and the remaining ones. -/
inductive ScreenResolution where
  | ScreenResolution_Unknown
  | ScreenResolution_480i
  | ScreenResolution_480p
  | ScreenResolution_720p
  | ScreenResolution_720p50Hz
  | ScreenResolution_1080p24Hz
  | ScreenResolution_1080i50Hz
  | ScreenResolution_1080p50Hz
  | ScreenResolution_1080p60Hz
  | ScreenResolution_2160p50Hz
  | ScreenResolution_2160p60Hz
  | ScreenResolution_Other (code : Nat)
deriving DecidableEq, Repr

open ScreenResolution

/-- What the platform object `ModeSet` reports. -/
structure ModeSet where
  width : Nat
  height : Nat
  vrefresh : Nat
  interlaced : Bool
deriving DecidableEq, Repr

/-- Class `DMATransfer` (RPI.cpp 270-676), with the run state of its thread. -/
structure DMATransfer where
  _listen : Int
  _transfer : Int
  _valid : Bool
  running : Bool
deriving DecidableEq, Repr

/-- The data members of `CompositorImplementation`. Observers are identified
by a number, the registry `_clients` is the list of its named entries. -/
structure CompositorImplementation where
  _observers : List Nat
  _clients : List (String × ClientSurface)
  _platform : ModeSet
  _dma : Option DMATransfer
  _egl : EGL
  _gles : GLES
deriving DecidableEq, Repr

/-- The result of an operation of the compositor. -/
abbrev Out (α : Type) := α × CompositorImplementation × World

namespace CompositorImplementation

/-- Method `_clients.Find (name)`: `none` stands for an invalid proxy. -/
def Find (c : CompositorImplementation) (name : String) : Option ClientSurface :=
  c._clients.lookup name

/-- Store the changed object of the client registered under `name`. -/
def store (c : CompositorImplementation) (name : String) (client : ClientSurface) :
    CompositorImplementation :=
  { c with _clients := c._clients.map (fun e => if e.1 = name then (e.1, client) else e) }

/-- The local function `RefreshRateFromResolution` of `CompositeFor`
(RPI.cpp 2672-2693). -/
def RefreshRateFromResolution : ScreenResolution → Int
  | ScreenResolution_1080p24Hz => 24
  | ScreenResolution_720p50Hz => 50
  | ScreenResolution_1080i50Hz => 50
  | ScreenResolution_1080p50Hz => 50
  | ScreenResolution_2160p50Hz => 50
  | ScreenResolution_480i => 60
  | ScreenResolution_480p => 60
  | ScreenResolution_720p => 60
  | ScreenResolution_1080p60Hz => 60
  | ScreenResolution_2160p60Hz => 60
  | ScreenResolution_Unknown => 60
  | ScreenResolution_Other _ => 60

/-- Method `WidthFromResolution` (RPI.cpp 2734-2758). -/
def WidthFromResolution : ScreenResolution → Nat
  | ScreenResolution_480p => 720
  | ScreenResolution_720p => 1280
  | ScreenResolution_720p50Hz => 1280
  | ScreenResolution_1080p24Hz => 1920
  | ScreenResolution_1080i50Hz => 1920
  | ScreenResolution_1080p50Hz => 1920
  | ScreenResolution_1080p60Hz => 1920
  | ScreenResolution_2160p50Hz => 2160
  | ScreenResolution_2160p60Hz => 2160
  | ScreenResolution_480i => 0
  | ScreenResolution_Unknown => 0
  | ScreenResolution_Other _ => 0

/-- Method `HeightFromResolution` (RPI.cpp 2760-2780). -/
def HeightFromResolution : ScreenResolution → Nat
  | ScreenResolution_480i => 480
  | ScreenResolution_480p => 480
  | ScreenResolution_720p => 720
  | ScreenResolution_720p50Hz => 720
  | ScreenResolution_1080p24Hz => 1080
  | ScreenResolution_1080i50Hz => 1080
  | ScreenResolution_1080p50Hz => 1080
  | ScreenResolution_1080p60Hz => 1080
  | ScreenResolution_2160p50Hz => 2160
  | ScreenResolution_2160p60Hz => 2160
  | ScreenResolution_Unknown => 0
  | ScreenResolution_Other _ => 0

/-- Method `Resolution ()` (RPI.cpp 2932-2994). -/
def Resolution (c : CompositorImplementation) : ScreenResolution :=
  let _height := c._platform.height
  let _vrefresh := c._platform.vrefresh
  if c._platform.interlaced ≠ true then
    if _height = 480 then ScreenResolution_480p
    else if _height = 720 then
      (if _vrefresh ≠ 50 then ScreenResolution_720p else ScreenResolution_720p50Hz)
    else if _height = 1080 then
      (if _vrefresh = 24 then ScreenResolution_1080p24Hz
       else if _vrefresh = 50 then ScreenResolution_1080p50Hz
       else if _vrefresh = 60 then ScreenResolution_1080p60Hz
       else ScreenResolution_Unknown)
    else if _height = 2160 then
      (if _vrefresh = 50 then ScreenResolution_2160p50Hz
       else if _vrefresh = 60 then ScreenResolution_2160p60Hz
       else ScreenResolution_Unknown)
    else ScreenResolution_Unknown
  else
    if _height = 480 then ScreenResolution_480i
    else if _height = 1080 then
      (if _vrefresh ≠ 50 then ScreenResolution_Unknown else ScreenResolution_1080i50Hz)
    else ScreenResolution_Unknown

end CompositorImplementation

namespace DMATransfer

/-- Method `DMATransfer::Connect`, and `Disconnect`, which has the same body
(RPI.cpp 418-440). -/
def Connect (d : DMATransfer) (w : World) : Bool := decide (d._transfer > -1) && w.errnoZero

/-- Method `DMATransfer::Receive` (RPI.cpp 353-365, 569-675): the flag, the
message and the descriptor. -/
def Receive (d : DMATransfer) (w : World) : Bool × String × Int :=
  if d._valid && d.Connect w then
    match w.incoming with
    | some (msg, fd) => (d.Connect w && true, msg, fd)
    | none => (d.Connect w && false, "", -1)
  else (false, "", -1)

/-- Method `DMATransfer::Send` (RPI.cpp 368-380, 442-567). -/
def Send (d : DMATransfer) (w : World) (msg : String) (fd : Int) : Bool × World :=
  if d._valid && d.Connect w then
    if msg.length > 0 then
      -- getsockopt, then sendmsg
      let o := w.sys
      let r : Bool × World := if o.1 then (o.2.emit (Ev.send msg fd)).sys else (false, o.2)
      (d.Connect r.2 && (r.1 && d.Connect r.2), r.2)
    else (false, w)
  else (false, w)

/-- The constructor of `DMATransfer` with `_Initialize` (RPI.cpp 290, 384-405):
`socket`, `bind` and `listen`. -/
def create (w : World) : DMATransfer × World :=
  let so := w.sys
  let _listen : Int := if so.1 then so.2.listenFd else -1
  let bi : Bool × World := if _listen ≠ -1 then so.2.sys else (false, so.2)
  let li : Bool × World := if bi.1 then bi.2.sys else bi
  (⟨_listen, -1, li.1, false⟩, li.2.emit (Ev.channelUp li.1))

end DMATransfer

namespace CompositorImplementation

/-- The text of `std::to_string` for an unsigned value. -/
def to_string (n : Nat) : String := Nat.repr n

/-- The string `properties` of `FDFor` (RPI.cpp 2538-2545). -/
def propertiesOf (bo : gbm_bo) : String :=
  ":" ++ (to_string bo.width ++ ":")
      ++ (to_string bo.height ++ ":")
      ++ (to_string bo.stride ++ ":")
      ++ (to_string bo.format ++ ":")
      ++ to_string bo.modifier

/-- Method `FDFor (name, fd, properties)` (RPI.cpp 2493-2549): the flag, `fd`
and `properties` after the call. -/
def FDFor (c : CompositorImplementation) (w : World) (name : String) (fd : Int)
    (properties : String) : Out (Bool × Int × String) :=
  match c.Find name with
  | none => ((false, fd, properties), c, w)
  | some _client =>
    if name ≠ _client._name then ((false, fd, properties), c, w)
    else
      match c._dma with
      | none => ((false, fd, properties), c, w)
      | some _ =>
        let fd1 := _client.Native
        if fd1 > -1 then
          let img := c._egl.CreateImage _client._nativeSurface w
          let sc := _client.Surface img.1
          let c1 := c.store name sc.2
          match sc.1._buf with
          | some bo => ((true, fd1, propertiesOf bo), c1, img.2)
          | none => ((false, fd1, properties), c1, img.2)
        else ((false, fd1, properties), c, w)

/-- The scale `CompositeFor` derives (RPI.cpp 2620), in exact arithmetic. -/
def derivedScale (p : ModeSet) (_geom : Rectangle) : scale :=
  ⟨(_geom.width : ℚ) / (p.width : ℚ), (_geom.height : ℚ) / (p.height : ℚ)⟩

/-- The offset `CompositeFor` derives (RPI.cpp 2640), in exact arithmetic. -/
def derivedOffset (K : IComposition) (p : ModeSet) (_geom : Rectangle) (_zorder : Nat) : offset :=
  ⟨(derivedScale p _geom)._horiz * (_geom.x : ℚ) / (_geom.width : ℚ),
   (derivedScale p _geom)._vert * (_geom.y : ℚ) / (_geom.height : ℚ),
   (_zorder : ℚ) / ((K.maxZOrder : ℚ) - (K.minZOrder : ℚ))⟩

/-- The opacity `CompositeFor` derives (RPI.cpp 2655), in exact arithmetic. -/
def derivedOpacity (K : IComposition) (_opa : Nat) : opacity :=
  ⟨(_opa : ℚ) / ((K.maxOpacity : ℚ) - (K.minOpacity : ℚ))⟩

/-- The first half of `CompositeFor` for a render-complete client
(RPI.cpp 2567-2661): the transform updates and stage 1. When one of the four
divisors is zero a derived offset coordinate is not a finite number, and
`UpdateOffset`, which is evaluated first, refuses it. -/
def stage1 (K : IComposition) (c : CompositorImplementation) (w : World)
    (client : ClientSurface) (bo : gbm_bo) : St :=
  let _geom := client._destination
  if c._platform.width = 0 ∨ c._platform.height = 0 ∨ _geom.width = 0 ∨ _geom.height = 0 then
    (false, c._gles, w)
  else
    let _scale := derivedScale c._platform _geom
    let _offset := derivedOffset K c._platform _geom client._layer
    let _opacity := derivedOpacity K client._opacity
    let s : St :=
      (true, c._gles, w)
        |> andG (fun g => g.UpdateOffset _offset)
        |> andG (fun g => g.UpdateScale _scale)
        |> andG (fun g => g.UpdateOpacity _opacity)
    if s.1 then
      c._egl.RenderWithoutSwap
        (fun g w => g.RenderEGLImage w client._nativeSurface._khr bo.width bo.height) s.2.1 s.2.2
    else s

/-- The second half of `CompositeFor` (RPI.cpp 2666-2724): stage 2 with the
presentation, then the pacing sleep. -/
def stage2 (c : CompositorImplementation) (g : GLES) (w : World) : St :=
  let _milli : Int := 1000
  let _resolution := c.Resolution
  let _rate := RefreshRateFromResolution _resolution
  let _delay : Int := Int.tdiv _milli _rate
  let _start := w.now
  let s := c._egl.Render
    (fun g w => g.RenderScene w (WidthFromResolution _resolution)
                  (HeightFromResolution _resolution) zGreater) true g w
  let w1 : World := if s.1 then s.2.2.emit Ev.platformSwap else s.2.2
  let w2 : World := { w1 with now := w1.now + w1.passCost }
  let _end := w2.now
  let _duration := _end - _start
  let w3 : World :=
    if _duration < _delay then
      { w2 with now := w2.now + (_delay - _duration),
                trace := w2.trace ++ [Ev.sleep (_delay - _duration)] }
    else w2
  (s.1, s.2.1, w3)

/-- Method `CompositeFor (name)` (RPI.cpp 2552-2728). -/
def CompositeFor (K : IComposition) (c : CompositorImplementation) (w : World)
    (name : String) : Out Bool :=
  match c.Find name with
  | none => (false, c, w)
  | some _client =>
    if name ≠ _client._name then (false, c, w)
    else
      let _surf := _client._nativeSurface
      if _surf.RenderComplete && c._egl.Valid && c._gles.Valid then
        match _surf._buf with
        | none => (false, c, w)
        | some bo =>
          let s1 := stage1 K c w _client bo
          if s1.1 then
            let s2 := stage2 c s1.2.1 s1.2.2
            (s2.1, { c with _gles := s2.2.1 }, s2.2.2)
          else (false, { c with _gles := s1.2.1 }, s1.2.2)
      else (false, c, w)

/-- The notification loop of `Attached` (RPI.cpp 2835-2841). -/
def Attached (c : CompositorImplementation) (w : World) (name : String) : World :=
  c._observers.foldl (fun w o => w.emit (Ev.attached o name)) w

/-- Method `Detached (name)` (RPI.cpp 2842-2861). -/
def Detached (c : CompositorImplementation) (w : World) (name : String) : Out Unit :=
  let r : CompositorImplementation × World :=
    match c.Find name with
    | some _client =>
      let _img := _client._nativeSurface._khr
      let sk := c._gles.SkipEGLImageFromScene w _img
      let de := c._egl.DestroyImage _client._nativeSurface sk.2.2
      let sc := _client.Surface de.1
      ({ (c.store name sc.2) with _gles := sk.2.1 }, de.2)
    | none => (c, w)
  ((), r.1, c._observers.foldl (fun w o => w.emit (Ev.detached o name)) r.2)

/-- The constructor of `ClientSurface` (RPI.cpp 3038-3066). -/
def newSurface (K : IComposition) (w : World) (name : String) (width height : Nat) :
    ClientSurface :=
  let _nativeSurface : surf_t :=
    match w.bufferObject width height with
    | none => ⟨none, -1, InvalidImage⟩
    | some bo => ⟨some bo, bo.fd, InvalidImage⟩
  ⟨_nativeSurface, name, K.maxOpacity, 0, ⟨0, 0, width, height⟩⟩

/-- Method `CreateClient (name, width, height)` (RPI.cpp 2894-2930); the
registry hands out the object already registered under the name, if any. -/
def CreateClient (K : IComposition) (c : CompositorImplementation) (w : World)
    (name : String) (width height : Nat) : Out (Option ClientSurface) :=
  if w.registryOk then
    let object : ClientSurface :=
      match c.Find name with
      | some existing => existing
      | none => newSurface K w name width height
    let c1 : CompositorImplementation :=
      match c.Find name with
      | some _ => c
      | none => { c with _clients := c._clients ++ [(name, object)] }
    let w1 := c1.Attached w name
    let d := DMATransfer.create w1
    if d.1._valid ≠ true then
      (some object, { c1 with _dma := none }, d.2.emit Ev.channelDown)
    else
      (some object, { c1 with _dma := some { d.1 with running := true } }, d.2)
  else (none, c, w)

end CompositorImplementation

/-- Method `DMATransfer::Worker` (RPI.cpp 305-348), for the channel `d` of the
compositor: the channel, the compositor and the driver after the call. -/
def DMATransfer.Worker (d : DMATransfer) (c : CompositorImplementation) (w : World) :
    DMATransfer × CompositorImplementation × World :=
  if d.running then
    let d1 : DMATransfer := { d with _transfer := w.accepted }
    let rc := d1.Receive w
    if rc.1 then
      let fr := c.FDFor w rc.2.1 rc.2.2 ""
      if fr.1.1 then
        let se := d1.Send fr.2.2 (rc.2.1 ++ fr.1.2.2) fr.1.2.1
        if se.1 then
          (({ d1 with _transfer := -1 } : DMATransfer), fr.2.1, se.2.emit (Ev.close d1._transfer))
        else (d1, fr.2.1, se.2)
      else (d1, fr.2.1, fr.2.2)
    else (d1, c, w)
  else (d, c, w)

/-! ## Sequences of operations -/

/-- The operations of the compositor a client can trigger. -/
inductive Op where
  | CreateClient (name : String) (width height : Nat)
  | FDFor (name : String)
  | CompositeFor (name : String)
  | Detached (name : String)
deriving DecidableEq, Repr

/-- One operation. -/
def Op.run (K : IComposition) (c : CompositorImplementation) (w : World) :
    Op → CompositorImplementation × World
  | .CreateClient name width height => (c.CreateClient K w name width height).2
  | .FDFor name => (c.FDFor w name (-1) "").2
  | .CompositeFor name => (c.CompositeFor K w name).2
  | .Detached name => (c.Detached w name).2

/-- A sequence of operations, first to last. -/
def runOps (K : IComposition) (c : CompositorImplementation) (w : World) :
    List Op → CompositorImplementation × World
  | [] => (c, w)
  | op :: rest => runOps K (op.run K c w).1 (op.run K c w).2 rest

end Compositor

/-! ## Class `A2DP::TransportChannel` (BluetoothAudioSink/TransportChannel.h) -/

namespace A2DP

/-- What the channel asks of the codec behind `IAudioCodec * _codec`: the
8-bit value of `Channels ()`. -/
structure IAudioCodec where
  Channels : Nat
deriving DecidableEq, Repr

/-- The data members of `TransportChannel` the transmission touches:
`_timestamp` is a 32-bit, `_sequence` a 16-bit and `_ssrc` an 8-bit unsigned
value, `none` stands for the null codec. -/
structure TransportChannel where
  _codec : Option IAudioCodec
  _ssrc : Nat
  _timestamp : Nat
  _sequence : Nat
deriving DecidableEq, Repr

namespace TransportChannel

/-- Method `BytesPerSample` (TransportChannel.h 127-130). -/
def BytesPerSample (_ : TransportChannel) : Nat := 2

/-- Method `Reset` (TransportChannel.h 141-146); `ticks` is the reading of
`Core::Time::Now ().Ticks ()`. -/
def Reset (t : TransportChannel) (ticks : Nat) : TransportChannel :=
  { t with _timestamp := 0, _sequence := ticks % 2 ^ 16 }

/-- Method `Transmit (length, data)` (TransportChannel.h 147-170). The media
packet and the socket are not part of the sources at hand: `ingest` is what
`packet.Ingest (length, data)` returns for the packet built from the codec,
`_ssrc`, `_sequence` and `_timestamp`, and `exchange` the result code of
`Exchange`. The result is the returned value and the channel afterwards;
`none` stands for the undefined behaviour of a null codec or of a division by
zero. -/
def Transmit (t : TransportChannel)
    (ingest : IAudioCodec → Nat → Nat → Nat → Nat → List Nat → Nat) (exchange : Nat)
    (length : Nat) (data : List Nat) : Option (Nat × TransportChannel) :=
  match t._codec with
  | none => none
  | some codec =>
    let consumed : Nat := ingest codec t._ssrc t._sequence t._timestamp length data % 2 ^ 32
    if consumed > 0 then
      -- the result of `Exchange` is only printed
      let _result := exchange
      if codec.Channels * t.BytesPerSample = 0 then none
      else
        some (consumed,
          { t with
              _timestamp := (t._timestamp + consumed / (codec.Channels * t.BytesPerSample))
                              % 2 ^ 32,
              _sequence := (t._sequence + 1) % 2 ^ 16 })
    else some (consumed, t)

/-- The 32-bit value `consumed` of `Transmit`: what the packet ingested. -/
def consumed (t : TransportChannel) (codec : IAudioCodec)
    (ingest : IAudioCodec → Nat → Nat → Nat → Nat → List Nat → Nat)
    (length : Nat) (data : List Nat) : Nat :=
  ingest codec t._ssrc t._sequence t._timestamp length data % 2 ^ 32

end TransportChannel

/-- A packet that ingests all it is given. -/
def sampleIngest : IAudioCodec → Nat → Nat → Nat → Nat → List Nat → Nat :=
  fun _ _ _ _ length _ => length

end A2DP

namespace Compositor

/-! ## Vocabulary of the statements -/

/-- The comparator that puts the larger key first. -/
def byKey {α : Type} (key : α → ℚ) (a b : α) : Bool := decide (key a > key b)

/-- Lists whose keys never increase. -/
def Desc {α : Type} (key : α → ℚ) (l : List α) : Prop :=
  l.Pairwise (fun a b => key a ≥ key b)

/-- The counters of the sort, flattened with the oldest elements first. -/
def flatRuns {α : Type} : List (List α) → List α
  | [] => []
  | c :: rest => flatRuns rest ++ c

/-- The events that matter for the draw sequence: texture bindings and draws. -/
def isMark : Ev → Bool
  | Ev.gl (GLCmd.BindTexture _ _) => true
  | Ev.gl GLCmd.DrawArrays => true
  | _ => false

/-- The bindings and draws of the trace. -/
def World.marks (w : World) : List Ev := w.trace.filter isMark

/-- The draw sequence of a run of events: for each `glDrawArrays` the texture
the latest `glBindTexture` names; `b` is the binding at the start. -/
def drawn : Option (tgt_t × tex_t) → List Ev → List (tgt_t × tex_t)
  | _, [] => []
  | b, e :: es =>
    match e with
    | Ev.gl (GLCmd.BindTexture tgt tex) => drawn (some (tgt, tex)) es
    | Ev.gl GLCmd.DrawArrays => b.toList ++ drawn b es
    | _ => drawn b es

/-- The name the draw sequence uses for a scene entry. -/
def texture.name (t : texture) : tgt_t × tex_t := (t._target, t._tex)

/-- A scene entry with another cached z. -/
def texture.withZ (t : texture) (z : ℚ) : texture :=
  { t with _offset := { t._offset with _z := z } }

/-- A driver in which every call succeeds and every extension is present. -/
def World.quiet : World where
  fail := fun _ => false
  issued := 0
  glError := false
  eglError := false
  nextTex := 1
  textures := []
  nextImg := 1
  images := []
  current := false
  surfaceWidth := 1280
  surfaceHeight := 720
  maxViewportDims := (4096, 4096)
  depthBits := 16
  glExtensions := some "GL_OES_EGL_image GL_OES_EGL_image_external".toList
  eglExtensions := some ("EGL_KHR_image EGL_KHR_image_base EGL_EXT_image_dma_buf_import "
    ++ "EGL_EXT_image_dma_buf_import_modifiers").toList
  egl15 := false
  procs := true
  drmFormats := [875713112]
  eglFormats := [875713112]
  eglModifiers := fun _ => [(0, true)]
  now := 0
  passCost := 5
  accepted := 7
  incoming := none
  errnoZero := true
  listenFd := 3
  registryOk := true
  bufferObject := fun width height => some ⟨width, height, 4 * width, 875713112, 0, 5⟩
  trace := []

/-- A scene entry of size 1 x 1 at the origin, at full scale and opacity,
with texture `n` and cached z `z`. -/
def texture.sample (n : tex_t) (z : ℚ) : texture :=
  ⟨n, GL_TEXTURE_2D, ⟨0, 0, z⟩, ⟨1, 1⟩, ⟨1⟩, 1, 1⟩

/-- A renderer whose scene holds three images, with the cached z of the z
keys `3`, `1`, `2` for a z range of 255. -/
def GLES.sample : GLES :=
  ⟨⟨0, 0, 0⟩, ⟨1, 1⟩, ⟨1⟩, true,
   [(1, texture.sample 11 (3 / 255)), (2, texture.sample 12 (1 / 255)),
    (3, texture.sample 13 (2 / 255))]⟩

/-- A driver state in which no call fails. -/
structure World.Calm (w : World) : Prop where
  fail : ∀ n, w.fail n = false
  glError : w.glError = false
  eglError : w.eglError = false
  current : w.current = true
  procs : w.procs = true

/-- Whether the command creates a texture name. -/
def GLCmd.gens : GLCmd → Nat
  | .GenTextures _ => 1
  | _ => 0

/-- The transform fields of a scene entry replaced by those of the renderer. -/
def texture.refresh (t : texture) (g : GLES) : texture :=
  { t with _offset := g._offset, _scale := g._scale, _opacity := g._opacity }

/-- The fields of a text, split at each colon. -/
def fields : List Char → List (List Char)
  | [] => [[]]
  | c :: cs =>
    if c = ':' then [] :: fields cs
    else
      match fields cs with
      | [] => [[c]]
      | f :: fs => (c :: f) :: fs

/-- The value of a decimal digit. -/
def digitValue (c : Char) : Option Nat :=
  if '0' ≤ c ∧ c ≤ '9' then some (c.toNat - '0'.toNat) else none

/-- The number a run of decimal digits denotes, given the number read so far. -/
def parseDigits : Option Nat → List Char → Option Nat
  | acc, [] => acc
  | acc, c :: cs =>
    parseDigits (match acc, digitValue c with
                 | some a, some d => some (10 * a + d)
                 | _, _ => none) cs

/-- The number a decimal text denotes; the empty text denotes none. -/
def parseDec : List Char → Option Nat
  | [] => none
  | c :: cs => parseDigits (some 0) (c :: cs)

/-- The constants of the interface header, with the ranges `0 .. 255`. -/
def IComposition.sample : IComposition := ⟨0, 255, 0, 255, by decide, by decide⟩

/-- A compositor without clients, with two observers, on a 1280 x 720 display
at 60 Hz. -/
def CompositorImplementation.init : CompositorImplementation :=
  ⟨[1, 2], [], ⟨1280, 720, 60, false⟩, none, ⟨true⟩, GLES.init⟩

/-- The image identities the registered clients currently hold. -/
def CompositorImplementation.liveImages (c : CompositorImplementation) : List img_t :=
  c._clients.map (fun e => e.2._nativeSurface._khr)

/-- The driver without errors, with a context current. -/
def World.ready : World := { World.quiet with current := true }

/-- The driver without errors, with a transfer request for the name `ghost`
pending. -/
def World.request : World := { World.quiet with incoming := some ("ghost", -1) }

/-- The compositor after a client `a` was created, imported and composited
once, with the driver at that point. -/
def composited : CompositorImplementation × World :=
  runOps IComposition.sample CompositorImplementation.init World.quiet
    [Op.CreateClient "a" 1280 720, Op.FDFor "a", Op.CompositeFor "a"]

/-- A driver without errors that lists the modifier `0` for every format, not
flagged for external sampling. -/
def World.lax : World := { World.quiet with eglModifiers := fun _ => [(0, false)] }

/-- The surface of a client with a buffer of 1280 x 720 in the format and with
the modifier the quiet driver lists, exported as descriptor `5`, not imported
yet. -/
def surf_t.sample : surf_t := ⟨some ⟨1280, 720, 5120, 875713112, 0, 5⟩, 5, InvalidImage⟩

/-- A driver in which exactly the call with number `n` fails. -/
def World.failing (n : Nat) : World := { World.quiet with fail := fun k => decide (k = n) }

/-- A render function that issues no command and reports success. -/
def idle (g : GLES) (w : World) : St := (true, g, w)

/-- The events of the life of a transfer channel: construction and deletion. -/
def isChannel : Ev → Bool
  | Ev.channelUp _ => true
  | Ev.channelDown => true
  | _ => false

/-- The pass `CompositeFor` hands to `EGL::Render` (RPI.cpp 2709): stage 2 on
the resolution of the display, presented afterwards. -/
def CompositorImplementation.pass (c : CompositorImplementation) (g : GLES) (w : World) : St :=
  c._egl.Render
    (fun g w => g.RenderScene w (CompositorImplementation.WidthFromResolution c.Resolution)
                  (CompositorImplementation.HeightFromResolution c.Resolution) zGreater) true g w

/-- The pacing interval `_delay` of `CompositeFor` in milliseconds
(RPI.cpp 2695-2702). -/
def CompositorImplementation.interval (c : CompositorImplementation) : Int :=
  Int.tdiv 1000 (CompositorImplementation.RefreshRateFromResolution c.Resolution)

/-- The duration `CompositeFor` measures for a pass that starts at `w`: the
clock reading after the pass and its presentation, less the reading at the
start. -/
def CompositorImplementation.measured (c : CompositorImplementation) (g : GLES) (w : World) :
    Int :=
  (c.pass g w).2.2.now + (c.pass g w).2.2.passCost - w.now

/-- A compositor without clients on a display in the given mode. -/
def CompositorImplementation.onMode (height vrefresh : Nat) (interlaced : Bool) :
    CompositorImplementation :=
  { CompositorImplementation.init with _platform := ⟨1280, height, vrefresh, interlaced⟩ }

/-- The modes whose classification names a refresh rate. -/
def ModeSet.rated (p : ModeSet) : Prop :=
  (p.interlaced = false
    ∧ ((p.height = 720 ∧ p.vrefresh = 50)
        ∨ (p.height = 1080 ∧ (p.vrefresh = 24 ∨ p.vrefresh = 50 ∨ p.vrefresh = 60))
        ∨ (p.height = 2160 ∧ (p.vrefresh = 50 ∨ p.vrefresh = 60))))
  ∨ (p.interlaced = true ∧ p.height = 1080 ∧ p.vrefresh = 50)

instance (p : ModeSet) : Decidable p.rated := by unfold ModeSet.rated; infer_instance

/-- The values `_quirk_x`, `_quirk_y`, `_quirk_width`, `_quirk_height` that
`SetupViewport` computes for a surface of the given size (RPI.cpp 1800-1804):
the viewport `(x, y, w, h)` before the casts. -/
def GLES.quirk (g : GLES) (_width _height : Int) : ℚ × ℚ × ℚ × ℚ :=
  (((-_width : Int) : ℚ) * g._scale._horiz + g._offset._x * (_width : ℚ),
   ((-_height : Int) : ℚ) * g._scale._vert + g._offset._y * (_height : ℚ),
   (_width : ℚ) * 2 * g._scale._horiz,
   (_height : ℚ) * 2 * g._scale._vert)

/-- The condition under which `SetupViewport` reports, on the viewport
`(x, y, w, h)`: an applied origin `w/2 + x`, `h/2 + y` left of or below the
surface, a positive `x` or `y`, an applied extent `w/2`, `h/2` above the size
of the surface, or a surface larger than the maximum of the device. -/
def anomaly (v : ℚ × ℚ × ℚ × ℚ) (_width _height : Int) (dims : Int × Int) : Prop :=
  v.2.2.1 / 2 + v.1 < 0
  ∨ v.2.2.2 / 2 + v.2.1 < 0
  ∨ v.1 > 0
  ∨ v.2.1 > 0
  ∨ v.2.2.1 / 2 > (_width : ℚ)
  ∨ v.2.2.2 / 2 > (_height : ℚ)
  ∨ _width > dims.1
  ∨ _height > dims.2

instance (v : ℚ × ℚ × ℚ × ℚ) (a b : Int) (dims : Int × Int) : Decidable (anomaly v a b dims) := by
  unfold anomaly; infer_instance

/-- A renderer with an empty scene and the given horizontal scale and offset,
at full vertical scale. -/
def GLES.placed (horiz x : ℚ) : GLES := ⟨⟨x, 0, 0⟩, ⟨horiz, 1⟩, ⟨1⟩, true, []⟩

/-- The buffer of the client `a`. -/
def gbm_bo.sample : gbm_bo := ⟨1280, 720, 5120, 875713112, 0, 5⟩

/-- The client `a` after its import: full opacity, z-order `0`, the image `1`. -/
def ClientSurface.sample : ClientSurface :=
  ⟨⟨some gbm_bo.sample, 5, 1⟩, "a", 255, 0, ⟨0, 0, 1280, 720⟩⟩

/-- The compositor after a client `a` was created and imported, with the
driver at that point, for a driver that started as `w`. -/
def imported (w : World) : CompositorImplementation × World :=
  runOps IComposition.sample CompositorImplementation.init w
    [Op.CreateClient "a" 1280 720, Op.FDFor "a"]

/-- A driver without errors on which a pass with its presentation takes 20 ms. -/
def World.slow : World := { World.quiet with passCost := 20 }

/-- Events other than the acquisition and the release of the scene lock. -/
def Ev.free (e : Ev) : Prop := e ≠ Ev.lock ∧ e ≠ Ev.unlock

/-- The record of `w2` is that of `w1` followed by events that leave the lock alone. -/
def Grows (w1 w2 : World) : Prop := ∃ Y, w2.trace = w1.trace ++ Y ∧ ∀ e ∈ Y, e.free

/-- The events issued while the scene lock is held; `held` tells whether it
is held at the start. -/
def underLock : Bool → List Ev → List Ev
  | _, [] => []
  | held, e :: es =>
    match e with
    | Ev.lock => underLock true es
    | Ev.unlock => underLock false es
    | _ => (if held then [e] else []) ++ underLock held es

/-- The events `w2` records beyond those of `w1`. -/
def news (w1 w2 : World) : List Ev := w2.trace.drop w1.trace.length

/-- The tokens of a text, split at each space. -/
def tokens : List Char → List (List Char)
  | [] => [[]]
  | c :: cs =>
    if c = ' ' then [] :: tokens cs
    else
      match tokens cs with
      | [] => [[c]]
      | f :: fs => (c :: f) :: fs

/-- A driver without errors whose GL extension string is the single token
`GL_OES_EGL_image_external`. -/
def World.external : World :=
  { World.quiet with glExtensions := some "GL_OES_EGL_image_external".toList }

/-- The compositor after the client `a` was created and imported and its
geometry and opacity were set, with the driver at that point. -/
def restyled (rectangle : Rectangle) (value : Nat) : CompositorImplementation × World :=
  ((imported World.quiet).1.store "a" ((ClientSurface.sample.Geometry rectangle).Opacity value),
   (imported World.quiet).2)

/-- An object whose transform places a client over a quarter of the display,
half transparent, with an empty scene. -/
def GLES.styled : GLES := ⟨⟨1 / 4, 1 / 4, 0⟩, ⟨1 / 2, 1 / 2⟩, ⟨1 / 2⟩, true, []⟩

/-- A dma-buf surface like the one of client `a`, with a modifier that does
not fit 32 bits. -/
def surf_t.tiled : surf_t := ⟨some ⟨1280, 720, 5120, 875713112, 2 ^ 56 + 7, 5⟩, 5, InvalidImage⟩

/-- The driver that supports the modifier of `surf_t.tiled`. -/
def World.tiled : World :=
  { World.quiet with eglModifiers := fun _ => [(2 ^ 56 + 7, false)] }

/-- The compositor after the client `a` was created and imported and its
geometry, opacity and z-order were set, with the driver at that point. -/
def arranged (rectangle : Rectangle) (value zorder : Nat) : CompositorImplementation × World :=
  ((imported World.quiet).1.store "a"
      (((ClientSurface.sample.Geometry rectangle).Opacity value).ZOrder zorder),
   (imported World.quiet).2)

/-! ## Theorems -/

/-! ### The sort -/

section sortlemmas
variable {α : Type} (comp : α → α → Bool)

theorem listMerge_nil_right (xs : List α) : listMerge comp xs [] = xs := by
  induction xs with
  | nil => rfl
  | cons x xs ih => simp [listMerge, mergeInto, ih]

theorem listMerge_nil_left (ys : List α) : listMerge comp [] ys = ys := rfl

theorem listMerge_cons_cons (x : α) (xs : List α) (y : α) (ys : List α) :
    listMerge comp (x :: xs) (y :: ys) =
      if comp y x then y :: listMerge comp (x :: xs) ys else x :: listMerge comp xs (y :: ys) := by
  simp only [listMerge, mergeInto]

theorem listMerge_perm (xs ys : List α) : (listMerge comp xs ys).Perm (xs ++ ys) := by
  induction xs generalizing ys with
  | nil => simp [listMerge_nil_left]
  | cons x xs ihx =>
    induction ys with
    | nil => simp [listMerge_nil_right]
    | cons y ys ihy =>
      rw [listMerge_cons_cons]
      split
      · refine (List.Perm.cons y ihy).trans ?_
        exact (@List.perm_middle _ y (x :: xs) ys).symm
      · exact List.Perm.cons x (ihx (y :: ys))
end sortlemmas

section keyed
variable {α : Type} (key : α → ℚ)

theorem listMerge_desc (xs ys : List α) (hx : Desc key xs) (hy : Desc key ys) :
    Desc key (listMerge (byKey key) xs ys) := by
  induction xs generalizing ys with
  | nil => simpa [listMerge_nil_left] using hy
  | cons x xs ihx =>
    induction ys with
    | nil => simpa [listMerge_nil_right] using hx
    | cons y ys ihy =>
      rw [listMerge_cons_cons]
      unfold Desc at hx hy ⊢
      rw [List.pairwise_cons] at hx hy
      split
      · rename_i h
        have hyx : key y > key x := by simpa [byKey] using h
        rw [List.pairwise_cons]
        refine ⟨?_, ihy hy.2⟩
        intro a ha
        have := (listMerge_perm (byKey key) (x :: xs) ys).mem_iff.1 ha
        rcases List.mem_append.1 this with h1 | h1
        · rcases List.mem_cons.1 h1 with rfl | h2
          · exact le_of_lt hyx
          · exact le_trans (hx.1 a h2) (le_of_lt hyx)
        · exact hy.1 a h1
      · rename_i h
        have hyx : key y ≤ key x := by simpa [byKey] using h
        rw [List.pairwise_cons]
        refine ⟨?_, ihx (y :: ys) hx.2 (List.pairwise_cons.2 hy)⟩
        intro a ha
        have := (listMerge_perm (byKey key) xs (y :: ys)).mem_iff.1 ha
        rcases List.mem_append.1 this with h1 | h1
        · exact hx.1 a h1
        · rcases List.mem_cons.1 h1 with rfl | h2
          · exact hyx
          · exact le_trans (hy.1 a h2) hyx

theorem listMerge_filter (v : ℚ) (xs ys : List α) (hx : Desc key xs) :
    (listMerge (byKey key) xs ys).filter (fun a => decide (key a = v))
      = xs.filter (fun a => decide (key a = v)) ++ ys.filter (fun a => decide (key a = v)) := by
  induction xs generalizing ys with
  | nil => simp [listMerge_nil_left]
  | cons x xs ihx =>
    induction ys with
    | nil => simp [listMerge_nil_right]
    | cons y ys ihy =>
      rw [listMerge_cons_cons]
      unfold Desc at hx
      have hx' := List.pairwise_cons.1 hx
      split
      · rename_i h
        have hyx : key y > key x := by simpa [byKey] using h
        by_cases hv : key y = v
        · have hnone : (x :: xs).filter (fun a => decide (key a = v)) = [] := by
            rw [List.filter_eq_nil_iff]
            intro a ha
            have hle : key a ≤ key x := by
              rcases List.mem_cons.1 ha with rfl | h2
              · exact le_refl _
              · exact hx'.1 a h2
            have : key a ≠ v := by
              intro h3; rw [h3, ← hv] at hle; exact absurd hyx (not_lt.2 hle)
            simpa using this
          rw [List.filter_cons_of_pos (by simpa using hv), ihy, hnone]
          simp [List.filter_cons_of_pos, hv]
        · rw [List.filter_cons_of_neg (by simpa using hv), ihy]
          simp [List.filter_cons_of_neg, hv]
      · by_cases hv : key x = v
        · rw [List.filter_cons_of_pos (by simpa using hv), ihx (y :: ys) hx'.2]
          simp [List.filter_cons_of_pos, hv]
        · rw [List.filter_cons_of_neg (by simpa using hv), ihx (y :: ys) hx'.2]
          simp [List.filter_cons_of_neg, hv]

end keyed

section runs
variable {α : Type} (key : α → ℚ)

theorem addRun_perm (comp : α → α → Bool) (carry : List α) (bins : List (List α)) :
    (flatRuns (addRun comp carry bins)).Perm (flatRuns bins ++ carry) := by
  induction bins generalizing carry with
  | nil => simp [addRun, flatRuns]
  | cons b rest ih =>
    cases b with
    | nil => simp [addRun, flatRuns]
    | cons c cs =>
      simp only [addRun, flatRuns, List.append_nil]
      refine (ih _).trans ?_
      rw [List.append_assoc]
      exact List.Perm.append_left _ (listMerge_perm comp (c :: cs) carry)

theorem addRun_desc (carry : List α) (bins : List (List α))
    (hb : ∀ b ∈ bins, Desc key b) (hc : Desc key carry) :
    ∀ b ∈ addRun (byKey key) carry bins, Desc key b := by
  induction bins generalizing carry with
  | nil => intro b hb'; simp [addRun] at hb'; subst hb'; exact hc
  | cons b rest ih =>
    cases b with
    | nil =>
      intro b hb'
      simp only [addRun, List.mem_cons] at hb'
      rcases hb' with rfl | h
      · exact hc
      · exact hb b (List.mem_cons_of_mem _ h)
    | cons c cs =>
      intro b hb'
      simp only [addRun, List.mem_cons] at hb'
      rcases hb' with rfl | h
      · exact List.Pairwise.nil
      · exact ih _ (fun b hb'' => hb b (List.mem_cons_of_mem _ hb''))
          (listMerge_desc key _ _ (hb _ (List.mem_cons_self _ _)) hc) b h

theorem addRun_filter (v : ℚ) (carry : List α) (bins : List (List α))
    (hb : ∀ b ∈ bins, Desc key b) :
    (flatRuns (addRun (byKey key) carry bins)).filter (fun a => decide (key a = v))
      = (flatRuns bins).filter (fun a => decide (key a = v))
        ++ carry.filter (fun a => decide (key a = v)) := by
  induction bins generalizing carry with
  | nil => simp [addRun, flatRuns]
  | cons b rest ih =>
    cases b with
    | nil => simp [addRun, flatRuns]
    | cons c cs =>
      simp only [addRun, flatRuns, List.append_nil, List.filter_append]
      rw [ih _ (fun b hb'' => hb b (List.mem_cons_of_mem _ hb'')),
        listMerge_filter key v _ _ (hb _ (List.mem_cons_self _ _)), List.append_assoc]

theorem collectRuns_perm (comp : α → α → Bool) (acc : List α) (bins : List (List α)) :
    (collectRuns comp acc bins).Perm (flatRuns bins ++ acc) := by
  induction bins generalizing acc with
  | nil => simp [collectRuns, flatRuns]
  | cons b rest ih =>
    simp only [collectRuns, flatRuns]
    refine (ih _).trans ?_
    rw [List.append_assoc]
    exact List.Perm.append_left _ (listMerge_perm comp b acc)

theorem collectRuns_desc (acc : List α) (bins : List (List α))
    (hb : ∀ b ∈ bins, Desc key b) (hc : Desc key acc) :
    Desc key (collectRuns (byKey key) acc bins) := by
  induction bins generalizing acc with
  | nil => simpa [collectRuns] using hc
  | cons b rest ih =>
    simp only [collectRuns]
    exact ih _ (fun b hb'' => hb b (List.mem_cons_of_mem _ hb''))
      (listMerge_desc key _ _ (hb _ (List.mem_cons_self _ _)) hc)

theorem collectRuns_filter (v : ℚ) (acc : List α) (bins : List (List α))
    (hb : ∀ b ∈ bins, Desc key b) :
    (collectRuns (byKey key) acc bins).filter (fun a => decide (key a = v))
      = (flatRuns bins).filter (fun a => decide (key a = v))
        ++ acc.filter (fun a => decide (key a = v)) := by
  induction bins generalizing acc with
  | nil => simp [collectRuns, flatRuns]
  | cons b rest ih =>
    simp only [collectRuns, flatRuns, List.filter_append]
    rw [ih _ (fun b hb'' => hb b (List.mem_cons_of_mem _ hb'')),
      listMerge_filter key v _ _ (hb _ (List.mem_cons_self _ _)), List.append_assoc]

theorem foldl_addRun (l : List α) (bins : List (List α)) (hb : ∀ b ∈ bins, Desc key b) :
    (flatRuns (l.foldl (fun bins x => addRun (byKey key) [x] bins) bins)).Perm (flatRuns bins ++ l)
    ∧ (∀ b ∈ l.foldl (fun bins x => addRun (byKey key) [x] bins) bins, Desc key b)
    ∧ ∀ v : ℚ, (flatRuns (l.foldl (fun bins x => addRun (byKey key) [x] bins) bins)).filter
          (fun a => decide (key a = v))
        = (flatRuns bins ++ l).filter (fun a => decide (key a = v)) := by
  induction l generalizing bins with
  | nil => simpa using hb
  | cons x l ih =>
    have hs : Desc key [x] := List.pairwise_singleton _ _
    have hb' := addRun_desc key [x] bins hb hs
    obtain ⟨h1, h2, h3⟩ := ih (addRun (byKey key) [x] bins) hb'
    refine ⟨?_, h2, ?_⟩
    · simp only [List.foldl_cons]
      refine h1.trans ?_
      have := (addRun_perm (byKey key) [x] bins).append_right l
      simpa [List.append_assoc] using this
    · intro v
      simp only [List.foldl_cons]
      rw [h3 v, List.filter_append, addRun_filter key v [x] bins hb]
      have hx : x :: l = [x] ++ l := rfl
      rw [hx]
      simp only [List.filter_append, List.append_assoc]

theorem listSort_spec (l : List α) :
    (listSort (byKey key) l).Perm l
    ∧ Desc key (listSort (byKey key) l)
    ∧ ∀ v : ℚ, (listSort (byKey key) l).filter (fun a => decide (key a = v))
        = l.filter (fun a => decide (key a = v)) := by
  obtain ⟨h1, h2, h3⟩ := foldl_addRun key l [] (by simp)
  unfold listSort
  refine ⟨?_, ?_, ?_⟩
  · refine (collectRuns_perm _ _ _).trans ?_
    simpa [flatRuns] using h1
  · exact collectRuns_desc key _ _ h2 List.Pairwise.nil
  · intro v
    rw [collectRuns_filter key v _ _ h2, h3 v]
    simp [flatRuns]

end runs

/-! ### Bindings and draws of the passes -/

@[simp] theorem marks_emit (w : World) (e : Ev) :
    (w.emit e).marks = w.marks ++ (if isMark e then [e] else []) := by
  simp [World.emit, World.marks, List.filter_append, List.filter_cons]

@[simp] theorem marks_gl (w : World) (cmd : GLCmd) :
    (w.gl cmd).marks = w.marks ++ (if isMark (Ev.gl cmd) then [Ev.gl cmd] else []) := by
  unfold World.gl World.marks
  split <;> cases cmd <;> simp [World.effect, List.filter_append, List.filter_cons]

@[simp] theorem marks_glGetError (w : World) : w.glGetError.2.marks = w.marks := rfl

@[simp] theorem marks_eglGetError (w : World) : w.eglGetError.2.marks = w.marks := rfl

@[simp] theorem marks_egl (w : World) : w.egl.2.marks = w.marks := rfl

@[simp] theorem marks_checked (w : World) (cmd : GLCmd) :
    (w.checked cmd).2.marks = w.marks ++ (if isMark (Ev.gl cmd) then [Ev.gl cmd] else []) := by
  simp [World.checked]

theorem marks_step (cmd : GLCmd) (s : Bool × World) :
    (step cmd s).2.marks
      = s.2.marks ++ (if s.1 = true ∧ isMark (Ev.gl cmd) = true then [Ev.gl cmd] else []) := by
  unfold step
  by_cases h : s.1 = true <;> simp [h]

theorem step_true (cmd : GLCmd) (s : Bool × World) (h : (step cmd s).1 = true) : s.1 = true := by
  unfold step at h
  by_cases h1 : s.1 = true
  · exact h1
  · simp [h1] at h

theorem steps_true (cmds : List GLCmd) (s : Bool × World) (h : (steps cmds s).1 = true) :
    s.1 = true := by
  induction cmds generalizing s with
  | nil => simpa [steps] using h
  | cons c cs ih =>
    have : (steps cs (step c s)).1 = true := by simpa [steps] using h
    exact step_true c s (ih _ this)

theorem steps_append (a b : List GLCmd) (s : Bool × World) :
    steps (a ++ b) s = steps b (steps a s) := by
  simp [steps, List.foldl_append]

theorem marks_steps_quiet (cmds : List GLCmd) (s : Bool × World)
    (hq : ∀ c ∈ cmds, isMark (Ev.gl c) = false) : (steps cmds s).2.marks = s.2.marks := by
  induction cmds generalizing s with
  | nil => rfl
  | cons c cs ih =>
    have h1 : steps (c :: cs) s = steps cs (step c s) := rfl
    rw [h1, ih _ (fun c hc => hq c (List.mem_cons_of_mem _ hc)), marks_step]
    simp [hq c (List.mem_cons_self _ _)]

theorem marks_RenderColor (g : GLES) (w : World) : (g.RenderColor w).2.marks = w.marks := by
  unfold GLES.RenderColor
  rw [marks_steps_quiet]
  intro c hc
  simp at hc
  rcases hc with rfl | rfl | rfl <;> rfl

theorem marks_SetupProgram (w : World) : (GLES.SetupProgram w).2.marks = w.marks := by
  unfold GLES.SetupProgram
  simp only []
  repeat' split
  all_goals simp [isMark]

theorem marks_SetupViewport (a b : Int) (g : GLES) (w : World) :
    (GLES.SetupViewport a b g w).2.marks = w.marks := by
  unfold GLES.SetupViewport
  simp only []
  repeat' split
  all_goals simp [isMark]

theorem marks_RenderPolygon (g : GLES) (z : ℚ) (w : World) :
    ((g.RenderPolygon z w).2.marks = w.marks
      ∨ (g.RenderPolygon z w).2.marks = w.marks ++ [Ev.gl GLCmd.DrawArrays])
    ∧ ((g.RenderPolygon z w).1 = true →
        (g.RenderPolygon z w).2.marks = w.marks ++ [Ev.gl GLCmd.DrawArrays]) := by
  have hsplit : g.RenderPolygon z w =
      steps [GLCmd.DisableVertexAttribArray] (step GLCmd.DrawArrays
        (steps [GLCmd.GetCurrentProgram, GLCmd.GetUniformLocation, GLCmd.Uniform1f g._opacity._alpha,
         GLCmd.GetAttribLocation, GLCmd.VertexAttribPointer z, GLCmd.EnableVertexAttribArray]
         w.glGetError)) := rfl
  rw [hsplit]
  set pre := steps [GLCmd.GetCurrentProgram, GLCmd.GetUniformLocation, GLCmd.Uniform1f g._opacity._alpha,
         GLCmd.GetAttribLocation, GLCmd.VertexAttribPointer z, GLCmd.EnableVertexAttribArray]
         w.glGetError with hpre
  have h1 : pre.2.marks = w.marks := by
    rw [hpre, marks_steps_quiet]
    · rfl
    · intro c hc
      simp at hc
      rcases hc with rfl | rfl | rfl | rfl | rfl | rfl <;> rfl
  have h2 : (steps [GLCmd.DisableVertexAttribArray] (step GLCmd.DrawArrays pre)).2.marks
      = (step GLCmd.DrawArrays pre).2.marks := by
    rw [marks_steps_quiet]
    intro c hc
    simp at hc
    subst hc; rfl
  rw [h2, marks_step, h1]
  constructor
  · by_cases hp : pre.1 = true <;> simp [hp, isMark]
  · intro h
    have := step_true _ _ (steps_true _ _ h)
    simp [this, isMark]



theorem marks_RenderTile (g : GLES) (w : World) :
    ((g.RenderTile w).2.marks = w.marks
      ∨ (g.RenderTile w).2.marks = w.marks ++ [Ev.gl GLCmd.DrawArrays])
    ∧ ((g.RenderTile w).1 = true →
        (g.RenderTile w).2.marks = w.marks ++ [Ev.gl GLCmd.DrawArrays]) := by
  unfold GLES.RenderTile
  simp only []
  by_cases h0 : (w.glGetError.2.glGetError).1 = true
  · simp only [h0, if_true]
    by_cases h1 : (GLES.SetupProgram w.glGetError.2.glGetError.2).1 = true
    · simp only [h1, if_true]
      have := marks_RenderPolygon g g._offset._z (GLES.SetupProgram w.glGetError.2.glGetError.2).2
      simpa [marks_SetupProgram] using this
    · simp [h1, marks_SetupProgram]
  · simp [h0]

@[simp] theorem andG_world (f : GLES → Bool × GLES) (s : St) : (andG f s).2.2 = s.2.2 := by
  unfold andG; split <;> rfl

theorem andG_true (f : GLES → Bool × GLES) (s : St) (h : (andG f s).1 = true) : s.1 = true := by
  unfold andG at h
  by_cases h1 : s.1 = true
  · exact h1
  · simp [h1] at h

theorem andW_true (f : GLES → World → Bool × World) (s : St) (h : (andW f s).1 = true) :
    s.1 = true := by
  unfold andW at h
  by_cases h1 : s.1 = true
  · exact h1
  · simp [h1] at h

theorem stepS_true (cmd : GLCmd) (s : St) (h : (stepS cmd s).1 = true) : s.1 = true :=
  step_true cmd (s.1, s.2.2) h

theorem marks_stepS (cmd : GLCmd) (s : St) :
    (stepS cmd s).2.2.marks
      = s.2.2.marks ++ (if s.1 = true ∧ isMark (Ev.gl cmd) = true then [Ev.gl cmd] else []) :=
  marks_step cmd (s.1, s.2.2)

theorem drawn_append_quiet (b : Option (tgt_t × tex_t)) (es : List Ev) :
    drawn b (es.filter isMark) = drawn b es := by
  induction es generalizing b with
  | nil => rfl
  | cons e es ih =>
    cases e with
    | gl cmd => cases cmd <;> simp [List.filter_cons, isMark, drawn, ih]
    | _ => simp [List.filter_cons, isMark, drawn, ih]

/-- One pass of the loop body of `RenderScene`. -/
theorem marks_sceneLoop (width height : Int) (l : List texture) (s : St) (hs : s.1 = true) :
    ∃ X : List Ev, (GLES.sceneLoop width height l s).2.2.marks = s.2.2.marks ++ X
      ∧ (∀ b, List.IsPrefix (drawn b X) (l.map texture.name))
      ∧ ((GLES.sceneLoop width height l s).1 = true → ∀ b, drawn b X = l.map texture.name) := by
  induction l generalizing s with
  | nil => exact ⟨[], by simp [GLES.sceneLoop], by simp [drawn], by simp [drawn]⟩
  | cons t rest ih =>
    simp only [GLES.sceneLoop]
    set sa := stepS (GLCmd.BindTexture t._target t._tex) s with hsa
    set sc := (sa |> andG (fun g => g.UpdateScale t._scale)
                  |> andG (fun g => g.UpdateOffset t._offset)
                  |> andG (fun g => g.UpdateOpacity t._opacity)
                  |> andW (GLES.SetupViewport width height)) with hsc
    set sd := andW GLES.RenderTile sc with hsd
    set se := stepS (GLCmd.BindTexture t._target InvalidTex) sd with hse
    have ma : sa.2.2.marks = s.2.2.marks ++ [Ev.gl (GLCmd.BindTexture t._target t._tex)] := by
      rw [hsa, marks_stepS]; simp [hs, isMark]
    have mc : sc.2.2.marks = sa.2.2.marks := by
      rw [hsc]
      simp only [Function.comp, andW]
      split
      · simp [marks_SetupViewport]
      · simp
    have md : (sd.2.2.marks = sc.2.2.marks ∨ sd.2.2.marks = sc.2.2.marks ++ [Ev.gl GLCmd.DrawArrays])
        ∧ (sd.1 = true → sd.2.2.marks = sc.2.2.marks ++ [Ev.gl GLCmd.DrawArrays]) := by
      rw [hsd]
      unfold andW
      by_cases h : sc.1 = true
      · simp only [h, if_true]
        exact marks_RenderTile sc.2.1 sc.2.2
      · simp [h]
    have me : se.2.2.marks = sd.2.2.marks
        ++ (if sd.1 = true then [Ev.gl (GLCmd.BindTexture t._target InvalidTex)] else []) := by
      rw [hse, marks_stepS]; simp [isMark]
    by_cases hfin : se.1 = true
    · rw [if_pos hfin]
      have hd : sd.1 = true := stepS_true _ _ hfin
      obtain ⟨X, hX, hpre, hall⟩ := ih se hfin
      refine ⟨[Ev.gl (GLCmd.BindTexture t._target t._tex), Ev.gl GLCmd.DrawArrays,
                Ev.gl (GLCmd.BindTexture t._target InvalidTex)] ++ X, ?_, ?_, ?_⟩
      · rw [hX, me, md.2 hd, mc, ma]; simp [hd]
      · intro b
        have h3 : drawn b ([Ev.gl (GLCmd.BindTexture t._target t._tex), Ev.gl GLCmd.DrawArrays,
                Ev.gl (GLCmd.BindTexture t._target InvalidTex)] ++ X)
            = t.name :: drawn (some (t._target, InvalidTex)) X := by
          simp [drawn, texture.name]
        rw [h3, List.map_cons]
        exact (List.prefix_cons_inj _).2 (hpre _)
      · intro h b
        have h3 : drawn b ([Ev.gl (GLCmd.BindTexture t._target t._tex), Ev.gl GLCmd.DrawArrays,
                Ev.gl (GLCmd.BindTexture t._target InvalidTex)] ++ X)
            = t.name :: drawn (some (t._target, InvalidTex)) X := by
          simp [drawn, texture.name]
        rw [h3, List.map_cons, hall h]
    · rw [if_neg hfin]
      rcases md.1 with h1 | h1
      · refine ⟨[Ev.gl (GLCmd.BindTexture t._target t._tex)]
            ++ (if sd.1 = true then [Ev.gl (GLCmd.BindTexture t._target InvalidTex)] else []),
            ?_, ?_, ?_⟩
        · rw [me, h1, mc, ma]; simp
        · intro b
          by_cases hd : sd.1 = true <;> simp [hd, drawn]
        · intro h; exact absurd h hfin
      · refine ⟨[Ev.gl (GLCmd.BindTexture t._target t._tex), Ev.gl GLCmd.DrawArrays]
            ++ (if sd.1 = true then [Ev.gl (GLCmd.BindTexture t._target InvalidTex)] else []),
            ?_, ?_, ?_⟩
        · rw [me, h1, mc, ma]; simp
        · intro b
          by_cases hd : sd.1 = true <;>
            simp [hd, drawn, texture.name, List.prefix_cons_inj]
        · intro h; exact absurd h hfin



theorem marks_sceneSetup (g : GLES) (s : Bool × World) :
    (g.sceneSetup s).2.marks = s.2.marks := by
  unfold GLES.sceneSetup
  simp only []
  have q1 : ∀ s : Bool × World, (steps [GLCmd.BindFramebuffer 0, GLCmd.CheckFramebufferStatus,
      GLCmd.EnableBlend, GLCmd.BlendEquationSeparate, GLCmd.BlendFuncSeparate] s).2.marks
        = s.2.marks := by
    intro s
    apply marks_steps_quiet
    intro c hc
    simp at hc
    rcases hc with rfl | rfl | rfl | rfl | rfl <;> rfl
  have q5 : ∀ s : Bool × World, (steps [GLCmd.DepthFunc, GLCmd.DepthRangef, GLCmd.ClearDepthf,
      GLCmd.ClearDepthBuffer] s).2.marks = s.2.marks := by
    intro s
    apply marks_steps_quiet
    intro c hc
    simp at hc
    rcases hc with rfl | rfl | rfl | rfl <;> rfl
  repeat' split
  all_goals simp [marks_RenderColor, q5, q1, marks_step, isMark]

theorem marks_sceneFinish (s : Bool × World) : (GLES.sceneFinish s).2.marks = s.2.marks := by
  unfold GLES.sceneFinish
  simp only []
  repeat' split
  all_goals simp [isMark]

theorem sceneFinish_true (s : Bool × World) (h : (GLES.sceneFinish s).1 = true) : s.1 = true := by
  unfold GLES.sceneFinish at h
  by_cases h1 : s.1 = true
  · exact h1
  · simp [h1] at h

theorem marks_RenderScene (g : GLES) (w : World) (width height : Nat)
    (sortfunc : texture → texture → Bool) :
    ∃ X : List Ev, (g.RenderScene w width height sortfunc).2.2.marks = w.marks ++ X
      ∧ List.IsPrefix (drawn none X) ((listSort sortfunc g.snapshot).map texture.name)
      ∧ ((g.RenderScene w width height sortfunc).1 = true →
          drawn none X = (listSort sortfunc g.snapshot).map texture.name) := by
  unfold GLES.RenderScene
  simp only [marks_sceneFinish]
  set r6 := g.sceneSetup (w.glGetError.1, (w.glGetError.2.emit Ev.lock).emit Ev.unlock) with hr6
  have m6 : r6.2.marks = w.marks := by
    rw [hr6, marks_sceneSetup]; simp [isMark]
  by_cases h6 : r6.1 = true
  · simp only [h6, if_true]
    obtain ⟨X, hX, hpre, hall⟩ :=
      marks_sceneLoop width height (listSort sortfunc g.snapshot) (true, g, r6.2) rfl
    refine ⟨X, ?_, hpre none, ?_⟩
    · simp only [andG_world]
      rw [hX]; simp [m6]
    · intro h
      have h7 := sceneFinish_true _ h
      exact hall (andG_true _ _ (andG_true _ _ (andG_true _ _ h7))) none
  · refine ⟨[], ?_, by simp [drawn], ?_⟩
    · simp [h6, m6]
    · intro h
      have h7 := sceneFinish_true _ h
      simp [h6] at h7



/-! ### The scene map -/

namespace Scene

theorem find_put_same (s : Scene) (img : img_t) (t : texture) : (put img t s).find img = some t := by
  induction s with
  | nil => simp [put, find]
  | cons e rest ih =>
    obtain ⟨k, v⟩ := e
    simp only [put]
    split
    · simp [find]
    · split
      · simp [find]
      · rename_i h1 h2
        have : k ≠ img := fun h => h2 h.symm
        simp [find, this, ih]

theorem find_put_other (s : Scene) (img k : img_t) (t : texture) (h : k ≠ img) :
    (put img t s).find k = s.find k := by
  induction s with
  | nil => simp [put, find, Ne.symm h]
  | cons e rest ih =>
    obtain ⟨k1, v⟩ := e
    simp only [put]
    split
    · simp [find, Ne.symm h]
    · split
      · rename_i h1 h2
        subst h2
        simp [find, Ne.symm h]
      · simp only [find, ih]

theorem find_eq_none_iff (s : Scene) (img : img_t) :
    s.find img = none ↔ ∀ e ∈ s, e.1 ≠ img := by
  induction s with
  | nil => simp [find]
  | cons e rest ih =>
    obtain ⟨k, v⟩ := e
    by_cases h : k = img
    · simp [find, h]
    · simp [find, h, ih]

theorem mem_put (s : Scene) (img : img_t) (t : texture) (e : img_t × texture)
    (h : e ∈ put img t s) : e = (img, t) ∨ e ∈ s := by
  induction s with
  | nil => simpa [put] using h
  | cons e1 rest ih =>
    obtain ⟨k, v⟩ := e1
    simp only [put] at h
    split at h
    · simpa using h
    · split at h
      · rcases List.mem_cons.1 h with h | h
        · exact Or.inl h
        · exact Or.inr (List.mem_cons_of_mem _ h)
      · rcases List.mem_cons.1 h with h | h
        · exact Or.inr (h ▸ List.mem_cons_self _ _)
        · rcases ih h with h | h
          · exact Or.inl h
          · exact Or.inr (List.mem_cons_of_mem _ h)

theorem WF_put (s : Scene) (img : img_t) (t : texture) (h : s.WF) : (put img t s).WF := by
  induction s with
  | nil => simp [put, WF]
  | cons e rest ih =>
    obtain ⟨k, v⟩ := e
    unfold WF at h ih ⊢
    have h' := List.pairwise_cons.1 h
    simp only [put]
    split
    · rename_i h1
      refine List.pairwise_cons.2 ⟨?_, h⟩
      intro a ha
      rcases List.mem_cons.1 ha with rfl | ha
      · exact h1
      · exact lt_trans h1 (h'.1 a ha)
    · split
      · rename_i h1 h2
        subst h2
        exact List.pairwise_cons.2 ⟨h'.1, h'.2⟩
      · rename_i h1 h2
        have hlt : k < img := lt_of_le_of_ne (not_lt.1 h1) (fun h => h2 h.symm)
        refine List.pairwise_cons.2 ⟨?_, ih h'.2⟩
        intro a ha
        rcases mem_put rest img t a ha with rfl | ha
        · exact hlt
        · exact h'.1 a ha

theorem length_put_absent (s : Scene) (img : img_t) (t : texture) (h : s.find img = none) :
    (put img t s).length = s.length + 1 := by
  induction s with
  | nil => simp [put]
  | cons e rest ih =>
    obtain ⟨k, v⟩ := e
    have hk : k ≠ img := by
      intro hk; simp [find, hk] at h
    have hr : find rest img = none := by simpa [find, hk] using h
    simp only [put]
    split
    · simp
    · split
      · rename_i h1 h2; exact absurd h2.symm hk
      · simp [ih hr]

theorem length_put_present (s : Scene) (img : img_t) (t t0 : texture) (hw : s.WF)
    (h : s.find img = some t0) : (put img t s).length = s.length := by
  induction s with
  | nil => simp [find] at h
  | cons e rest ih =>
    obtain ⟨k, v⟩ := e
    unfold WF at hw
    have hw' := List.pairwise_cons.1 hw
    simp only [put]
    split
    · rename_i h1
      exfalso
      have hk : k ≠ img := fun hk => absurd (hk ▸ h1) (lt_irrefl _)
      have hr : find rest img = some t0 := by simpa [find, hk] using h
      have : find rest img ≠ none := by simp [hr]
      rw [Ne, find_eq_none_iff] at this
      push_neg at this
      obtain ⟨e, he, hek⟩ := this
      have h3 : k < e.1 := hw'.1 e he
      rw [hek] at h3
      exact absurd h1 (lt_asymm h3)
    · split
      · simp
      · rename_i h1 h2
        have hk : k ≠ img := fun hk => h2 hk.symm
        have hr : find rest img = some t0 := by simpa [find, hk] using h
        simp [ih hw'.2 hr]

theorem count_key_of_WF (s : Scene) (img : img_t) (t0 : texture) (hw : s.WF)
    (h : s.find img = some t0) : (s.filter (fun e => decide (e.1 = img))).length = 1 := by
  induction s with
  | nil => simp [find] at h
  | cons e rest ih =>
    obtain ⟨k, v⟩ := e
    unfold WF at hw
    have hw' := List.pairwise_cons.1 hw
    by_cases hk : k = img
    · subst hk
      have : rest.filter (fun e => decide (e.1 = k)) = [] := by
        rw [List.filter_eq_nil_iff]
        intro a ha
        have h3 : k < a.1 := hw'.1 a ha
        simpa using (ne_of_lt h3).symm
      simp [List.filter_cons, this]
    · have hr : find rest img = some t0 := by simpa [find, hk] using h
      simp [List.filter_cons, hk, ih hw'.2 hr]

end Scene

/-! ### A driver without errors -/

theorem calm_emit {w : World} (h : w.Calm) (e : Ev) : (w.emit e).Calm :=
  ⟨h.fail, h.glError, h.eglError, h.current, h.procs⟩

@[simp] theorem nextTex_emit (w : World) (e : Ev) : (w.emit e).nextTex = w.nextTex := rfl

theorem calm_gl {w : World} (h : w.Calm) (cmd : GLCmd) :
    (w.gl cmd).Calm ∧ (w.gl cmd).nextTex = w.nextTex + cmd.gens := by
  unfold World.gl
  rw [if_neg (by simp [h.fail])]
  cases cmd <;>
    exact ⟨⟨h.fail, h.glError, h.eglError, h.current, h.procs⟩, rfl⟩

theorem calm_glGetError {w : World} (h : w.Calm) :
    w.glGetError.1 = true ∧ w.glGetError.2.Calm ∧ w.glGetError.2.nextTex = w.nextTex :=
  ⟨by simp [World.glGetError, h.glError], ⟨h.fail, rfl, h.eglError, h.current, h.procs⟩, rfl⟩

theorem calm_eglGetError {w : World} (h : w.Calm) :
    w.eglGetError.1 = true ∧ w.eglGetError.2.Calm ∧ w.eglGetError.2.nextTex = w.nextTex :=
  ⟨by simp [World.eglGetError, h.eglError], ⟨h.fail, h.glError, rfl, h.current, h.procs⟩, rfl⟩

theorem calm_egl {w : World} (h : w.Calm) :
    w.egl.1 = true ∧ w.egl.2.Calm ∧ w.egl.2.nextTex = w.nextTex :=
  ⟨by simp [World.egl, h.fail], ⟨h.fail, h.glError, by simp [World.egl, h.fail], h.current, h.procs⟩,
   rfl⟩

theorem calm_checked {w : World} (h : w.Calm) (cmd : GLCmd) :
    (w.checked cmd).1 = true ∧ (w.checked cmd).2.Calm
      ∧ (w.checked cmd).2.nextTex = w.nextTex + cmd.gens := by
  obtain ⟨h1, h2⟩ := calm_gl h cmd
  obtain ⟨h3, h4, h5⟩ := calm_glGetError h1
  exact ⟨h3, h4, h5.trans h2⟩

theorem calm_step {s : Bool × World} (h : s.2.Calm) (hs : s.1 = true) (cmd : GLCmd) :
    (step cmd s).1 = true ∧ (step cmd s).2.Calm
      ∧ (step cmd s).2.nextTex = s.2.nextTex + cmd.gens := by
  unfold step
  rw [if_pos hs]
  exact calm_checked h cmd

theorem calm_steps (cmds : List GLCmd) {s : Bool × World} (h : s.2.Calm) (hs : s.1 = true)
    (hg : ∀ c ∈ cmds, c.gens = 0) :
    (steps cmds s).1 = true ∧ (steps cmds s).2.Calm ∧ (steps cmds s).2.nextTex = s.2.nextTex := by
  induction cmds generalizing s with
  | nil => exact ⟨hs, h, rfl⟩
  | cons c cs ih =>
    obtain ⟨h1, h2, h3⟩ := calm_step h hs c
    obtain ⟨h4, h5, h6⟩ := ih h2 h1 (fun c hc => hg c (List.mem_cons_of_mem _ hc))
    refine ⟨h4, h5, ?_⟩
    have : steps (c :: cs) s = steps cs (step c s) := rfl
    rw [this, h6, h3, hg c (List.mem_cons_self _ _)]
    rfl

theorem calm_textureStorage {w : World} (h : w.Calm) (target : tgt_t) (img : img_t)
    (width height : Nat)
    (ht : target = GL_TEXTURE_EXTERNAL_OES ∨ target = GL_TEXTURE_2D) :
    (textureStorage true true target img width height w).1 = true
    ∧ (textureStorage true true target img width height w).2.Calm
    ∧ (textureStorage true true target img width height w).2.nextTex = w.nextTex := by
  unfold textureStorage
  rcases ht with rfl | rfl
  · simp only [if_true, Bool.and_self, h.procs]
    split
    · exact calm_checked h _
    · exact ⟨rfl, h, rfl⟩
  · rw [if_neg (by decide), if_pos rfl]
    exact calm_checked h _

theorem calm_SetupTexture {w : World} (h : w.Calm) (tex : texture) (img : img_t)
    (width height : Int)
    (ht : tex._target = GL_TEXTURE_EXTERNAL_OES ∨ tex._target = GL_TEXTURE_2D) :
    (SetupTexture true true tex img width height w).1 = true
    ∧ (SetupTexture true true tex img width height w).2.2.Calm
    ∧ (SetupTexture true true tex img width height w).2.2.nextTex = w.nextTex + 1
    ∧ (SetupTexture true true tex img width height w).2.1
        = { tex with _tex := w.nextTex, _width := width.toNat, _height := height.toNat } := by
  obtain ⟨a1, a2, a3⟩ := calm_glGetError h
  obtain ⟨b1, b2, b3⟩ := calm_checked a2 (GLCmd.GenTextures w.glGetError.2.nextTex)
  unfold SetupTexture
  simp only [a1, if_true, a2.fail, Bool.false_eq_true, if_false]
  set t1 : texture := { tex with _tex := w.glGetError.2.nextTex } with ht1
  obtain ⟨c1, c2, c3⟩ := calm_steps [GLCmd.BindTexture t1._target t1._tex, GLCmd.TexParameteri t1._target,
                   GLCmd.TexParameteri t1._target, GLCmd.TexParameteri t1._target,
                   GLCmd.TexParameteri t1._target]
      (s := ((w.glGetError.2.checked (GLCmd.GenTextures w.glGetError.2.nextTex)).1,
             (w.glGetError.2.checked (GLCmd.GenTextures w.glGetError.2.nextTex)).2)) b2 b1
      (by intro c hc; simp at hc; rcases hc with rfl | rfl <;> rfl)
  simp only [c1, if_true]
  obtain ⟨d1, d2, d3⟩ := calm_textureStorage c2 tex._target img width.toNat height.toNat ht
  obtain ⟨e1, e2, e3⟩ := calm_step d2 d1 (GLCmd.BindTexture tex._target InvalidTex)
  refine ⟨e1, e2, ?_, ?_⟩
  · rw [e3, d3, c3, b3, a3]; rfl
  · simp [a3]



theorem calm_imagePrelude {w : World} (h : w.Calm) (img : img_t) (width height : Int)
    (hi : img ≠ InvalidImage) (hwd : 0 < width) (hht : 0 < height) :
    (GLES.imagePrelude w img width height).1 = true
    ∧ (GLES.imagePrelude w img width height).2.2.2.2.Calm
    ∧ (GLES.imagePrelude w img width height).2.2.2.2.nextTex = w.nextTex + 1 := by
  obtain ⟨a1, a2, a3⟩ := calm_glGetError h
  obtain ⟨b1, b2, b3⟩ := calm_eglGetError a2
  obtain ⟨c1, c2, c3⟩ := calm_eglGetError b2
  obtain ⟨d1, d2, d3⟩ := calm_egl c2
  obtain ⟨e1, e2, e3⟩ := calm_egl d2
  obtain ⟨f1, f2, f3⟩ := calm_eglGetError e2
  unfold GLES.imagePrelude
  simp only [a1, hi, hwd, hht, b1, h.current, c1, b2.current, d1, e1, f1, gt_iff_lt, ne_eq,
    not_false_eq_true, decide_True, Bool.and_self, if_true]
  obtain ⟨g1, g2, g3⟩ := calm_steps [GLCmd.ActiveTexture,
      GLCmd.BindTexture (texture.make GL_TEXTURE_EXTERNAL_OES InitialOffset InitialScale
        InitialOpacity)._target InvalidTex,
      GLCmd.BindTexture (texture.make GL_TEXTURE_2D InitialOffset InitialScale
        InitialOpacity)._target InvalidTex]
      (s := w.glGetError.2.eglGetError.2.eglGetError.2.egl.2.egl.2.eglGetError) f2 f1
      (by intro c hc; simp at hc; rcases hc with rfl | rfl | rfl <;> rfl)
  simp only [g1, if_true]
  obtain ⟨k1, k2, k3, _⟩ := calm_SetupTexture g2
    (texture.make GL_TEXTURE_EXTERNAL_OES InitialOffset InitialScale InitialOpacity) img
    width height (Or.inl rfl)
  refine ⟨k1, k2, ?_⟩
  rw [k3, g3, f3, e3, d3, c3, b3, a3]

@[simp] theorem UpdateScale_scene (g : GLES) (s : scale) : (g.UpdateScale s).2._scene = g._scene := by
  unfold GLES.UpdateScale; split <;> rfl

@[simp] theorem UpdateOffset_scene (g : GLES) (o : offset) :
    (g.UpdateOffset o).2._scene = g._scene := by
  unfold GLES.UpdateOffset; split <;> rfl

@[simp] theorem UpdateOpacity_scene (g : GLES) (o : opacity) :
    (g.UpdateOpacity o).2._scene = g._scene := by
  unfold GLES.UpdateOpacity; split <;> rfl

@[simp] theorem andW_gles (f : GLES → World → Bool × World) (s : St) : (andW f s).2.1 = s.2.1 := by
  unfold andW; split <;> rfl

@[simp] theorem stepS_gles (cmd : GLCmd) (s : St) : (stepS cmd s).2.1 = s.2.1 := rfl

theorem andG_scene (f : GLES → Bool × GLES) (hf : ∀ g, (f g).2._scene = g._scene) (s : St) :
    (andG f s).2.1._scene = s.2.1._scene := by
  unfold andG; split
  · exact hf _
  · rfl

theorem imageDraw_scene (g : GLES) (s : Bool × World) (a b : texture) (x y : Int) :
    (GLES.imageDraw g s a b x y).2.1._scene = g._scene := by
  unfold GLES.imageDraw
  simp only [stepS_gles, andW_gles]
  rw [andG_scene _ (fun g => UpdateOpacity_scene g _), andG_scene _ (fun g => UpdateOffset_scene g _),
    andG_scene _ (fun g => UpdateScale_scene g _)]

theorem Scene.put_put (s : Scene) (img : img_t) (t t1 : texture) :
    Scene.put img t (Scene.put img t1 s) = Scene.put img t s := by
  induction s with
  | nil => simp [Scene.put]
  | cons e rest ih =>
    obtain ⟨k, v⟩ := e
    simp only [Scene.put]
    split
    · simp [Scene.put]
    · split
      · simp [Scene.put]
      · rename_i h1 h2
        simp [Scene.put, h1, h2, ih]

theorem RenderEGLImage_scene {w : World} (h : w.Calm) (g : GLES) (img : img_t)
    (width height : Int) (hi : img ≠ InvalidImage) (hwd : 0 < width) (hht : 0 < height) :
    (g.RenderEGLImage w img width height).2.1._scene =
      match g._scene.find img with
      | some t =>
        g._scene.assign img { t with _offset := g._offset, _scale := g._scale,
                                     _opacity := g._opacity }
      | none =>
        (g._scene.assign img ⟨w.nextTex + 1, GL_TEXTURE_2D, g._offset, g._scale, g._opacity,
                              width.toNat, height.toNat⟩) := by
  obtain ⟨p1, p2, p3⟩ := calm_imagePrelude h img width height hi hwd hht
  unfold GLES.RenderEGLImage
  simp only [imageDraw_scene, p1, if_true, h.current]
  unfold GLES.sceneBlock
  cases hf : g._scene.find img with
  | some t => simp
  | none =>
    obtain ⟨k1, k2, k3, k4⟩ := calm_SetupTexture (calm_emit p2 Ev.lock)
      (texture.make GL_TEXTURE_2D InitialOffset InitialScale InitialOpacity) img
      width height (Or.inr rfl)
    simp only [k1, if_true, k4, Scene.insert, hf, nextTex_emit, p3]
    simp [Scene.assign, texture.make, Scene.put_put]

/-! ### Events of the compositor -/

theorem trace_foldl_emit {α : Type} (f : α → Ev) (l : List α) (w : World) :
    (l.foldl (fun w o => w.emit (f o)) w).trace = w.trace ++ l.map f := by
  induction l generalizing w with
  | nil => simp
  | cons a l ih =>
    rw [List.foldl_cons, ih]
    simp [World.emit]

@[simp] theorem trace_emit (w : World) (e : Ev) : (w.emit e).trace = w.trace ++ [e] := rfl

@[simp] theorem procs_emit (w : World) (e : Ev) : (w.emit e).procs = w.procs := rfl

@[simp] theorem EGLSupported_emit (w : World) (e : Ev) (dpy : Bool) (name : List Char) :
    EGLSupported (w.emit e) dpy name = EGLSupported w dpy name := rfl

theorem trace_DestroyImage (egl : EGL) (surf : surf_t) (w : World) :
    (egl.DestroyImage surf w).2.trace
      = w.trace ++ (if (egl.Valid && EGLSupported w egl.Valid "EGL_KHR_image".toList
                        && EGLSupported w egl.Valid "EGL_KHR_image_base".toList)
                      && (w.procs && surf.RenderComplete)
                    then [Ev.destroyImage surf._khr] else []) := by
  unfold EGL.DestroyImage
  generalize (egl.Valid && EGLSupported w egl.Valid "EGL_KHR_image".toList
                        && EGLSupported w egl.Valid "EGL_KHR_image_base".toList) = a
  generalize (w.procs && surf.RenderComplete) = b
  cases a <;> cases b <;> simp [World.emit, World.egl]
  split <;> rfl

theorem Scene.erase_absent (s : Scene) (img : img_t) (h : s.find img = none) :
    s.erase img = s := by
  induction s with
  | nil => rfl
  | cons e rest ih =>
    obtain ⟨k, v⟩ := e
    have hk : k ≠ img := by
      intro hk; simp [Scene.find, hk] at h
    have hr : Scene.find rest img = none := by simpa [Scene.find, hk] using h
    simp [Scene.erase, hk, ih hr]

theorem Detached_scene (c : CompositorImplementation) (w : World) (name : String) :
    (c.Detached w name).2.1._gles._scene
      = (match c.Find name with
         | none => c._gles._scene
         | some client => c._gles._scene.erase client._nativeSurface._khr) := by
  unfold CompositorImplementation.Detached
  cases hf : c.Find name with
  | none => rfl
  | some client =>
    simp only [GLES.SkipEGLImageFromScene]
    cases g : c._gles._scene.find client._nativeSurface._khr with
    | none => simp [Scene.erase_absent _ _ g, CompositorImplementation.store]
    | some t => simp [CompositorImplementation.store]

/-! ### Decimal texts -/

theorem digitValue_digitChar (d : Nat) (h : d < 10) : digitValue (Nat.digitChar d) = some d := by
  interval_cases d <;> decide

theorem digitChar_ne_colon (d : Nat) (h : d < 10) : Nat.digitChar d ≠ ':' := by
  interval_cases d <;> decide

theorem parseDigits_toDigitsCore (fuel n : Nat) (ds : List Char) (h : n < fuel) :
    ∃ k, ∀ a, parseDigits (some a) (Nat.toDigitsCore 10 fuel n ds)
        = parseDigits (some (a * 10 ^ k + n)) ds := by
  induction fuel generalizing n ds with
  | zero => omega
  | succ f ih =>
    simp only [Nat.toDigitsCore]
    split
    · rename_i h0
      refine ⟨1, fun a => ?_⟩
      have hn : n % 10 = n := by omega
      simp only [parseDigits, digitValue_digitChar (n % 10) (Nat.mod_lt _ (by decide))]
      congr 2
      omega
    · rename_i h0
      obtain ⟨k, hk⟩ := ih (n / 10) (Nat.digitChar (n % 10) :: ds) (by omega)
      refine ⟨k + 1, fun a => ?_⟩
      rw [hk a]
      simp only [parseDigits, digitValue_digitChar (n % 10) (Nat.mod_lt _ (by decide))]
      have e1 : 10 * (a * 10 ^ k + n / 10) + n % 10 = a * 10 ^ (k + 1) + n := by
        have e2 : 10 * (a * 10 ^ k + n / 10) + n % 10
            = a * 10 ^ (k + 1) + (10 * (n / 10) + n % 10) := by ring
        rw [e2, Nat.div_add_mod]
      rw [e1]

theorem toDigitsCore_ne_nil (fuel n : Nat) (ds : List Char) (h : n < fuel) :
    Nat.toDigitsCore 10 fuel n ds ≠ [] := by
  induction fuel generalizing n ds with
  | zero => omega
  | succ f ih =>
    simp only [Nat.toDigitsCore]
    split
    · simp
    · exact ih _ _ (by omega)

theorem toDigitsCore_no_colon (fuel n : Nat) (ds : List Char) (hd : ':' ∉ ds) :
    ':' ∉ Nat.toDigitsCore 10 fuel n ds := by
  induction fuel generalizing n ds with
  | zero => simpa [Nat.toDigitsCore] using hd
  | succ f ih =>
    have hc : ':' ∉ Nat.digitChar (n % 10) :: ds := by
      intro hm
      rcases List.mem_cons.1 hm with h | h
      · exact digitChar_ne_colon (n % 10) (Nat.mod_lt _ (by decide)) h.symm
      · exact hd h
    simp only [Nat.toDigitsCore]
    split
    · exact hc
    · exact ih _ _ hc

theorem parseDec_toDigits (n : Nat) : parseDec (Nat.toDigits 10 n) = some n := by
  unfold Nat.toDigits
  obtain ⟨k, hk⟩ := parseDigits_toDigitsCore (n + 1) n [] (by omega)
  have hne := toDigitsCore_ne_nil (n + 1) n [] (by omega)
  cases hc : Nat.toDigitsCore 10 (n + 1) n [] with
  | nil => exact absurd hc hne
  | cons c cs =>
    have := hk 0
    rw [hc] at this
    simpa [parseDec, parseDigits] using this

theorem toDigits_no_colon (n : Nat) : ':' ∉ Nat.toDigits 10 n :=
  toDigitsCore_no_colon _ _ _ (by simp)

theorem fields_no_colon (a : List Char) (h : ':' ∉ a) : fields a = [a] := by
  induction a with
  | nil => rfl
  | cons c cs ih =>
    have hc : c ≠ ':' := fun hc => h (hc ▸ List.mem_cons_self _ _)
    have hcs : ':' ∉ cs := fun hm => h (List.mem_cons_of_mem _ hm)
    simp [fields, hc, ih hcs]

theorem fields_append_colon (a rest : List Char) (h : ':' ∉ a) :
    fields (a ++ ':' :: rest) = a :: fields rest := by
  induction a with
  | nil => simp [fields]
  | cons c cs ih =>
    have hc : c ≠ ':' := fun hc => h (hc ▸ List.mem_cons_self _ _)
    have hcs : ':' ∉ cs := fun hm => h (List.mem_cons_of_mem _ hm)
    simp [fields, hc, ih hcs]

@[simp] theorem to_string_data (n : Nat) :
    (CompositorImplementation.to_string n).data = Nat.toDigits 10 n := by
  simp [CompositorImplementation.to_string, Nat.repr, List.asString]

theorem propertiesOf_fields (bo : gbm_bo) :
    (fields (CompositorImplementation.propertiesOf bo).toList).map parseDec
      = [none, some bo.width, some bo.height, some bo.stride, some bo.format, some bo.modifier] := by
  have hd : (CompositorImplementation.propertiesOf bo).toList
      = [] ++ ':' :: (Nat.toDigits 10 bo.width ++ ':' :: (Nat.toDigits 10 bo.height
          ++ ':' :: (Nat.toDigits 10 bo.stride ++ ':' :: (Nat.toDigits 10 bo.format
          ++ ':' :: Nat.toDigits 10 bo.modifier)))) := by
    simp [CompositorImplementation.propertiesOf, String.toList]
  rw [hd, fields_append_colon _ _ (by simp), fields_append_colon _ _ (toDigits_no_colon _),
    fields_append_colon _ _ (toDigits_no_colon _), fields_append_colon _ _ (toDigits_no_colon _),
    fields_append_colon _ _ (toDigits_no_colon _), fields_no_colon _ (toDigits_no_colon _)]
  simp only [List.map_cons, List.map_nil, parseDec_toDigits]
  rfl

/-! ### The transfer request -/

theorem FDFor_false_keeps (c : CompositorImplementation) (w : World) (name : String) (fd : Int)
    (properties : String) (h : (c.FDFor w name fd properties).1.1 = false) :
    (c.FDFor w name fd properties).1.2.2 = properties := by
  unfold CompositorImplementation.FDFor at h ⊢
  cases hf : c.Find name with
  | none => simp
  | some client =>
    simp only [hf] at h ⊢
    by_cases hn : name ≠ client._name
    · simp [hn]
    · simp only [hn, if_false] at h ⊢
      cases hd : c._dma with
      | none => simp
      | some d =>
        simp only [hd] at h ⊢
        by_cases hfd : client.Native > -1
        · simp only [hfd, if_true] at h ⊢
          cases hb : (client.Surface (c._egl.CreateImage client._nativeSurface w).1).1._buf with
          | none => simp
          | some bo => simp [hb] at h
        · simp [hfd]

theorem Surface_buf (client : ClientSurface) (khr : img_t) :
    (client.Surface khr).1._buf = client._nativeSurface._buf := by
  unfold ClientSurface.Surface; split <;> rfl

theorem FDFor_true_props (c : CompositorImplementation) (w : World) (name : String) (fd : Int)
    (properties : String) (h : (c.FDFor w name fd properties).1.1 = true) :
    ∃ client bo, c.Find name = some client ∧ client._nativeSurface._buf = some bo
      ∧ (c.FDFor w name fd properties).1.2.2 = CompositorImplementation.propertiesOf bo := by
  unfold CompositorImplementation.FDFor at h ⊢
  cases hf : c.Find name with
  | none => simp [hf] at h
  | some client =>
    simp only [hf] at h ⊢
    split
    · rename_i hn; simp [hn] at h
    · rename_i hn
      simp only [hn, if_false] at h
      cases hd : c._dma with
      | none => simp [hd] at h
      | some d =>
        simp only [hd] at h ⊢
        split
        · rename_i hfd
          simp only [hfd, if_true] at h
          cases hb : (client.Surface (c._egl.CreateImage client._nativeSurface w).1).1._buf with
          | none => simp [hb] at h
          | some bo =>
            refine ⟨client, bo, rfl, ?_, ?_⟩
            · rw [← hb, Surface_buf]
            · simp
        · rename_i hfd
          simp [hfd] at h

theorem FDFor_unknown (c : CompositorImplementation) (w : World) (name : String)
    (fd : Int) (properties : String) (h : c.Find name = none) :
    c.FDFor w name fd properties = ((false, fd, properties), c, w) := by
  unfold CompositorImplementation.FDFor
  rw [h]

theorem Receive_name (d : DMATransfer) (w : World) (h : (d.Receive w).1 = true) :
    ∃ fd0, w.incoming = some ((d.Receive w).2.1, fd0) := by
  unfold DMATransfer.Receive at h ⊢
  by_cases hc : (d._valid && d.Connect w) = true
  · simp only [hc, if_true] at h ⊢
    cases hi : w.incoming with
    | none => simp [hi] at h
    | some p => exact ⟨p.2, rfl⟩
  · simp [hc] at h

theorem sort_three (a b c : texture) (z1 z2 z3 : ℚ) (h12 : z1 < z2) (h23 : z2 < z3) :
    listSort zGreater [a.withZ z3, b.withZ z1, c.withZ z2]
      = [a.withZ z3, c.withZ z2, b.withZ z1] := by
  have h13 := lt_trans h12 h23
  simp [listSort, addRun, collectRuns, listMerge, mergeInto, zGreater, texture.withZ,
    h12, h23, h13, not_lt.2 (le_of_lt h12), not_lt.2 (le_of_lt h23), not_lt.2 (le_of_lt h13)]

theorem derived_z_lt (K : IComposition) (p : ModeSet) (r : Rectangle) (m n : Nat) (h : m < n) :
    (CompositorImplementation.derivedOffset K p r m)._z
      < (CompositorImplementation.derivedOffset K p r n)._z := by
  have hd : (0 : ℚ) < (K.maxZOrder : ℚ) - (K.minZOrder : ℚ) := by
    have h2 : (K.minZOrder : ℚ) < (K.maxZOrder : ℚ) := by exact_mod_cast K.zRange
    linarith
  have hmn : (m : ℚ) < (n : ℚ) := by exact_mod_cast h
  exact div_lt_div_of_pos_right hmn hd

/-! ### Presentation and pacing -/

theorem sceneLoop_false (width height : Int) (l : List texture) (s : St) (h : s.1 = false) :
    GLES.sceneLoop width height l s = s := by
  rcases s with ⟨b, g, w⟩
  simp only at h
  subst h
  cases l with
  | nil => rfl
  | cons t rest => simp [GLES.sceneLoop, stepS, step, andG, andW]

theorem sceneLoop_append (width height : Int) (l1 l2 : List texture) (s : St) :
    GLES.sceneLoop width height (l1 ++ l2) s
      = if (GLES.sceneLoop width height l1 s).1 then
          GLES.sceneLoop width height l2 (GLES.sceneLoop width height l1 s)
        else GLES.sceneLoop width height l1 s := by
  induction l1 generalizing s with
  | nil =>
    by_cases h : s.1 = true
    · simp [GLES.sceneLoop, h]
    · have h0 : s.1 = false := by simpa using h
      simp [GLES.sceneLoop, h0, sceneLoop_false width height l2 s h0]
  | cons t rest ih =>
    simp only [List.cons_append, GLES.sceneLoop]
    split
    · exact ih _
    · rename_i hne
      simp [hne]

theorem Render_post_failed (egl : EGL) (func : GLES → World → St) (g : GLES) (w : World)
    (he : (egl.enter w).1 = true) (hf : (func g (egl.enter w).2).1 = false) :
    (egl.Render func true g w).1 = false
    ∧ ∃ ok, (egl.Render func true g w).2.2.trace
        = (func g (egl.enter w).2).2.2.trace ++ [Ev.sync, Ev.sync, Ev.releaseCurrent ok] := by
  unfold EGL.Render
  simp only [he, hf, if_true]
  refine ⟨by simp,
    ⟨(World.egl (((func g (egl.enter w).2).2.2.emit Ev.sync).emit Ev.sync)).1, ?_⟩⟩
  simp [EGL.release, World.emit, World.egl]

theorem enter_trace (egl : EGL) (w : World) (he : (egl.enter w).1 = true) :
    (egl.enter w).2.trace = w.trace ++ [Ev.makeCurrent true, Ev.bindAPI true] := by
  unfold EGL.enter at he ⊢
  by_cases hv : egl.Valid = true
  · simp only [hv, if_true] at he ⊢
    by_cases hm : w.egl.1 = true
    · simp only [hm, if_true] at he ⊢
      simp only [he]
      simp [World.emit, World.egl]
    · simp [hm] at he
  · simp [hv] at he

theorem CompositeFor_stage2 (K : IComposition) (c : CompositorImplementation) (w : World)
    (name : String) (client : ClientSurface) (bo : gbm_bo)
    (hfind : c.Find name = some client) (hname : name = client._name)
    (hready : (client._nativeSurface.RenderComplete && c._egl.Valid && c._gles.Valid) = true)
    (hbuf : client._nativeSurface._buf = some bo)
    (h1 : (c.stage1 K w client bo).1 = true) :
    (c.CompositeFor K w name).1
        = (c.stage2 (c.stage1 K w client bo).2.1 (c.stage1 K w client bo).2.2).1
    ∧ (c.CompositeFor K w name).2.2
        = (c.stage2 (c.stage1 K w client bo).2.1 (c.stage1 K w client bo).2.2).2.2 := by
  unfold CompositorImplementation.CompositeFor
  rw [hfind]
  simp only []
  rw [if_neg (by simpa using hname), if_pos hready, hbuf]
  simp [h1]

theorem stage2_eq (c : CompositorImplementation) (g : GLES) (w : World) :
    (c.stage2 g w).1 = (c.pass g w).1
    ∧ (c.stage2 g w).2.1 = (c.pass g w).2.1
    ∧ (c.stage2 g w).2.2.trace
        = (c.pass g w).2.2.trace ++ (if (c.pass g w).1 = true then [Ev.platformSwap] else [])
            ++ (if c.measured g w < c.interval then [Ev.sleep (c.interval - c.measured g w)]
                else [])
    ∧ (c.stage2 g w).2.2.now - w.now = max (c.measured g w) c.interval := by
  unfold CompositorImplementation.stage2 CompositorImplementation.measured
    CompositorImplementation.interval CompositorImplementation.pass
  simp only []
  generalize c._egl.Render _ true g w = s
  generalize Int.tdiv 1000 (CompositorImplementation.RefreshRateFromResolution c.Resolution) = D
  refine ⟨trivial, trivial, ?_, ?_⟩
  · split_ifs <;> simp_all [World.emit]
  · split_ifs <;> simp_all [World.emit, max_def] <;> omega

theorem rate_cases (c : CompositorImplementation) :
    CompositorImplementation.RefreshRateFromResolution c.Resolution
        = (if c._platform.rated then (c._platform.vrefresh : Int) else 60) := by
  rcases c with ⟨obs, cl, ⟨pw, ph, pv, pi⟩, dma, egl, gles⟩
  unfold CompositorImplementation.Resolution ModeSet.rated
  cases pi <;> simp only [] <;> split_ifs <;>
    simp_all [CompositorImplementation.RefreshRateFromResolution]

theorem rate_values (r : ScreenResolution) :
    (CompositorImplementation.RefreshRateFromResolution r = 24
        ∧ Int.tdiv 1000 (CompositorImplementation.RefreshRateFromResolution r) = 41)
    ∨ (CompositorImplementation.RefreshRateFromResolution r = 50
        ∧ Int.tdiv 1000 (CompositorImplementation.RefreshRateFromResolution r) = 20)
    ∨ (CompositorImplementation.RefreshRateFromResolution r = 60
        ∧ Int.tdiv 1000 (CompositorImplementation.RefreshRateFromResolution r) = 16) := by
  cases r <;> simp [CompositorImplementation.RefreshRateFromResolution] <;> decide

/-! ### The transfer channel of a new client -/

theorem create_trace (w : World) :
    (DMATransfer.create w).2.trace
      = w.trace ++ [Ev.channelUp (DMATransfer.create w).1._valid] := by
  unfold DMATransfer.create
  simp only [World.emit, World.sys]
  repeat' split
  all_goals rfl

theorem Attached_trace (c : CompositorImplementation) (w : World) (name : String) :
    (c.Attached w name).trace = w.trace ++ c._observers.map (fun o => Ev.attached o name) := by
  unfold CompositorImplementation.Attached
  exact trace_foldl_emit _ _ _

theorem lookup_append_new {β : Type} (l : List (String × β)) (k : String) (v : β)
    (h : l.lookup k = none) : (l ++ [(k, v)]).lookup k = some v := by
  induction l with
  | nil => simp [List.lookup]
  | cons e rest ih =>
    rcases e with ⟨k0, v0⟩
    rw [List.cons_append, List.lookup_cons] at *
    cases hq : (k == k0)
    · rw [hq] at h
      exact ih h
    · rw [hq] at h
      cases h

/-! ### The viewport -/

theorem anomaly_iff (g : GLES) (_width _height : Int) (dims : Int × Int) :
    ((((-_width : Int) : ℚ) * g._scale._horiz + g._offset._x * (_width : ℚ)
          < -((_width : ℚ) * 2 * g._scale._horiz) / 2)
      ∨ (((-_height : Int) : ℚ) * g._scale._vert + g._offset._y * (_height : ℚ)
          < -((_height : ℚ) * 2 * g._scale._vert) / 2)
      ∨ (((-_width : Int) : ℚ) * g._scale._horiz + g._offset._x * (_width : ℚ) > 0)
      ∨ (((-_height : Int) : ℚ) * g._scale._vert + g._offset._y * (_height : ℚ) > 0)
      ∨ ((_width : ℚ) * 2 * g._scale._horiz > (_width : ℚ) * 2)
      ∨ ((_height : ℚ) * 2 * g._scale._vert > (_height : ℚ) * 2)
      ∨ ((_width : ℚ) > (dims.1 : ℚ))
      ∨ ((_height : ℚ) > (dims.2 : ℚ)))
    ↔ anomaly (g.quirk _width _height) _width _height dims := by
  unfold anomaly GLES.quirk
  simp only [gt_iff_lt, Int.cast_lt]
  have e1 : ∀ a b : ℚ, a < -b / 2 ↔ b / 2 + a < 0 := by
    intro a b; constructor <;> intro h <;> linarith
  have e2 : ∀ a b : ℚ, b * 2 < a ↔ b < a / 2 := by
    intro a b; constructor <;> intro h <;> linarith
  rw [e1, e1, e2, e2]

/-! ### The scene lock -/

theorem Grows.refl (w : World) : Grows w w := ⟨[], by simp, by simp⟩

theorem Grows.of_trace {w1 w2 : World} (h : w2.trace = w1.trace) : Grows w1 w2 :=
  ⟨[], by simp [h], by simp⟩

theorem Grows.trans {a b c : World} (h1 : Grows a b) (h2 : Grows b c) : Grows a c := by
  obtain ⟨Y1, e1, f1⟩ := h1
  obtain ⟨Y2, e2, f2⟩ := h2
  refine ⟨Y1 ++ Y2, by rw [e2, e1, List.append_assoc], ?_⟩
  intro e he
  rcases List.mem_append.1 he with h | h
  · exact f1 e h
  · exact f2 e h

theorem grows_emit (w : World) (e : Ev) (h : e.free) : Grows w (w.emit e) :=
  ⟨[e], rfl, by simpa using h⟩

theorem grows_gl (w : World) (cmd : GLCmd) : Grows w (w.gl cmd) := by
  refine ⟨[Ev.gl cmd], ?_, ?_⟩
  · unfold World.gl; split <;> rfl
  · intro e he
    simp only [List.mem_singleton] at he
    subst he
    exact ⟨by simp, by simp⟩

theorem grows_glGetError (w : World) : Grows w w.glGetError.2 := Grows.of_trace rfl

theorem grows_eglGetError (w : World) : Grows w w.eglGetError.2 := Grows.of_trace rfl

theorem grows_egl (w : World) : Grows w w.egl.2 := Grows.of_trace rfl

theorem grows_checked (w : World) (cmd : GLCmd) : Grows w (w.checked cmd).2 :=
  (grows_gl w cmd).trans (grows_glGetError _)

theorem grows_step (cmd : GLCmd) (s : Bool × World) : Grows s.2 (step cmd s).2 := by
  unfold step
  split
  · exact grows_checked _ _
  · exact Grows.refl _

theorem grows_steps (cmds : List GLCmd) (s : Bool × World) : Grows s.2 (steps cmds s).2 := by
  induction cmds generalizing s with
  | nil => exact Grows.refl _
  | cons c cs ih =>
    have h1 : steps (c :: cs) s = steps cs (step c s) := rfl
    rw [h1]
    exact (grows_step c s).trans (ih _)

theorem grows_ite {w : World} {c : Prop} [Decidable c] {a b : Bool × World}
    (ha : Grows w a.2) (hb : Grows w b.2) : Grows w (if c then a else b).2 := by
  split
  · exact ha
  · exact hb

theorem grows_RenderColor (g : GLES) (w : World) : Grows w (g.RenderColor w).2 :=
  grows_steps _ (g.Valid, w)

theorem grows_SetupProgram (w : World) : Grows w (GLES.SetupProgram w).2 := by
  unfold GLES.SetupProgram
  lift_lets
  extract_lets r0 r1 wv wf r2
  have h0 : Grows w r0.2 := grows_glGetError w
  have h1 : Grows w r1.2 := grows_ite (h0.trans (grows_checked _ _)) h0
  have h2 : Grows w r2.2 := by
    refine grows_ite ?_ h1
    exact ((h1.trans ((grows_gl _ _).trans (grows_glGetError _))).trans
      ((grows_gl _ _).trans (grows_glGetError _))).trans (grows_checked _ _)
  exact grows_ite h2 (h2.trans (grows_gl _ _))

theorem grows_SetupViewport (a b : Int) (g : GLES) (w : World) :
    Grows w (GLES.SetupViewport a b g w).2 := by
  unfold GLES.SetupViewport
  lift_lets
  extract_lets r0 w1 _dims r1 _mult qw qh qx qy w2
  have h0 : Grows w r0.2 := grows_glGetError w
  have h1 : Grows w r1.2 := (h0.trans (grows_gl _ _)).trans (grows_glGetError _)
  have h2 : Grows w w2 := by
    show Grows w (if _ then r1.2.emit Ev.warn else r1.2)
    split
    · exact h1.trans (grows_emit _ _ ⟨by simp, by simp⟩)
    · exact h1
  refine grows_ite (grows_ite ?_ h1) h0
  exact h2.trans (grows_gl _ _)

theorem grows_RenderPolygon (g : GLES) (z : ℚ) (w : World) : Grows w (g.RenderPolygon z w).2 :=
  (grows_glGetError w).trans (grows_steps _ _)

theorem grows_RenderTileOES (g : GLES) (w : World) : Grows w (g.RenderTileOES w).2 := by
  unfold GLES.RenderTileOES
  lift_lets
  extract_lets r0 r1 r2
  have h0 : Grows w r0.2 := (grows_glGetError w).trans (grows_step _ _)
  have h1 : Grows w r1.2 := grows_ite (h0.trans (grows_RenderColor _ _)) h0
  have h2 : Grows w r2.2 := grows_ite (h1.trans (grows_SetupProgram _)) h1
  exact grows_ite (h2.trans (grows_RenderPolygon _ _ _)) h2

theorem grows_RenderTile (g : GLES) (w : World) : Grows w (g.RenderTile w).2 := by
  unfold GLES.RenderTile
  lift_lets
  extract_lets w0 r0 r1
  have h0 : Grows w r0.2 := (grows_glGetError w).trans (grows_glGetError _)
  have h1 : Grows w r1.2 := grows_ite (h0.trans (grows_SetupProgram _)) h0
  exact grows_ite (h1.trans (grows_RenderPolygon _ _ _)) h1

theorem grows_andG (f : GLES → Bool × GLES) (s : St) : Grows s.2.2 (andG f s).2.2 :=
  Grows.of_trace (by rw [andG_world])

theorem grows_andW (f : GLES → World → Bool × World) (hf : ∀ g w, Grows w (f g w).2) (s : St) :
    Grows s.2.2 (andW f s).2.2 := by
  unfold andW
  split
  · exact hf _ _
  · exact Grows.refl _

theorem grows_stepS (cmd : GLCmd) (s : St) : Grows s.2.2 (stepS cmd s).2.2 :=
  grows_step cmd (s.1, s.2.2)

theorem grows_sceneLoop (width height : Int) (l : List texture) (s : St) :
    Grows s.2.2 (GLES.sceneLoop width height l s).2.2 := by
  induction l generalizing s with
  | nil => exact Grows.refl _
  | cons t rest ih =>
    simp only [GLES.sceneLoop]
    have hb : Grows s.2.2
        (s |> stepS (GLCmd.BindTexture t._target t._tex)
           |> andG (fun g => g.UpdateScale t._scale)
           |> andG (fun g => g.UpdateOffset t._offset)
           |> andG (fun g => g.UpdateOpacity t._opacity)
           |> andW (GLES.SetupViewport width height)
           |> andW GLES.RenderTile
           |> stepS (GLCmd.BindTexture t._target InvalidTex)).2.2 :=
      ((((((grows_stepS _ _).trans (grows_andG _ _)).trans (grows_andG _ _)).trans
        (grows_andG _ _)).trans (grows_andW _ (grows_SetupViewport width height) _)).trans
        (grows_andW _ grows_RenderTile _)).trans (grows_stepS _ _)
    split
    · exact hb.trans (ih _)
    · exact hb

theorem grows_sceneSetup (g : GLES) (s : Bool × World) : Grows s.2 (g.sceneSetup s).2 := by
  unfold GLES.sceneSetup
  lift_lets
  extract_lets r1 r2 r3 r4 r5
  have h1 : Grows s.2 r1.2 := grows_steps _ _
  have h2 : Grows s.2 r2.2 := grows_ite (h1.trans (grows_checked _ _)) h1
  have h3 : Grows s.2 r3.2 := h2.trans (grows_step _ _)
  have h4 : Grows s.2 r4.2 := grows_ite (h3.trans (grows_gl _ _)) h3
  have h5 : Grows s.2 r5.2 := h4.trans (grows_steps _ _)
  exact grows_ite (h5.trans (grows_RenderColor _ _)) h5

theorem grows_sceneFinish (s : Bool × World) : Grows s.2 (GLES.sceneFinish s).2 := by
  unfold GLES.sceneFinish
  lift_lets
  extract_lets w8 r8 w9
  have h8 : Grows s.2 w8 := grows_gl _ _
  have h8r : Grows s.2 r8.2 := grows_ite (h8.trans (grows_glGetError _)) h8
  have h9 : Grows s.2 w9 := h8r.trans (grows_gl _ _)
  exact grows_ite (h9.trans (grows_glGetError _)) h9

theorem grows_textureStorage (dpy ctx : Bool) (target : tgt_t) (img : img_t) (width height : Nat)
    (w : World) : Grows w (textureStorage dpy ctx target img width height w).2 := by
  unfold textureStorage
  repeat' split
  all_goals first | exact grows_checked _ _ | exact Grows.refl _

theorem grows_SetupTexture (dpy ctx : Bool) (tex : texture) (img : img_t) (width height : Int)
    (w : World) : Grows w (SetupTexture dpy ctx tex img width height w).2.2 := by
  unfold SetupTexture
  lift_lets
  extract_lets r0 fresh failed r gen t1 r1 t2 r2 r3
  have h0 : Grows w r0.2 := grows_glGetError w
  have hg : Grows w gen.2.2 := by
    show Grows w (if r0.1 = true then _ else (false, tex, r0.2)).2.2
    split
    · exact h0.trans (grows_checked _ _)
    · exact h0
  have h1 : Grows w r1.2 := hg.trans (grows_steps _ _)
  have h3 : Grows w r3.2 := (h1.trans (grows_textureStorage _ _ _ _ _ _ _)).trans (grows_step _ _)
  split
  · exact h3
  · exact h1

theorem grows_DestroyTexture (tex : texture) (w : World) : Grows w (DestroyTexture tex w).2.2 := by
  unfold DestroyTexture
  split
  · lift_lets
    intro r
    split <;> exact grows_checked _ _
  · exact Grows.refl _

theorem grows_imagePrelude (w : World) (img : img_t) (width height : Int) :
    Grows w (GLES.imagePrelude w img width height).2.2.2.2 := by
  unfold GLES.imagePrelude
  lift_lets
  extract_lets r0 ret0 _ctx r1 r2 r3 _width _height _tex_oes _tex_fbo r4 r5
  have h0 : Grows w r0.2 := grows_glGetError w
  have h1 : Grows w r1.2 := grows_ite (h0.trans (grows_eglGetError _)) h0
  have h2 : Grows w r2.2 := grows_ite (h1.trans (grows_eglGetError _)) h1
  have h3 : Grows w r3.2 := by
    refine grows_ite ?_ h2
    refine grows_ite (grows_ite ?_ ?_) ?_
    · exact ((h2.trans (grows_egl _)).trans (grows_egl _)).trans (grows_eglGetError _)
    · exact (h2.trans (grows_egl _)).trans (grows_egl _)
    · exact h2.trans (grows_egl _)
  have h4 : Grows w r4.2 := h3.trans (grows_steps _ _)
  show Grows w r5.2.2
  show Grows w (if r4.1 = true then _ else (false, _tex_oes, r4.2)).2.2
  split
  · exact h4.trans (grows_SetupTexture _ _ _ _ _ _ _)
  · exact h4

theorem grows_imageDraw (g : GLES) (s : Bool × World) (a b : texture) (x y : Int) :
    Grows s.2 (GLES.imageDraw g s a b x y).2.2 := by
  unfold GLES.imageDraw
  lift_lets
  extract_lets r7 s8 s9
  have h7 : Grows s.2 r7.2 := grows_steps _ _
  have h8 : Grows s.2 s8.2.2 :=
    ((((h7.trans (grows_andG _ (r7.1, g, r7.2))).trans (grows_andG _ _)).trans
      (grows_andG _ _)).trans (grows_andW _ (grows_SetupViewport x y) _)).trans
      (grows_andW _ grows_RenderTileOES _)
  have h9 : Grows s.2 s9.2.2 := (h8.trans (grows_stepS _ _)).trans (grows_stepS _ _)
  exact h9.trans (grows_DestroyTexture _ _)

theorem news_of_trace {w1 w2 : World} {Y : List Ev} (h : w2.trace = w1.trace ++ Y) :
    news w1 w2 = Y := by
  unfold news
  rw [h]
  simp

theorem underLock_free (held : Bool) (Y Z : List Ev) (hY : ∀ e ∈ Y, e.free) :
    underLock held (Y ++ Z) = (if held then Y else []) ++ underLock held Z := by
  induction Y with
  | nil => cases held <;> simp
  | cons e es ih =>
    have he := hY e (List.mem_cons_self _ _)
    have ih' := ih (fun x hx => hY x (List.mem_cons_of_mem _ hx))
    cases e with
    | lock => exact absurd rfl he.1
    | unlock => exact absurd rfl he.2
    | _ => cases held <;> simp_all [underLock]

theorem RenderScene_trace (g : GLES) (w : World) (width height : Nat)
    (sortfunc : texture → texture → Bool) :
    ∃ Y, (g.RenderScene w width height sortfunc).2.2.trace
        = w.trace ++ [Ev.lock, Ev.unlock] ++ Y ∧ ∀ e ∈ Y, e.free := by
  unfold GLES.RenderScene
  lift_lets
  extract_lets r0 w1 _sorted r6 _off _scl _op s7 r9
  have h1 : w1.trace = w.trace ++ [Ev.lock, Ev.unlock] := by
    show ((w.glGetError.2.emit Ev.lock).emit Ev.unlock).trace = _
    simp [World.emit, World.glGetError]
  have h6 : Grows w1 r6.2 := grows_sceneSetup g (r0.1, w1)
  have h7 : Grows w1 s7.2.2 := by
    show Grows w1 (if r6.1 = true then _ else (false, g, r6.2)).2.2
    split
    · exact (((h6.trans (grows_sceneLoop _ _ _ (true, g, r6.2))).trans (grows_andG _ _)).trans
        (grows_andG _ _)).trans (grows_andG _ _)
    · exact h6
  have h9 : Grows w1 r9.2 := h7.trans (grows_sceneFinish (s7.1, s7.2.2))
  obtain ⟨Y, hY, hf⟩ := h9
  exact ⟨Y, by show r9.2.trace = _; rw [hY, h1], hf⟩

theorem Deinitialize_fold (l : Scene) (r : Bool × World) :
    (l.foldl
      (fun r e =>
        let wd := r.2.gl (GLCmd.DeleteTextures e.2._tex)
        if r.1 then wd.glGetError else (false, wd)) r).2.trace
      = r.2.trace ++ l.map (fun e => Ev.gl (GLCmd.DeleteTextures e.2._tex)) := by
  induction l generalizing r with
  | nil => simp
  | cons e rest ih =>
    rw [List.foldl_cons, ih]
    have : (let wd := r.2.gl (GLCmd.DeleteTextures e.2._tex)
            if r.1 then wd.glGetError else (false, wd)).2.trace
        = r.2.trace ++ [Ev.gl (GLCmd.DeleteTextures e.2._tex)] := by
      have hg : (r.2.gl (GLCmd.DeleteTextures e.2._tex)).trace
          = r.2.trace ++ [Ev.gl (GLCmd.DeleteTextures e.2._tex)] := by
        unfold World.gl; split <;> rfl
      lift_lets
      intro wd
      split
      · exact hg
      · exact hg
    rw [this]
    simp

theorem Deinitialize_trace (g : GLES) (w : World) :
    ( GLES.Deinitialize g w).2.trace
      = w.trace ++ [Ev.gl (GLCmd.BindTexture GL_TEXTURE_2D InvalidTex),
                    Ev.gl (GLCmd.BindTexture GL_TEXTURE_EXTERNAL_OES InvalidTex), Ev.lock]
          ++ g._scene.map (fun e => Ev.gl (GLCmd.DeleteTextures e.2._tex)) ++ [Ev.unlock] := by
  unfold GLES.Deinitialize
  lift_lets
  extract_lets r1 w2 r2 r3
  have hg : ∀ (w : World) (cmd : GLCmd), (w.gl cmd).trace = w.trace ++ [Ev.gl cmd] := by
    intro w cmd; unfold World.gl; split <;> rfl
  have h1 : r1.2.trace = w.trace ++ [Ev.gl (GLCmd.BindTexture GL_TEXTURE_2D InvalidTex)] :=
    hg _ _
  have h2 : r2.2.trace = w.trace ++ [Ev.gl (GLCmd.BindTexture GL_TEXTURE_2D InvalidTex),
      Ev.gl (GLCmd.BindTexture GL_TEXTURE_EXTERNAL_OES InvalidTex)] := by
    have hw2 : w2.trace = _ := hg r1.2 _
    show (if r1.1 = true then w2.glGetError else (false, w2)).2.trace = _
    split
    · show w2.trace = _
      rw [hw2, h1]; simp
    · show w2.trace = _
      rw [hw2, h1]; simp
  show (r3.2.emit Ev.unlock).trace = _
  have h3 : r3.2.trace = (r2.2.emit Ev.lock).trace
      ++ g._scene.map (fun e => Ev.gl (GLCmd.DeleteTextures e.2._tex)) :=
    Deinitialize_fold g._scene (r2.1, r2.2.emit Ev.lock)
  rw [trace_emit, h3, trace_emit, h2]
  simp

theorem sceneBlock_world (g : GLES) (w : World) (dpy ctx : Bool) (fbo : texture) (img : img_t)
    (width height : Int) :
    (g.sceneBlock w dpy ctx fbo img width height).2.2.2
      = (match g._scene.find img with
         | some _ => w
         | none => (SetupTexture dpy ctx fbo img width height w).2.2) := by
  unfold GLES.sceneBlock
  cases g._scene.find img with
  | some t => rfl
  | none =>
    dsimp only
    split <;> split <;> rfl

theorem underLock_shape (Y1 B Y3 : List Ev) (h1 : ∀ e ∈ Y1, e.free) (hB : ∀ e ∈ B, e.free)
    (h3 : ∀ e ∈ Y3, e.free) :
    underLock false (Y1 ++ ([Ev.lock] ++ (B ++ ([Ev.unlock] ++ Y3)))) = B := by
  rw [underLock_free false Y1 _ h1]
  simp only [Bool.false_eq_true, if_false, List.nil_append]
  show underLock true (B ++ ([Ev.unlock] ++ Y3)) = B
  rw [underLock_free true B _ hB]
  simp only [if_true]
  show B ++ underLock false Y3 = B
  have h := underLock_free false Y3 [] h3
  rw [List.append_nil] at h
  rw [h]
  simp [underLock]

theorem RenderEGLImage_under (g : GLES) (w : World) (img : img_t) (width height : Int) :
    underLock false (news w (g.RenderEGLImage w img width height).2.2)
      = (if (GLES.imagePrelude w img width height).1 = true ∧ g._scene.find img = none then
          news ((GLES.imagePrelude w img width height).2.2.2.2.emit Ev.lock)
            (SetupTexture w.current w.current
              (texture.make GL_TEXTURE_2D InitialOffset InitialScale InitialOpacity)
              img width height
              ((GLES.imagePrelude w img width height).2.2.2.2.emit Ev.lock)).2.2
        else []) := by
  obtain ⟨Y1, e1, f1⟩ := grows_imagePrelude w img width height
  unfold GLES.RenderEGLImage
  lift_lets
  extract_lets p _tex_oes _tex_fbo w6 r6 w7
  have hw6 : w6.trace = w.trace ++ Y1 ++ [Ev.lock] := by
    show (p.2.2.2.2.emit Ev.lock).trace = _
    rw [trace_emit, e1]
  obtain ⟨Y3, e3, f3⟩ := grows_imageDraw r6.2.2.1 (r6.1, w7) _tex_oes r6.2.1 p.2.2.1 p.2.2.2.1
  have hw7 : w7.trace = r6.2.2.2.trace ++ [Ev.unlock] := trace_emit _ _
  by_cases hc : p.1 = true ∧ g._scene.find img = none
  · rw [if_pos hc]
    obtain ⟨B, eB, fB⟩ := grows_SetupTexture w.current w.current _tex_fbo img width height w6
    have h6 : r6.2.2.2 = (SetupTexture w.current w.current _tex_fbo img width height w6).2.2 := by
      show (if p.1 = true then g.sceneBlock w6 w.current w.current _tex_fbo img width height
            else (false, _tex_fbo, g, w6)).2.2.2 = _
      rw [if_pos hc.1, sceneBlock_world, hc.2]
    rw [news_of_trace eB]
    have ht : (GLES.imageDraw r6.2.2.1 (r6.1, w7) _tex_oes r6.2.1 p.2.2.1 p.2.2.2.1).2.2.trace
        = w.trace ++ (Y1 ++ ([Ev.lock] ++ (B ++ ([Ev.unlock] ++ Y3)))) := by
      rw [e3]
      show w7.trace ++ Y3 = _
      rw [hw7, h6, eB, hw6]
      simp
    rw [news_of_trace ht]
    exact underLock_shape Y1 B Y3 f1 fB f3
  · rw [if_neg hc]
    have h6 : r6.2.2.2 = w6 := by
      show (if p.1 = true then g.sceneBlock w6 w.current w.current _tex_fbo img width height
            else (false, _tex_fbo, g, w6)).2.2.2 = _
      by_cases hp : p.1 = true
      · rw [if_pos hp, sceneBlock_world]
        cases hf : g._scene.find img with
        | none => exact absurd ⟨hp, hf⟩ hc
        | some t => rfl
      · rw [if_neg hp]
    have ht : (GLES.imageDraw r6.2.2.1 (r6.1, w7) _tex_oes r6.2.1 p.2.2.1 p.2.2.2.1).2.2.trace
        = w.trace ++ (Y1 ++ ([Ev.lock] ++ ([] ++ ([Ev.unlock] ++ Y3)))) := by
      rw [e3]
      show w7.trace ++ Y3 = _
      rw [hw7, h6, hw6]
      simp
    rw [news_of_trace ht]
    exact underLock_shape Y1 [] Y3 f1 (by simp) f3

theorem RenderScene_under (g : GLES) (w : World) (width height : Nat)
    (sortfunc : texture → texture → Bool) :
    underLock false (news w (g.RenderScene w width height sortfunc).2.2) = [] := by
  obtain ⟨Y, hY, hf⟩ := RenderScene_trace g w width height sortfunc
  have ht : (g.RenderScene w width height sortfunc).2.2.trace
      = w.trace ++ ([] ++ ([Ev.lock] ++ ([] ++ ([Ev.unlock] ++ Y)))) := by
    rw [hY]; simp
  rw [news_of_trace ht]
  exact underLock_shape [] [] Y (by simp) (by simp) hf

theorem Deinitialize_under (g : GLES) (w : World) :
    underLock false (news w ( GLES.Deinitialize g w).2)
      = g._scene.map (fun e => Ev.gl (GLCmd.DeleteTextures e.2._tex)) := by
  have ht : ( GLES.Deinitialize g w).2.trace
      = w.trace ++ ([Ev.gl (GLCmd.BindTexture GL_TEXTURE_2D InvalidTex),
                    Ev.gl (GLCmd.BindTexture GL_TEXTURE_EXTERNAL_OES InvalidTex)]
          ++ ([Ev.lock] ++ (g._scene.map (fun e => Ev.gl (GLCmd.DeleteTextures e.2._tex))
          ++ ([Ev.unlock] ++ [])))) := by
    rw [Deinitialize_trace]; simp
  rw [news_of_trace ht]
  refine underLock_shape _ _ [] ?_ ?_ (by simp)
  · intro e he
    simp only [List.mem_cons, List.mem_singleton, List.not_mem_nil, or_false] at he
    rcases he with rfl | rfl <;> exact ⟨by simp, by simp⟩
  · intro e he
    obtain ⟨x, _, rfl⟩ := List.mem_map.1 he
    exact ⟨by simp, by simp⟩

/-! ### The draw of stage 1 -/

theorem Grows.mem {w1 w2 : World} (h : Grows w1 w2) {e : Ev} (he : e ∈ w1.trace) :
    e ∈ w2.trace := by
  obtain ⟨Y, hY, _⟩ := h
  rw [hY]
  exact List.mem_append_left _ he

theorem steps_trace_of_true (cmds : List GLCmd) (s : Bool × World)
    (h : (steps cmds s).1 = true) : (steps cmds s).2.trace = s.2.trace ++ cmds.map Ev.gl := by
  induction cmds generalizing s with
  | nil => simp [steps]
  | cons c cs ih =>
    have h1 : steps (c :: cs) s = steps cs (step c s) := rfl
    rw [h1] at h ⊢
    rw [ih _ h]
    have hs : s.1 = true := step_true c s (steps_true cs _ h)
    have : (step c s).2.trace = s.2.trace ++ [Ev.gl c] := by
      unfold step
      rw [if_pos hs]
      unfold World.checked World.glGetError World.gl
      split <;> rfl
    rw [this]
    simp

theorem RenderPolygon_uniform (g : GLES) (z : ℚ) (w : World)
    (h : (g.RenderPolygon z w).1 = true) :
    Ev.gl (GLCmd.Uniform1f g._opacity._alpha) ∈ (g.RenderPolygon z w).2.trace := by
  unfold GLES.RenderPolygon at h ⊢
  rw [steps_trace_of_true _ _ h]
  simp

theorem RenderTileOES_uniform (g : GLES) (w : World) (h : (g.RenderTileOES w).1 = true) :
    Ev.gl (GLCmd.Uniform1f g._opacity._alpha) ∈ (g.RenderTileOES w).2.trace := by
  unfold GLES.RenderTileOES at h ⊢
  lift_lets at h ⊢
  extract_lets r0 r1 r2 at h ⊢
  by_cases h2 : r2.1 = true
  · rw [if_pos h2] at h ⊢
    exact RenderPolygon_uniform g 0 r2.2 h
  · rw [if_neg h2] at h
    exact absurd h h2

theorem SetupViewport_true (a b : Int) (g : GLES) (w : World)
    (h : (g.SetupViewport a b w).1 = true) : w.glError = false ∧ w.fail w.issued = false := by
  unfold GLES.SetupViewport at h
  lift_lets at h
  extract_lets r0 w1 _dims r1 _mult qw qh qx qy w2 at h
  by_cases h0 : r0.1 = true
  · rw [if_pos h0] at h
    by_cases h1 : r1.1 = true
    · have e0 : w.glError = false := by
        have : (!w.glError) = true := h0
        simpa using this
      refine ⟨e0, ?_⟩
      have : (!w1.glError) = true := h1
      have hw1 : w1 = r0.2.gl GLCmd.GetMaxViewportDims := rfl
      rw [hw1] at this
      unfold World.gl at this
      by_cases hf : r0.2.fail r0.2.issued = true
      · rw [if_pos hf] at this
        simp at this
      · simpa using hf
    · rw [if_neg h1] at h
      exact absurd h h1
  · rw [if_neg h0] at h
    exact absurd h h0

theorem SetupViewport_events (_width _height : Int) (g : GLES) (w : World)
    (h0 : w.glError = false) (h1 : w.fail w.issued = false) :
    (g.SetupViewport _width _height w).1 = true
    ∧ (g.SetupViewport _width _height w).2.trace
        = w.trace ++ [Ev.gl GLCmd.GetMaxViewportDims]
            ++ (if anomaly (g.quirk _width _height) _width _height w.maxViewportDims
                then [Ev.warn] else [])
            ++ [Ev.gl (GLCmd.Viewport (truncToInt (g.quirk _width _height).1)
                  (truncToInt (g.quirk _width _height).2.1)
                  (truncToInt (g.quirk _width _height).2.2.1)
                  (truncToInt (g.quirk _width _height).2.2.2))] := by
  have ha := anomaly_iff g _width _height w.maxViewportDims
  unfold GLES.SetupViewport
  simp only [World.glGetError, World.gl, h0, h1, Bool.not_false, if_true, Bool.false_eq_true,
    if_false, World.effect]
  by_cases hA : anomaly (g.quirk _width _height) _width _height w.maxViewportDims
  · rw [if_pos (ha.2 hA), if_pos hA]
    constructor
    · trivial
    · simp only [World.emit]
      split <;> simp [GLES.quirk]
  · rw [if_neg (fun h => hA (ha.1 h)), if_neg hA]
    constructor
    · trivial
    · split <;> simp [GLES.quirk]

theorem SetupViewport_viewport (a b : Int) (g : GLES) (w : World)
    (h : (g.SetupViewport a b w).1 = true) :
    Ev.gl (GLCmd.Viewport (truncToInt (g.quirk a b).1) (truncToInt (g.quirk a b).2.1)
        (truncToInt (g.quirk a b).2.2.1) (truncToInt (g.quirk a b).2.2.2))
      ∈ (g.SetupViewport a b w).2.trace := by
  obtain ⟨h0, h1⟩ := SetupViewport_true a b g w h
  rw [(SetupViewport_events a b g w h0 h1).2]
  simp

theorem SetupTexture_transform (dpy ctx : Bool) (tex : texture) (img : img_t) (width height : Int)
    (w : World) :
    ((SetupTexture dpy ctx tex img width height w).2.1._offset,
      (SetupTexture dpy ctx tex img width height w).2.1._scale,
      (SetupTexture dpy ctx tex img width height w).2.1._opacity)
      = (tex._offset, tex._scale, tex._opacity) := by
  unfold SetupTexture
  lift_lets
  extract_lets r0 fresh failed r gen t1 r1 t2 r2 r3
  have hg : (gen.2.1._offset, gen.2.1._scale, gen.2.1._opacity)
      = (tex._offset, tex._scale, tex._opacity) := by
    show (fun t : texture => (t._offset, t._scale, t._opacity))
      (if r0.1 = true then (r.1, (if failed = true then tex else { tex with _tex := fresh }), r.2)
        else (false, tex, r0.2)).2.1 = _
    split
    · split <;> rfl
    · rfl
  split
  · exact hg
  · exact hg

theorem imagePrelude_oes (w : World) (img : img_t) (width height : Int) :
    ((GLES.imagePrelude w img width height).2.1._offset,
      (GLES.imagePrelude w img width height).2.1._scale) = (InitialOffset, InitialScale) := by
  unfold GLES.imagePrelude
  lift_lets
  extract_lets r0 ret0 _ctx r1 r2 r3 _width _height _tex_oes _tex_fbo r4 r5
  show (fun t : texture => (t._offset, t._scale))
    (if r4.1 = true then SetupTexture _ctx _ctx _tex_oes img width height r4.2
        else (false, _tex_oes, r4.2)).2.1 = _
  split
  · have := SetupTexture_transform _ctx _ctx _tex_oes img width height r4.2
    simp only [Prod.mk.injEq] at this ⊢
    exact ⟨this.1, this.2.1⟩
  · rfl

theorem sceneBlock_entry (g : GLES) (w : World) (dpy ctx : Bool) (fbo : texture) (img : img_t)
    (width height : Int) (h : (g.sceneBlock w dpy ctx fbo img width height).1 = true) :
    (g.sceneBlock w dpy ctx fbo img width height).2.1._offset = g._offset
    ∧ (g.sceneBlock w dpy ctx fbo img width height).2.1._scale = g._scale
    ∧ (g.sceneBlock w dpy ctx fbo img width height).2.1._opacity = g._opacity
    ∧ (g.sceneBlock w dpy ctx fbo img width height).2.2.1._scene.find img
        = some (g.sceneBlock w dpy ctx fbo img width height).2.1 := by
  unfold GLES.sceneBlock at h ⊢
  cases hf : g._scene.find img with
  | some t0 =>
    dsimp only
    exact ⟨rfl, rfl, rfl, Scene.find_put_same _ _ _⟩
  | none =>
    rw [hf] at h
    dsimp only at h ⊢
    by_cases hr : (SetupTexture dpy ctx fbo img width height w).1 = true
    · simp only [hr, if_true] at h ⊢
      by_cases hi : (g._scene.insert img (SetupTexture dpy ctx fbo img width height w).2.1).2
          = true
      · simp only [hi, if_true]
        exact ⟨trivial, trivial, trivial, Scene.find_put_same _ _ _⟩
      · simp [hi] at h
    · simp [hr] at h

theorem andG_ok (f : GLES → Bool × GLES) (s : St) (h : (andG f s).1 = true) :
    andG f s = ((f s.2.1).1, (f s.2.1).2, s.2.2) ∧ (f s.2.1).1 = true := by
  have hs := andG_true f s h
  unfold andG at h ⊢
  rw [if_pos hs] at h ⊢
  exact ⟨rfl, h⟩

theorem andW_ok (f : GLES → World → Bool × World) (s : St) (h : (andW f s).1 = true) :
    andW f s = ((f s.2.1 s.2.2).1, s.2.1, (f s.2.1 s.2.2).2) ∧ (f s.2.1 s.2.2).1 = true := by
  have hs := andW_true f s h
  unfold andW at h ⊢
  rw [if_pos hs] at h ⊢
  exact ⟨rfl, h⟩

theorem UpdateScale_ok (g : GLES) (x : scale) (h : (g.UpdateScale x).1 = true) :
    (g.UpdateScale x).2 = { g with _scale := x } := by
  unfold GLES.UpdateScale at h ⊢
  split
  · rfl
  · rename_i hn; simp [hn] at h

theorem UpdateOffset_ok (g : GLES) (x : offset) (h : (g.UpdateOffset x).1 = true) :
    (g.UpdateOffset x).2 = { g with _offset := x } := by
  unfold GLES.UpdateOffset at h ⊢
  split
  · rfl
  · rename_i hn; simp [hn] at h

theorem UpdateOpacity_ok (g : GLES) (x : opacity) (h : (g.UpdateOpacity x).1 = true) :
    (g.UpdateOpacity x).2 = { g with _opacity := x } := by
  unfold GLES.UpdateOpacity at h ⊢
  split
  · rfl
  · rename_i hn; simp [hn] at h

theorem imageDraw_draw (g : GLES) (s : Bool × World) (a b : texture) (x y : Int)
    (h : (GLES.imageDraw g s a b x y).1 = true) :
    (GLES.imageDraw g s a b x y).2.1._scale = a._scale
    ∧ (GLES.imageDraw g s a b x y).2.1._offset = a._offset
    ∧ (GLES.imageDraw g s a b x y).2.1._opacity = b._opacity
    ∧ Ev.gl (GLCmd.Uniform1f b._opacity._alpha) ∈ (GLES.imageDraw g s a b x y).2.2.trace
    ∧ Ev.gl (GLCmd.Viewport
          (truncToInt ((GLES.imageDraw g s a b x y).2.1.quirk x y).1)
          (truncToInt ((GLES.imageDraw g s a b x y).2.1.quirk x y).2.1)
          (truncToInt ((GLES.imageDraw g s a b x y).2.1.quirk x y).2.2.1)
          (truncToInt ((GLES.imageDraw g s a b x y).2.1.quirk x y).2.2.2))
        ∈ (GLES.imageDraw g s a b x y).2.2.trace := by
  unfold GLES.imageDraw at h ⊢
  lift_lets at h ⊢
  extract_lets r7 s8 s9 at h ⊢
  set u1 : St := andG (fun g => g.UpdateScale a._scale) (r7.1, g, r7.2) with hu1
  set u2 : St := andG (fun g => g.UpdateOffset a._offset) u1 with hu2
  set u3 : St := andG (fun g => g.UpdateOpacity b._opacity) u2 with hu3
  set v : St := andW (GLES.SetupViewport x y) u3 with hv
  have hs8 : s8 = andW GLES.RenderTileOES v := rfl
  set m : St := stepS (GLCmd.BindTexture a._target InvalidTex) s8 with hm
  have hs9 : s9 = stepS (GLCmd.BindTexture b._target InvalidTex) m := rfl
  have h9 : s9.1 = true := h
  have h8 : s8.1 = true := by
    rw [hs9] at h9
    exact stepS_true _ _ (stepS_true _ _ h9)
  have hv1 : v.1 = true := by rw [hs8] at h8; exact andW_true _ _ h8
  have h3 : u3.1 = true := andW_true _ _ hv1
  have h2 : u2.1 = true := andG_true _ _ h3
  have h1 : u1.1 = true := andG_true _ _ h2
  obtain ⟨q1, k1⟩ := andG_ok _ _ h1
  obtain ⟨q2, k2⟩ := andG_ok _ _ h2
  obtain ⟨q3, k3⟩ := andG_ok _ _ h3
  obtain ⟨qv, kv⟩ := andW_ok _ _ hv1
  obtain ⟨q8, k8⟩ := andW_ok _ _ (by rw [← hs8]; exact h8 : (andW GLES.RenderTileOES v).1 = true)
  have g9 : s9.2.1 = u3.2.1 := by
    rw [hs9, stepS_gles, hm, stepS_gles, hs8, andW_gles, hv, andW_gles]
  have e1 : u1.2.1._scale = a._scale := by
    rw [hu1, q1]; show (GLES.UpdateScale g a._scale).2._scale = _
    rw [UpdateScale_ok _ _ k1]
  have e2 : u2.2.1._offset = a._offset ∧ u2.2.1._scale = a._scale := by
    rw [hu2, q2]; show (GLES.UpdateOffset u1.2.1 a._offset).2._offset = _
      ∧ (GLES.UpdateOffset u1.2.1 a._offset).2._scale = _
    rw [UpdateOffset_ok _ _ k2]
    exact ⟨rfl, e1⟩
  have e3 : u3.2.1._opacity = b._opacity ∧ u3.2.1._offset = a._offset
      ∧ u3.2.1._scale = a._scale := by
    rw [hu3, q3]; show (GLES.UpdateOpacity u2.2.1 b._opacity).2._opacity = _
      ∧ (GLES.UpdateOpacity u2.2.1 b._opacity).2._offset = _
      ∧ (GLES.UpdateOpacity u2.2.1 b._opacity).2._scale = _
    rw [UpdateOpacity_ok _ _ k3]
    exact ⟨rfl, e2.1, e2.2⟩
  have ga : Grows s8.2.2 m.2.2 := grows_stepS _ s8
  have gb : Grows m.2.2 s9.2.2 := grows_stepS _ m
  have gc : Grows s9.2.2 (DestroyTexture a s9.2.2).2.2 := grows_DestroyTexture _ _
  have g8 : Grows s8.2.2 (DestroyTexture a s9.2.2).2.2 := (ga.trans gb).trans gc
  have gv : Grows v.2.2 (DestroyTexture a s9.2.2).2.2 := by
    have : Grows v.2.2 s8.2.2 := by
      rw [hs8]; exact grows_andW _ grows_RenderTileOES v
    exact this.trans g8
  have mv : Ev.gl (GLCmd.Viewport (truncToInt (u3.2.1.quirk x y).1)
      (truncToInt (u3.2.1.quirk x y).2.1) (truncToInt (u3.2.1.quirk x y).2.2.1)
      (truncToInt (u3.2.1.quirk x y).2.2.2)) ∈ v.2.2.trace := by
    rw [hv, qv]
    exact SetupViewport_viewport x y u3.2.1 u3.2.2 kv
  have mu : Ev.gl (GLCmd.Uniform1f b._opacity._alpha) ∈ s8.2.2.trace := by
    have hvg : v.2.1 = u3.2.1 := by rw [hv, andW_gles]
    have := RenderTileOES_uniform v.2.1 v.2.2 k8
    rw [hvg, e3.1] at this
    rw [hs8, q8, hvg]
    exact this
  show s9.2.1._scale = _ ∧ s9.2.1._offset = _ ∧ s9.2.1._opacity = _ ∧ _ ∈ _ ∧ _ ∈ _
  rw [g9]
  exact ⟨e3.2.2, e3.2.1, e3.1, g8.mem mu, gv.mem mv⟩

theorem imageDraw_true (g : GLES) (s : Bool × World) (a b : texture) (x y : Int)
    (h : (GLES.imageDraw g s a b x y).1 = true) : s.1 = true := by
  unfold GLES.imageDraw at h
  lift_lets at h
  extract_lets r7 s8 s9 at h
  have h9 : s9.1 = true := h
  have h8 : s8.1 = true := stepS_true _ _ (stepS_true _ _ h9)
  have h0 : r7.1 = true :=
    andG_true _ (r7.1, g, r7.2) (andG_true _ _ (andG_true _ _ (andW_true _ _ (andW_true _ _ h8))))
  exact steps_true _ _ h0

theorem quirk_congr (g1 g2 : GLES) (x y : Int) (hs : g1._scale = g2._scale)
    (ho : g1._offset = g2._offset) : g1.quirk x y = g2.quirk x y := by
  unfold GLES.quirk
  rw [hs, ho]

theorem RenderEGLImage_draw (g : GLES) (w : World) (img : img_t) (width height : Int)
    (h : (g.RenderEGLImage w img width height).1 = true) :
    (g.RenderEGLImage w img width height).2.1._offset = InitialOffset
    ∧ (g.RenderEGLImage w img width height).2.1._scale = InitialScale
    ∧ (g.RenderEGLImage w img width height).2.1._opacity = g._opacity
    ∧ Ev.gl (GLCmd.Uniform1f g._opacity._alpha)
        ∈ (g.RenderEGLImage w img width height).2.2.trace
    ∧ Ev.gl (GLCmd.Viewport
          (truncToInt (GLES.init.quirk (GLES.imagePrelude w img width height).2.2.1
            (GLES.imagePrelude w img width height).2.2.2.1).1)
          (truncToInt (GLES.init.quirk (GLES.imagePrelude w img width height).2.2.1
            (GLES.imagePrelude w img width height).2.2.2.1).2.1)
          (truncToInt (GLES.init.quirk (GLES.imagePrelude w img width height).2.2.1
            (GLES.imagePrelude w img width height).2.2.2.1).2.2.1)
          (truncToInt (GLES.init.quirk (GLES.imagePrelude w img width height).2.2.1
            (GLES.imagePrelude w img width height).2.2.2.1).2.2.2))
        ∈ (g.RenderEGLImage w img width height).2.2.trace
    ∧ ∃ t, (g.RenderEGLImage w img width height).2.1._scene.find img = some t
        ∧ t._offset = g._offset ∧ t._scale = g._scale ∧ t._opacity = g._opacity := by
  have hoes := imagePrelude_oes w img width height
  simp only [Prod.mk.injEq] at hoes
  unfold GLES.RenderEGLImage at h ⊢
  lift_lets at h ⊢
  extract_lets p _tex_oes _tex_fbo w6 r6 w7 at h ⊢
  have h6 : r6.1 = true := imageDraw_true _ _ _ _ _ _ h
  have hp : p.1 = true := by
    by_contra hn
    have : r6 = (false, _tex_fbo, g, w6) := by
      show (if p.1 = true then _ else (false, _tex_fbo, g, w6)) = _
      rw [if_neg hn]
    rw [this] at h6
    exact absurd h6 (by simp)
  have hr6 : r6 = g.sceneBlock w6 w.current w.current _tex_fbo img width height := by
    show (if p.1 = true then _ else (false, _tex_fbo, g, w6)) = _
    rw [if_pos hp]
  obtain ⟨b1, b2, b3, b4⟩ := sceneBlock_entry g w6 w.current w.current _tex_fbo img width height
    (by rw [← hr6]; exact h6)
  rw [← hr6] at b1 b2 b3 b4
  obtain ⟨d1, d2, d3, d4, d5⟩ := imageDraw_draw _ _ _ _ _ _ h
  have hq := quirk_congr
    (GLES.imageDraw r6.2.2.1 (r6.1, w7) _tex_oes r6.2.1 p.2.2.1 p.2.2.2.1).2.1 GLES.init
    p.2.2.1 p.2.2.2.1 (d1.trans hoes.2) (d2.trans hoes.1)
  rw [hq] at d5
  refine ⟨d2.trans hoes.1, d1.trans hoes.2, d3.trans b3, by rw [← b3]; exact d4, d5,
    r6.2.1, ?_, b1, b2, b3⟩
  rw [imageDraw_scene]
  exact b4

/-! ### The attributes of an image -/

theorem CreateImage_success (egl : EGL) (surf : surf_t) (w : World) (bo : gbm_bo)
    (hb : surf._buf = some bo) (h : (egl.CreateImage surf w).1 ≠ InvalidImage) :
    (egl.CreateImage surf w).2.trace
      = w.trace ++ [Ev.createImage (EGL.imageAttrs bo surf._fd) (egl.CreateImage surf w).1] := by
  generalize hr : egl.CreateImage surf w = r at h ⊢
  unfold EGL.CreateImage at hr
  split at hr
  · split at hr
    · rw [hb] at hr
      split at hr
      · subst hr
        exact absurd rfl h
      rename_i bo2 heq
      cases heq
      lift_lets at hr
      extract_lets valid0 q1 q2 q3 valid1 q4 q5 valid2 r0 at hr
      have t1 : q1.2.trace = w.trace := by
        show (if valid0 = true then w.egl else (false, w)).2.trace = w.trace
        split <;> rfl
      have t2 : q2.2.trace = w.trace := by
        show (if q1.1 = true then q1.2.egl else q1).2.trace = w.trace
        split
        · exact t1
        · exact t1
      have t3 : q3.2.trace = w.trace := by
        show (if q2.1 = true then q2.2.egl else q2).2.trace = w.trace
        split
        · exact t2
        · exact t2
      have t4 : q4.2.trace = w.trace := by
        show (if valid1 = true then q3.2.egl else (false, q3.2)).2.trace = w.trace
        split
        · exact t3
        · exact t3
      have t5 : q5.2.trace = w.trace := by
        show (if q4.1 = true then q4.2.egl else q4).2.trace = w.trace
        split
        · exact t4
        · exact t4
      split at hr
      · split at hr
        · subst hr
          show r0.2.trace ++ _ = _
          have : r0.2.trace = w.trace := t5
          rw [this]
        · subst hr
          exact absurd rfl h
      · subst hr
        exact absurd rfl h
    · subst hr
      exact absurd rfl h
  · subst hr
    exact absurd rfl h

theorem imageAttrs_eq (bo : gbm_bo) (fd : Int) (hm : bo.modifier < 2 ^ 64) :
    EGL.imageAttrs bo fd
      = [0x3057, (bo.width : Int), 0x3056, (bo.height : Int), 0x3271, (bo.format : Int),
         0x3272, fd, 0x3273, 0, 0x3274, (bo.stride : Int),
         0x3443, ((bo.modifier % 2 ^ 32 : Nat) : Int),
         0x3444, ((bo.modifier / 2 ^ 32 : Nat) : Int),
         0x30D2, 1, 0x3038] := by
  unfold EGL.imageAttrs
  have h1 : ((bo.modifier : Int) % 2 ^ 64) = (bo.modifier : Int) := by
    apply Int.emod_eq_of_lt <;> omega
  simp only [h1]
  norm_cast

/-! ### Extension strings -/

theorem strFind_iff (hay needle : List Char) : strFind hay needle = true ↔ needle <:+: hay := by
  induction hay with
  | nil => simp [strFind, List.infix_nil]
  | cons c hay ih =>
    rw [strFind, Bool.or_eq_true, ih, List.infix_cons_iff, List.isPrefixOf_iff_prefix]

theorem tokens_ne_nil (s : List Char) : tokens s ≠ [] := by
  cases s with
  | nil => simp [tokens]
  | cons c cs =>
    unfold tokens
    split
    · simp
    · split <;> simp

theorem tokens_head_leads (s f : List Char) (fs : List (List Char)) (h : tokens s = f :: fs) :
    f <+: s := by
  induction s generalizing f fs with
  | nil =>
    simp [tokens] at h
    rw [← h.1]
  | cons c cs ih =>
    unfold tokens at h
    split at h
    · simp only [List.cons.injEq] at h
      rw [← h.1]
      exact List.nil_prefix
    · cases hq : tokens cs with
      | nil => exact absurd hq (tokens_ne_nil cs)
      | cons f0 fs0 =>
        rw [hq] at h
        simp only [List.cons.injEq] at h
        rw [← h.1]
        exact (List.prefix_cons_inj c).2 (ih f0 fs0 hq)

theorem tokens_infix (s t : List Char) (h : t ∈ tokens s) : t <:+: s := by
  induction s generalizing t with
  | nil =>
    simp [tokens] at h
    subst h
    exact List.infix_refl _
  | cons c cs ih =>
    unfold tokens at h
    split at h
    · rcases List.mem_cons.1 h with h | h
      · subst h; exact List.nil_infix
      · exact (ih t h).trans (List.infix_cons (List.infix_refl _))
    · cases hq : tokens cs with
      | nil => exact absurd hq (tokens_ne_nil cs)
      | cons f fs =>
        rw [hq] at h
        simp only [List.mem_cons] at h
        rcases h with h | h
        · subst h
          exact ((List.prefix_cons_inj c).2 (tokens_head_leads cs f fs hq)).isInfix
        · exact (ih t (by rw [hq]; exact List.mem_cons_of_mem _ h)).trans
            (List.infix_cons (List.infix_refl _))

/-! ### The transform setters of a pass -/

theorem stage1_eq (K : IComposition) (c : CompositorImplementation) (w : World)
    (client : ClientSurface) (bo : gbm_bo)
    (hz : ¬ (c._platform.width = 0 ∨ c._platform.height = 0 ∨ client._destination.width = 0
          ∨ client._destination.height = 0)) :
    c.stage1 K w client bo
      = (if ((true, c._gles, w)
              |> andG (fun g => g.UpdateOffset
                  (CompositorImplementation.derivedOffset K c._platform client._destination
                    client._layer))
              |> andG (fun g => g.UpdateScale
                  (CompositorImplementation.derivedScale c._platform client._destination))
              |> andG (fun g => g.UpdateOpacity
                  (CompositorImplementation.derivedOpacity K client._opacity))).1 = true
        then
          c._egl.RenderWithoutSwap
            (fun g w => g.RenderEGLImage w client._nativeSurface._khr bo.width bo.height)
            ((true, c._gles, w)
              |> andG (fun g => g.UpdateOffset
                  (CompositorImplementation.derivedOffset K c._platform client._destination
                    client._layer))
              |> andG (fun g => g.UpdateScale
                  (CompositorImplementation.derivedScale c._platform client._destination))
              |> andG (fun g => g.UpdateOpacity
                  (CompositorImplementation.derivedOpacity K client._opacity))).2.1
            w
        else
          ((true, c._gles, w)
              |> andG (fun g => g.UpdateOffset
                  (CompositorImplementation.derivedOffset K c._platform client._destination
                    client._layer))
              |> andG (fun g => g.UpdateScale
                  (CompositorImplementation.derivedScale c._platform client._destination))
              |> andG (fun g => g.UpdateOpacity
                  (CompositorImplementation.derivedOpacity K client._opacity)))) := by
  unfold CompositorImplementation.stage1
  lift_lets
  extract_lets _geom _scale _offset _opacity s
  rw [if_neg hz]
  have hw : s.2.2 = w := by
    show (andG _ (andG _ (andG _ (true, c._gles, w)))).2.2 = w
    rw [andG_world, andG_world, andG_world]
  show (if s.1 = true then c._egl.RenderWithoutSwap _ s.2.1 s.2.2 else s)
    = (if s.1 = true then c._egl.RenderWithoutSwap _ s.2.1 w else s)
  rw [hw]

theorem stage1_zero (K : IComposition) (c : CompositorImplementation) (w : World)
    (client : ClientSurface) (bo : gbm_bo)
    (hz : c._platform.width = 0 ∨ c._platform.height = 0 ∨ client._destination.width = 0
          ∨ client._destination.height = 0) :
    c.stage1 K w client bo = (false, c._gles, w) := by
  unfold CompositorImplementation.stage1
  lift_lets
  extract_lets _geom _scale _offset _opacity s
  exact if_pos hz

theorem sceneLoop_scene (width height : Int) (l : List texture) (s : St) :
    (GLES.sceneLoop width height l s).2.1._scene = s.2.1._scene := by
  induction l generalizing s with
  | nil => rfl
  | cons t rest ih =>
    unfold GLES.sceneLoop
    lift_lets
    intro s1
    have h1 : s1.2.1._scene = s.2.1._scene := by
      show (stepS _ (andW _ (andW _ (andG _ (andG _ (andG _ (stepS _ s))))))).2.1._scene = _
      rw [stepS_gles, andW_gles, andW_gles, andG_scene _ (by simp), andG_scene _ (by simp),
        andG_scene _ (by simp), stepS_gles]
    split
    · rw [ih, h1]
    · exact h1

theorem RenderScene_scene (g : GLES) (w : World) (width height : Nat)
    (sortfunc : texture → texture → Bool) :
    (g.RenderScene w width height sortfunc).2.1._scene = g._scene := by
  unfold GLES.RenderScene
  lift_lets
  extract_lets r0 w1 _sorted r6 _off _scl _op s7 r9
  show s7.2.1._scene = g._scene
  show (if r6.1 = true then _ else (false, g, r6.2)).2.1._scene = _
  split
  · rw [andG_scene _ (by simp), andG_scene _ (by simp), andG_scene _ (by simp), sceneLoop_scene]
  · rfl

theorem Render_scene (egl : EGL) (func : GLES → World → St) (post : Bool) (g : GLES) (w : World)
    (hf : ∀ g w, (func g w).2.1._scene = g._scene) :
    (egl.Render func post g w).2.1._scene = g._scene := by
  unfold EGL.Render
  dsimp only
  split_ifs <;> first | exact hf _ _ | rfl

theorem stage2_scene (c : CompositorImplementation) (g : GLES) (w : World) :
    (c.stage2 g w).2.1._scene = g._scene := by
  rw [(stage2_eq c g w).2.1]
  unfold CompositorImplementation.pass
  exact Render_scene _ _ _ _ _ (fun g w => RenderScene_scene g w _ _ _)

theorem RenderWithoutSwap_true (egl : EGL) (func : GLES → World → St) (g : GLES) (w : World)
    (h : (egl.RenderWithoutSwap func g w).1 = true) :
    (func g (egl.enter w).2).1 = true
    ∧ (egl.RenderWithoutSwap func g w).2.1 = (func g (egl.enter w).2).2.1 := by
  unfold EGL.RenderWithoutSwap at h ⊢
  dsimp only at h ⊢
  by_cases he : (egl.enter w).1 = true
  · rw [if_pos he] at h ⊢
    simp only [Bool.and_eq_true] at h
    exact ⟨h.2, rfl⟩
  · rw [if_neg he] at h
    exact absurd h (by simp)

theorem stage1_true (K : IComposition) (c : CompositorImplementation) (w : World)
    (client : ClientSurface) (bo : gbm_bo) (h : (c.stage1 K w client bo).1 = true) :
    (c._gles.UpdateScale (CompositorImplementation.derivedScale c._platform
        client._destination)).1 = true
    ∧ ∃ t, (c.stage1 K w client bo).2.1._scene.find client._nativeSurface._khr = some t
        ∧ t._offset = CompositorImplementation.derivedOffset K c._platform client._destination
            client._layer
        ∧ t._scale = CompositorImplementation.derivedScale c._platform client._destination
        ∧ t._opacity = CompositorImplementation.derivedOpacity K client._opacity := by
  by_cases hz : c._platform.width = 0 ∨ c._platform.height = 0
      ∨ client._destination.width = 0 ∨ client._destination.height = 0
  · rw [stage1_zero K c w client bo hz] at h
    exact absurd h (by simp)
  rw [stage1_eq K c w client bo hz] at h ⊢
  generalize hO : CompositorImplementation.derivedOffset K c._platform client._destination
    client._layer = O at h ⊢
  generalize hS : CompositorImplementation.derivedScale c._platform client._destination = S
    at h ⊢
  generalize hA : CompositorImplementation.derivedOpacity K client._opacity = A at h ⊢
  have hsc : ∀ (g : GLES) (x : scale), (g.UpdateScale x).1 = (c._gles.UpdateScale x).1 := by
    intro g x; unfold GLES.UpdateScale; split <;> rfl
  by_cases hs : (andG (fun g => g.UpdateOpacity A) (andG (fun g => g.UpdateScale S)
      (andG (fun g => g.UpdateOffset O) (true, c._gles, w)))).1 = true
  · rw [if_pos hs] at h ⊢
    obtain ⟨e3, a3⟩ := andG_ok _ _ hs
    have hs2 := andG_true _ _ hs
    obtain ⟨e2, a2⟩ := andG_ok _ _ hs2
    have hs1 := andG_true _ _ hs2
    obtain ⟨e1, a1⟩ := andG_ok _ _ hs1
    have g1 : (andG (fun g => g.UpdateOffset O) (true, c._gles, w)).2.1
        = { c._gles with _offset := O } := by
      rw [e1]; exact UpdateOffset_ok _ _ a1
    have g2 : (andG (fun g => g.UpdateScale S)
        (andG (fun g => g.UpdateOffset O) (true, c._gles, w))).2.1
        = { c._gles with _offset := O, _scale := S } := by
      rw [e2]
      show (GLES.UpdateScale _ S).2 = _
      rw [UpdateScale_ok _ _ a2, g1]
    have g3 : (andG (fun g => g.UpdateOpacity A) (andG (fun g => g.UpdateScale S)
        (andG (fun g => g.UpdateOffset O) (true, c._gles, w)))).2.1
        = { c._gles with _offset := O, _scale := S, _opacity := A } := by
      rw [e3]
      show (GLES.UpdateOpacity _ A).2 = _
      rw [UpdateOpacity_ok _ _ a3, g2]
    rw [g3] at h ⊢
    obtain ⟨r1, r2⟩ := RenderWithoutSwap_true _ _ _ _ h
    rw [r2]
    obtain ⟨_, _, _, _, _, t, t1, t2, t3, t4⟩ := RenderEGLImage_draw _ _ _ _ _ r1
    exact ⟨(hsc _ S).symm.trans a2, t, t1, t2, t3, t4⟩
  · rw [if_neg hs] at h
    exact absurd h hs

theorem CompositeFor_true (K : IComposition) (c : CompositorImplementation) (w : World)
    (name : String) (client : ClientSurface) (bo : gbm_bo)
    (hfind : c.Find name = some client) (hname : name = client._name)
    (hready : (client._nativeSurface.RenderComplete && c._egl.Valid && c._gles.Valid) = true)
    (hbuf : client._nativeSurface._buf = some bo)
    (h : (c.CompositeFor K w name).1 = true) :
    (c.stage1 K w client bo).1 = true
    ∧ (c.CompositeFor K w name).2.1._gles._scene = (c.stage1 K w client bo).2.1._scene := by
  unfold CompositorImplementation.CompositeFor at h ⊢
  rw [hfind] at h ⊢
  simp only [] at h ⊢
  rw [if_neg (by simpa using hname), if_pos hready, hbuf] at h ⊢
  simp only [] at h ⊢
  by_cases h1 : (c.stage1 K w client bo).1 = true
  · rw [if_pos h1] at h ⊢
    exact ⟨h1, stage2_scene c _ _⟩
  · rw [if_neg h1] at h
    exact absurd h (by simp)

/-! ### The claims -/

set_option maxRecDepth 1000000

/-- C1: the draw order of stage 2. With the comparator of `CompositeFor`, the
list `RenderScene` walks is a permutation of the snapshot of the scene (the
entries in map order), its cached z never increases, and entries of equal z
keep their snapshot order; the textures actually drawn are a prefix of that
list, and the whole list when the pass reports success; entries whose cached
z comes from the z keys 3, 1, 2 are put in the order 3, 2, 1. -/
theorem C1_RenderScene_draw_order (g : GLES) (w : World) (width height : Nat)
    (K : IComposition) (p : ModeSet) (r : Rectangle) (a b c : texture) :
    (listSort zGreater g.snapshot).Perm g.snapshot
    ∧ (listSort zGreater g.snapshot).Pairwise (fun l r => l._offset._z ≥ r._offset._z)
    ∧ (∀ v : ℚ, (listSort zGreater g.snapshot).filter (fun t => decide (t._offset._z = v))
          = g.snapshot.filter (fun t => decide (t._offset._z = v)))
    ∧ (∃ X : List Ev, (g.RenderScene w width height zGreater).2.2.marks = w.marks ++ X
        ∧ List.IsPrefix (drawn none X) ((listSort zGreater g.snapshot).map texture.name)
        ∧ ((g.RenderScene w width height zGreater).1 = true →
            drawn none X = (listSort zGreater g.snapshot).map texture.name))
    ∧ listSort zGreater
          [a.withZ (CompositorImplementation.derivedOffset K p r 3)._z,
           b.withZ (CompositorImplementation.derivedOffset K p r 1)._z,
           c.withZ (CompositorImplementation.derivedOffset K p r 2)._z]
        = [a.withZ (CompositorImplementation.derivedOffset K p r 3)._z,
           c.withZ (CompositorImplementation.derivedOffset K p r 2)._z,
           b.withZ (CompositorImplementation.derivedOffset K p r 1)._z] := by
  have hz : zGreater = byKey (fun t : texture => t._offset._z) := rfl
  obtain ⟨h1, h2, h3⟩ := listSort_spec (fun t : texture => t._offset._z) g.snapshot
  exact ⟨hz ▸ h1, hz ▸ h2, hz ▸ h3, marks_RenderScene g w width height zGreater,
    sort_three a b c _ _ _ (derived_z_lt K p r 1 2 (by decide))
      (derived_z_lt K p r 2 3 (by decide))⟩

/-- C1, at a scene whose three entries, in map order, have the cached z of the
z keys 3, 1, 2, and a driver without errors: the textures are drawn in the
order of the z keys 3, 2, 1. -/
theorem C1_RenderScene_draw_order_witness :
    ∃ X : List Ev,
      (GLES.sample.RenderScene World.quiet 1280 720 zGreater).2.2.marks = World.quiet.marks ++ X
      ∧ drawn none X = [(GL_TEXTURE_2D, 11), (GL_TEXTURE_2D, 13), (GL_TEXTURE_2D, 12)] := by
  obtain ⟨_, _, _, ⟨X, h1, _, h3⟩, _⟩ :=
    C1_RenderScene_draw_order GLES.sample World.quiet 1280 720 IComposition.sample
      ⟨1280, 720, 60, false⟩ ⟨0, 0, 1280, 720⟩
      (texture.sample 1 0) (texture.sample 2 0) (texture.sample 3 0)
  exact ⟨X, h1, (h3 (by with_unfolding_all decide)).trans (by with_unfolding_all decide)⟩

/-- C2, at the failing input: with the initial opacity `1` stored, the
out-of-range opacity `2` is accepted and stored. -/
theorem C2_UpdateOpacity_accepts_alpha_above_max :
    (GLES.init.UpdateOpacity ⟨2⟩).1 = true
    ∧ (GLES.init.UpdateOpacity ⟨2⟩).2._opacity = ⟨2⟩
    ∧ GLES.init._opacity = ⟨1⟩ := by
  simp [GLES.UpdateOpacity, GLES.init, InitialOpacity, opacity._min, opacity._max]

/-- C3: `UpdateOffset` succeeds exactly when the three coordinates lie in
`[-1, 1]`, `UpdateScale` exactly when both fractions lie in `[0, 1]`; the
argument is stored on success, the stored value is kept on failure, and the
other two transform fields are not touched. -/
theorem C3_UpdateOffset_UpdateScale (g : GLES) (o : offset) (s : scale) :
    ((g.UpdateOffset o).1 = true ↔
        (-1 ≤ o._x ∧ o._x ≤ 1) ∧ (-1 ≤ o._y ∧ o._y ≤ 1) ∧ (-1 ≤ o._z ∧ o._z ≤ 1))
    ∧ (g.UpdateOffset o).2._offset = (if (g.UpdateOffset o).1 then o else g._offset)
    ∧ (g.UpdateOffset o).2._scale = g._scale
    ∧ (g.UpdateOffset o).2._opacity = g._opacity
    ∧ (g.UpdateOffset o).2._scene = g._scene
    ∧ ((g.UpdateScale s).1 = true ↔
        (0 ≤ s._horiz ∧ s._horiz ≤ 1) ∧ (0 ≤ s._vert ∧ s._vert ≤ 1))
    ∧ (g.UpdateScale s).2._scale = (if (g.UpdateScale s).1 then s else g._scale)
    ∧ (g.UpdateScale s).2._offset = g._offset
    ∧ (g.UpdateScale s).2._opacity = g._opacity
    ∧ (g.UpdateScale s).2._scene = g._scene := by
  unfold GLES.UpdateOffset GLES.UpdateScale
  simp only [offset._left, offset._right, offset._bottom, offset._top, offset._near, offset._far,
    scale._min, scale._max, ge_iff_le]
  refine ⟨?_, ?_, ?_, ?_, ?_, ?_, ?_, ?_, ?_, ?_⟩ <;> split <;> simp_all

/-- C4: stage 1 on a well-formed scene, for a valid image and a driver
without errors. Afterwards the scene holds exactly one entry for the image; an
entry that existed keeps its texture, target, width and height and only its
cached transform is replaced by the transform of the renderer, the scene size
being unchanged; otherwise the entry holds a newly generated texture and the
scene grows by one; the entries of other images are unchanged; and a second
run with the same transform leaves the scene as the first run left it. -/
theorem C4_RenderEGLImage_scene_entry (g : GLES) (w w2 : World) (img : img_t)
    (width height : Int)
    (hs : g._scene.WF) (hi : img ≠ InvalidImage) (hwd : 0 < width) (hht : 0 < height)
    (hc : w.Calm) (hc2 : w2.Calm) :
    (((g.RenderEGLImage w img width height).2.1._scene.filter
        (fun e => decide (e.1 = img))).length = 1)
    ∧ (∀ t, g._scene.find img = some t →
        (g.RenderEGLImage w img width height).2.1._scene.find img = some (t.refresh g)
        ∧ (g.RenderEGLImage w img width height).2.1._scene.length = g._scene.length)
    ∧ (g._scene.find img = none →
        (g.RenderEGLImage w img width height).2.1._scene.find img
          = some ⟨w.nextTex + 1, GL_TEXTURE_2D, g._offset, g._scale, g._opacity,
                  width.toNat, height.toNat⟩
        ∧ (g.RenderEGLImage w img width height).2.1._scene.length = g._scene.length + 1)
    ∧ (∀ k, k ≠ img →
        (g.RenderEGLImage w img width height).2.1._scene.find k = g._scene.find k)
    ∧ (g.RenderEGLImage w img width height).2.1._scene.WF
    ∧ (GLES.RenderEGLImage
          { (g.RenderEGLImage w img width height).2.1 with
              _offset := g._offset, _scale := g._scale, _opacity := g._opacity }
          w2 img width height).2.1._scene
        = (g.RenderEGLImage w img width height).2.1._scene := by
  have hR := RenderEGLImage_scene hc g img width height hi hwd hht
  cases hf : g._scene.find img with
  | some t =>
    rw [hf] at hR
    simp only at hR
    have hfind : (g.RenderEGLImage w img width height).2.1._scene.find img
        = some (t.refresh g) := by
      rw [hR]; exact Scene.find_put_same _ _ _
    have hwf : (g.RenderEGLImage w img width height).2.1._scene.WF := by
      rw [hR]; exact Scene.WF_put _ _ _ hs
    refine ⟨Scene.count_key_of_WF _ _ _ hwf hfind, ?_, ?_, ?_, hwf, ?_⟩
    · intro t' ht'
      cases ht'
      exact ⟨hfind, by rw [hR]; exact Scene.length_put_present _ _ _ _ hs hf⟩
    · intro h; cases h
    · intro k hk
      rw [hR]; exact Scene.find_put_other _ _ _ _ hk
    · have h2 := RenderEGLImage_scene hc2
        { (g.RenderEGLImage w img width height).2.1 with
              _offset := g._offset, _scale := g._scale, _opacity := g._opacity }
        img width height hi hwd hht
      rw [h2]
      simp only [hfind]
      rw [hR]
      simp [Scene.assign, Scene.put_put, texture.refresh]
  | none =>
    rw [hf] at hR
    simp only at hR
    have hfind : (g.RenderEGLImage w img width height).2.1._scene.find img
        = some ⟨w.nextTex + 1, GL_TEXTURE_2D, g._offset, g._scale, g._opacity,
                  width.toNat, height.toNat⟩ := by
      rw [hR]; exact Scene.find_put_same _ _ _
    have hwf : (g.RenderEGLImage w img width height).2.1._scene.WF := by
      rw [hR]; exact Scene.WF_put _ _ _ hs
    refine ⟨Scene.count_key_of_WF _ _ _ hwf hfind, ?_, ?_, ?_, hwf, ?_⟩
    · intro t' ht'; cases ht'
    · intro _
      exact ⟨hfind, by rw [hR]; exact Scene.length_put_absent _ _ _ hf⟩
    · intro k hk
      rw [hR]; exact Scene.find_put_other _ _ _ _ hk
    · have h2 := RenderEGLImage_scene hc2
        { (g.RenderEGLImage w img width height).2.1 with
              _offset := g._offset, _scale := g._scale, _opacity := g._opacity }
        img width height hi hwd hht
      rw [h2]
      simp only [hfind]
      rw [hR]
      simp [Scene.assign, Scene.put_put]

/-- C4, at the scene of three entries and the image `2` that has an entry:
the entry keeps texture `12` and takes the transform of the renderer, and the
scene still holds three entries. -/
theorem C4_RenderEGLImage_scene_entry_witness :
    (GLES.sample.RenderEGLImage World.ready 2 1280 720).2.1._scene.find 2
        = some ((texture.sample 12 (1 / 255)).refresh GLES.sample)
    ∧ (GLES.sample.RenderEGLImage World.ready 2 1280 720).2.1._scene.length
        = GLES.sample._scene.length :=
  (C4_RenderEGLImage_scene_entry GLES.sample World.ready World.ready 2 1280 720
    (by decide) (by decide) (by decide) (by decide)
    ⟨fun _ => rfl, rfl, rfl, rfl, rfl⟩ ⟨fun _ => rfl, rfl, rfl, rfl, rfl⟩).2.1
    (texture.sample 12 (1 / 255)) rfl

/-- C5: when no client is registered under the name, or the surface of the
client is not render-ready (no buffer, a negative descriptor, or the invalid
image), `CompositeFor` returns false and leaves the compositor, with the
transform and the scene of its renderer, and the driver, with its record of
events, exactly as they were: no stage 1, no stage 2, no presentation, no
sleep. -/
theorem C5_CompositeFor_not_ready (K : IComposition) (c : CompositorImplementation)
    (w : World) (name : String)
    (h : c.Find name = none
      ∨ ∃ client, c.Find name = some client
          ∧ (client._nativeSurface._buf = none ∨ client._nativeSurface._fd < 0
              ∨ client._nativeSurface._khr = InvalidImage)) :
    c.CompositeFor K w name = (false, c, w) := by
  unfold CompositorImplementation.CompositeFor
  rcases h with h | ⟨client, h, hr⟩
  · rw [h]
  · rw [h]
    simp only
    split
    · rfl
    · have : client._nativeSurface.RenderComplete = false := by
        unfold surf_t.RenderComplete surf_t.Valid
        rcases hr with hr | hr | hr
        · simp [hr]
        · have : ¬ client._nativeSurface._fd > -1 := by omega
          simp [this]
        · simp [hr]
      simp [this]

/-- C5, at a compositor without clients. -/
theorem C5_CompositeFor_not_ready_witness :
    CompositorImplementation.init.CompositeFor IComposition.sample World.quiet "a"
      = (false, CompositorImplementation.init, World.quiet) :=
  C5_CompositeFor_not_ready IComposition.sample CompositorImplementation.init World.quiet "a"
    (Or.inl rfl)

/-- C6: when `FDFor` returns true, `properties` is the colon, then width,
height, stride, format and modifier of the buffer of the client in decimal,
separated by colons, so that splitting at the colons and reading each field
as a decimal gives back the five numbers after one empty field; when `FDFor`
returns false, `properties` is what the caller passed. -/
theorem C6_FDFor_properties (c : CompositorImplementation) (w : World) (name : String)
    (fd : Int) (properties : String) :
    if (c.FDFor w name fd properties).1.1 = true then
      ∃ client bo, c.Find name = some client ∧ client._nativeSurface._buf = some bo
        ∧ (c.FDFor w name fd properties).1.2.2
            = ":" ++ CompositorImplementation.to_string bo.width
              ++ ":" ++ CompositorImplementation.to_string bo.height
              ++ ":" ++ CompositorImplementation.to_string bo.stride
              ++ ":" ++ CompositorImplementation.to_string bo.format
              ++ ":" ++ CompositorImplementation.to_string bo.modifier
        ∧ (fields (c.FDFor w name fd properties).1.2.2.toList).map parseDec
            = [none, some bo.width, some bo.height, some bo.stride, some bo.format,
               some bo.modifier]
    else (c.FDFor w name fd properties).1.2.2 = properties := by
  by_cases h : (c.FDFor w name fd properties).1.1 = true
  · rw [if_pos h]
    obtain ⟨client, bo, h1, h2, h3⟩ := FDFor_true_props c w name fd properties h
    refine ⟨client, bo, h1, h2, ?_, ?_⟩
    · rw [h3]
      simp only [CompositorImplementation.propertiesOf, String.append_assoc]
    · rw [h3]
      exact propertiesOf_fields bo
  · rw [if_neg h]
    exact FDFor_false_keeps c w name fd properties (by simpa using h)

/-- C6, at the client `a` with a buffer of 1280 x 720, stride 5120: the
metadata is the complete line. -/
theorem C6_FDFor_properties_witness :
    (composited.1.FDFor composited.2 "a" (-1) "").1
      = (true, 5, ":1280:720:5120:875713112:0") := by
  have h := C6_FDFor_properties composited.1 composited.2 "a" (-1) ""
  have h1 : (composited.1.FDFor composited.2 "a" (-1) "").1.1 = true := by
    with_unfolding_all decide
  rw [if_pos h1] at h
  with_unfolding_all decide

/-- C7: for a name that is not the key of a registered client, `FDFor`
returns false and changes neither `fd` nor `properties` (nor the compositor or
the driver), and the transfer worker that received such a name leaves the
record of events as it was: `Send` is not invoked. -/
theorem C7_unknown_client_no_response (c : CompositorImplementation) (w : World)
    (d : DMATransfer) (name : String) (fd : Int) (properties : String)
    (h : c.Find name = none)
    (hin : ∀ msg fd0, w.incoming = some (msg, fd0) → c.Find msg = none) :
    c.FDFor w name fd properties = ((false, fd, properties), c, w)
    ∧ (d.Worker c w).2 = (c, w) := by
  refine ⟨FDFor_unknown c w name fd properties h, ?_⟩
  unfold DMATransfer.Worker
  by_cases hrun : d.running = true
  · rw [if_pos hrun]
    simp only []
    generalize ({ d with _transfer := w.accepted } : DMATransfer) = d1
    by_cases hr : (d1.Receive w).1 = true
    · obtain ⟨fd0, hi⟩ := Receive_name _ w hr
      have hF := FDFor_unknown c w _ (d1.Receive w).2.2 "" (hin _ _ hi)
      rw [if_pos hr, hF]
      simp
    · rw [if_neg hr]
  · rw [if_neg hrun]

/-- C7, at a compositor without clients and a request for the name `ghost`. -/
theorem C7_unknown_client_no_response_witness :
    CompositorImplementation.init.FDFor World.request "ghost" 7 "kept"
        = ((false, 7, "kept"), CompositorImplementation.init, World.request)
    ∧ (DMATransfer.Worker ⟨3, -1, true, true⟩ CompositorImplementation.init World.request).2
        = (CompositorImplementation.init, World.request) :=
  C7_unknown_client_no_response CompositorImplementation.init World.request
    ⟨3, -1, true, true⟩ "ghost" 7 "kept" rfl (fun _ _ _ => rfl)

/-- C8, at the failing input: the client `a` holds the imported image `1`;
`Detached` makes the driver destroy that image, and the client still holds
`1` afterwards, so that its surface is still render-ready; a later
`CompositeFor` is not refused: it runs stage 1 on the destroyed image and,
with a driver that raises no error, succeeds and puts the image back into the
scene. -/
theorem C8_Detached_keeps_image_identity :
    composited.1.liveImages = [1]
    ∧ composited.2.images = [1]
    ∧ Ev.destroyImage 1 ∈ (composited.1.Detached composited.2 "a").2.2.trace
    ∧ (composited.1.Detached composited.2 "a").2.2.images = []
    ∧ (composited.1.Detached composited.2 "a").2.1.liveImages = [1]
    ∧ ((composited.1.Detached composited.2 "a").2.1._clients.map
          (fun e => e.2._nativeSurface.RenderComplete)) = [true]
    ∧ (composited.1.Detached composited.2 "a").2.1._gles._scene.keys = []
    ∧ ((composited.1.Detached composited.2 "a").2.1.CompositeFor IComposition.sample
          (composited.1.Detached composited.2 "a").2.2 "a").1 = true
    ∧ ((composited.1.Detached composited.2 "a").2.1.CompositeFor IComposition.sample
          (composited.1.Detached composited.2 "a").2.2 "a").2.1._gles._scene.keys = [1] := by
  with_unfolding_all decide

/-- C9, at the failing input: after the client `a` is created, imported,
composited and imported again, the scene still holds the key `1` of the first
image, while the only registered client holds the image `2`. -/
theorem C9_scene_key_without_client :
    (runOps IComposition.sample CompositorImplementation.init World.quiet
        [Op.CreateClient "a" 1280 720, Op.FDFor "a", Op.CompositeFor "a",
         Op.FDFor "a"]).1._gles._scene.keys = [1]
    ∧ (runOps IComposition.sample CompositorImplementation.init World.quiet
        [Op.CreateClient "a" 1280 720, Op.FDFor "a", Op.CompositeFor "a",
         Op.FDFor "a"]).1.liveImages = [2] := by
  with_unfolding_all decide

/-- C10: the events of `Detached` are, in this order, the eviction of the scene
entry of the client (under the lock) and the destruction of its image, when
the client is found, then one callback per observer in registration order,
found or not; and the scene the callbacks see no longer holds the image. -/
theorem C10_Detached_order (c : CompositorImplementation) (w : World) (name : String) :
    ((c.Detached w name).2.2.trace
      = w.trace
        ++ (match c.Find name with
            | none => []
            | some client =>
              [Ev.lock, Ev.unlock]
                ++ (if (c._egl.Valid && EGLSupported w c._egl.Valid "EGL_KHR_image".toList
                        && EGLSupported w c._egl.Valid "EGL_KHR_image_base".toList)
                      && (w.procs && client._nativeSurface.RenderComplete)
                    then [Ev.destroyImage client._nativeSurface._khr] else []))
        ++ c._observers.map (fun o => Ev.detached o name))
    ∧ (c.Detached w name).2.1._gles._scene
        = (match c.Find name with
           | none => c._gles._scene
           | some client => c._gles._scene.erase client._nativeSurface._khr) := by
  refine ⟨?_, Detached_scene c w name⟩
  unfold CompositorImplementation.Detached
  simp only [trace_foldl_emit]
  cases hf : c.Find name with
  | none => simp
  | some client =>
    simp only [trace_DestroyImage]
    unfold GLES.SkipEGLImageFromScene
    cases g : c._gles._scene.find client._nativeSurface._khr <;>
      simp only [EGLSupported_emit, trace_emit, procs_emit, List.append_assoc, List.singleton_append,
        List.cons_append, List.nil_append]

/-- C11, at the failing input: the driver lists the modifier `0` of the buffer
without the flag for external sampling, and `CreateImage` still returns the
valid image `1`, the same image it returns when the flag is set. -/
theorem C11_CreateImage_ignores_external_flag :
    World.lax.eglModifiers 875713112 = [(0, false)]
    ∧ surf_t.sample._buf = some ⟨1280, 720, 5120, 875713112, 0, 5⟩
    ∧ (EGL.CreateImage ⟨true⟩ surf_t.sample World.lax).1 = 1
    ∧ (EGL.CreateImage ⟨true⟩ surf_t.sample World.quiet).1 = 1
    ∧ (1 : img_t) ≠ InvalidImage := by
  refine ⟨rfl, rfl, ?_, ?_, by decide⟩ <;> with_unfolding_all decide

/-- C12: a failed stage 2 is not presented. When the function handed to
`Render (func, post = true)` reports failure in the entered context, `Render`
returns false and the only events after those of the function are the two
synchronisations and the release of the context, the only events before them
the two of the prologue: `eglSwapBuffers` is not called. When that function
is `RenderScene` inside `CompositeFor`, `CompositeFor` returns false and adds
to these events at most the pacing sleep: the platform `Swap` is not called.
`RenderScene` draws a prefix of its sorted snapshot, and the whole of it when
it returns true; and the loop over the entries stops at the first entry that
fails: it runs on a list `l1 ++ l2` as on `l1`, and goes on with `l2` only
when the flag is still true after `l1`. -/
theorem C12_failed_pass_not_presented (K : IComposition) (c : CompositorImplementation)
    (w : World) (name : String) (client : ClientSurface) (bo : gbm_bo)
    (egl : EGL) (func : GLES → World → St) (g : GLES) (w0 : World)
    (width height : Nat) (sortfunc : texture → texture → Bool)
    (l1 l2 : List texture) (s : St) :
    ((egl.enter w0).1 = true → (func g (egl.enter w0).2).1 = false →
        (egl.Render func true g w0).1 = false
        ∧ (egl.enter w0).2.trace = w0.trace ++ [Ev.makeCurrent true, Ev.bindAPI true]
        ∧ ∃ ok, (egl.Render func true g w0).2.2.trace
            = (func g (egl.enter w0).2).2.2.trace ++ [Ev.sync, Ev.sync, Ev.releaseCurrent ok])
    ∧ (c.Find name = some client → name = client._name →
        (client._nativeSurface.RenderComplete && c._egl.Valid && c._gles.Valid) = true →
        client._nativeSurface._buf = some bo →
        (c.stage1 K w client bo).1 = true →
        (c._egl.enter (c.stage1 K w client bo).2.2).1 = true →
        (GLES.RenderScene (c.stage1 K w client bo).2.1
            (c._egl.enter (c.stage1 K w client bo).2.2).2
            (CompositorImplementation.WidthFromResolution c.Resolution)
            (CompositorImplementation.HeightFromResolution c.Resolution) zGreater).1 = false →
        (c.CompositeFor K w name).1 = false
        ∧ ∃ ok, (c.CompositeFor K w name).2.2.trace
            = (GLES.RenderScene (c.stage1 K w client bo).2.1
                  (c._egl.enter (c.stage1 K w client bo).2.2).2
                  (CompositorImplementation.WidthFromResolution c.Resolution)
                  (CompositorImplementation.HeightFromResolution c.Resolution) zGreater).2.2.trace
                ++ [Ev.sync, Ev.sync, Ev.releaseCurrent ok]
                ++ (if c.measured (c.stage1 K w client bo).2.1 (c.stage1 K w client bo).2.2
                        < c.interval
                    then [Ev.sleep (c.interval
                      - c.measured (c.stage1 K w client bo).2.1 (c.stage1 K w client bo).2.2)]
                    else []))
    ∧ (∃ X : List Ev, (g.RenderScene w0 width height sortfunc).2.2.marks = w0.marks ++ X
        ∧ List.IsPrefix (drawn none X) ((listSort sortfunc g.snapshot).map texture.name)
        ∧ ((g.RenderScene w0 width height sortfunc).1 = true →
            drawn none X = (listSort sortfunc g.snapshot).map texture.name))
    ∧ GLES.sceneLoop width height (l1 ++ l2) s
        = (if (GLES.sceneLoop width height l1 s).1 then
            GLES.sceneLoop width height l2 (GLES.sceneLoop width height l1 s)
          else GLES.sceneLoop width height l1 s) := by
  refine ⟨?_, ?_, marks_RenderScene g w0 width height sortfunc,
    sceneLoop_append width height l1 l2 s⟩
  · intro he hf
    obtain ⟨h1, h2⟩ := Render_post_failed egl func g w0 he hf
    exact ⟨h1, enter_trace egl w0 he, h2⟩
  · intro hfind hname hready hbuf h1 he hrs
    obtain ⟨e1, e2⟩ := CompositeFor_stage2 K c w name client bo hfind hname hready hbuf h1
    obtain ⟨s1, _, s3, _⟩ := stage2_eq c (c.stage1 K w client bo).2.1 (c.stage1 K w client bo).2.2
    obtain ⟨r1, ok, r2⟩ := Render_post_failed c._egl
      (fun g w => g.RenderScene w (CompositorImplementation.WidthFromResolution c.Resolution)
        (CompositorImplementation.HeightFromResolution c.Resolution) zGreater)
      (c.stage1 K w client bo).2.1 (c.stage1 K w client bo).2.2 he hrs
    have hp : (c.pass (c.stage1 K w client bo).2.1 (c.stage1 K w client bo).2.2).1 = false := r1
    refine ⟨by rw [e1, s1, hp], ok, ?_⟩
    rw [e2, s3, hp]
    have : (c.pass (c.stage1 K w client bo).2.1 (c.stage1 K w client bo).2.2).2.2.trace = _ := r2
    rw [this]
    simp

/-- C12, at the client `a` on a driver whose call number 90, a call of stage
2, fails: stage 1 succeeds, `RenderScene` reports failure, `CompositeFor`
returns false, and neither the platform `Swap` nor a call of `eglSwapBuffers`
is among the events of the run. -/
theorem C12_failed_pass_not_presented_witness :
    ((imported (World.failing 90)).1.CompositeFor IComposition.sample
        (imported (World.failing 90)).2 "a").1 = false
    ∧ Ev.platformSwap ∉ ((imported (World.failing 90)).1.CompositeFor IComposition.sample
        (imported (World.failing 90)).2 "a").2.2.trace
    ∧ Ev.swapBuffers true ∉ ((imported (World.failing 90)).1.CompositeFor IComposition.sample
        (imported (World.failing 90)).2 "a").2.2.trace
    ∧ Ev.swapBuffers false ∉ ((imported (World.failing 90)).1.CompositeFor IComposition.sample
        (imported (World.failing 90)).2 "a").2.2.trace :=
  ⟨((C12_failed_pass_not_presented IComposition.sample (imported (World.failing 90)).1
    (imported (World.failing 90)).2 "a" ClientSurface.sample gbm_bo.sample
    ⟨true⟩ idle GLES.init World.quiet 0 0 zGreater [] [] (true, GLES.init, World.quiet)).2.1
    rfl rfl (by decide) rfl (by with_unfolding_all decide) (by with_unfolding_all decide)
    (by with_unfolding_all decide)).1,
   by with_unfolding_all decide, by with_unfolding_all decide, by with_unfolding_all decide⟩

/-- C13: the pacing of `CompositeFor` after a successful stage 1. With `d` the
measured duration of stage 2 and its presentation and `D` the interval, the
events after those of the pass are the platform `Swap`, when the pass
succeeded, and then one sleep of `D - d` milliseconds when `d < D`, and no
sleep otherwise; the clock advances by the larger of `d` and `D` between the
start of stage 2 and the return, hence by at least `D`, and by exactly `d`
when the pass runs long; `D` is `1000 / rate` in integer division. -/
theorem C13_pacing (K : IComposition) (c : CompositorImplementation) (w : World)
    (name : String) (client : ClientSurface) (bo : gbm_bo)
    (hfind : c.Find name = some client) (hname : name = client._name)
    (hready : (client._nativeSurface.RenderComplete && c._egl.Valid && c._gles.Valid) = true)
    (hbuf : client._nativeSurface._buf = some bo)
    (h1 : (c.stage1 K w client bo).1 = true) :
    (c.CompositeFor K w name).2.2.trace
        = (c.pass (c.stage1 K w client bo).2.1 (c.stage1 K w client bo).2.2).2.2.trace
            ++ (if (c.pass (c.stage1 K w client bo).2.1 (c.stage1 K w client bo).2.2).1 = true
                then [Ev.platformSwap] else [])
            ++ (if c.measured (c.stage1 K w client bo).2.1 (c.stage1 K w client bo).2.2
                    < c.interval
                then [Ev.sleep (c.interval
                  - c.measured (c.stage1 K w client bo).2.1 (c.stage1 K w client bo).2.2)]
                else [])
    ∧ (c.CompositeFor K w name).2.2.now - (c.stage1 K w client bo).2.2.now
        = max (c.measured (c.stage1 K w client bo).2.1 (c.stage1 K w client bo).2.2) c.interval
    ∧ c.interval ≤ (c.CompositeFor K w name).2.2.now - (c.stage1 K w client bo).2.2.now
    ∧ c.interval
        = Int.tdiv 1000 (CompositorImplementation.RefreshRateFromResolution c.Resolution) := by
  obtain ⟨_, e2⟩ := CompositeFor_stage2 K c w name client bo hfind hname hready hbuf h1
  obtain ⟨_, _, s3, s4⟩ := stage2_eq c (c.stage1 K w client bo).2.1 (c.stage1 K w client bo).2.2
  rw [e2]
  exact ⟨s3, s4, by rw [s4]; exact le_max_right _ _, rfl⟩

/-- C13, at the client `a` on a display at 60 Hz: the interval is 16 ms; a
pass of 5 ms is followed by a sleep of 11 ms and 16 ms have passed at the
return; a pass of 20 ms is followed by no sleep, the platform `Swap` being
the last event, and 20 ms have passed at the return. -/
theorem C13_pacing_witness :
    (imported World.quiet).1.interval = 16
    ∧ ((imported World.quiet).1.CompositeFor IComposition.sample
          (imported World.quiet).2 "a").2.2.trace.getLast? = some (Ev.sleep 11)
    ∧ ((imported World.quiet).1.CompositeFor IComposition.sample
          (imported World.quiet).2 "a").2.2.now = 16
    ∧ ((imported World.slow).1.CompositeFor IComposition.sample
          (imported World.slow).2 "a").2.2.trace.getLast? = some Ev.platformSwap
    ∧ ((imported World.slow).1.CompositeFor IComposition.sample
          (imported World.slow).2 "a").2.2.now = 20 := by
  have h5 := (C13_pacing IComposition.sample (imported World.quiet).1 (imported World.quiet).2
    "a" ClientSurface.sample gbm_bo.sample rfl rfl (by decide) rfl
    (by with_unfolding_all decide)).1
  have h20 := (C13_pacing IComposition.sample (imported World.slow).1 (imported World.slow).2
    "a" ClientSurface.sample gbm_bo.sample rfl rfl (by decide) rfl
    (by with_unfolding_all decide)).1
  refine ⟨by decide, ?_, ?_, ?_, ?_⟩
  · rw [h5]; with_unfolding_all decide
  · with_unfolding_all decide
  · rw [h20]; with_unfolding_all decide
  · with_unfolding_all decide

/-- C14, as stated, fails: on a progressive display of height 720 refreshing
at 30 Hz, which `Resolution` classifies as 720p, and on one of height 480 at
50 Hz, the rate of the pacing is 60. -/
theorem C14_rate_differs_from_platform :
    CompositorImplementation.RefreshRateFromResolution
        (CompositorImplementation.onMode 720 30 false).Resolution = 60
    ∧ (CompositorImplementation.onMode 720 30 false)._platform.vrefresh = 30
    ∧ (CompositorImplementation.onMode 720 30 false).Resolution
        = ScreenResolution.ScreenResolution_720p
    ∧ CompositorImplementation.RefreshRateFromResolution
        (CompositorImplementation.onMode 480 50 false).Resolution = 60
    ∧ (CompositorImplementation.onMode 480 50 false)._platform.vrefresh = 50 := by
  decide

/-- C14, amended: the rate of the pacing is the refresh rate of the platform
for the modes whose classification names a rate (progressive 720 at 50,
progressive 1080 at 24, 50 or 60, progressive 2160 at 50 or 60, interlaced
1080 at 50) and 60 for every other mode; it is 60 for the classification
Unknown; and the interval is `1000 / rate`, that is 41, 20 or 16 ms. -/
theorem C14_rate_of_classification (c : CompositorImplementation) :
    CompositorImplementation.RefreshRateFromResolution c.Resolution
        = (if c._platform.rated then (c._platform.vrefresh : Int) else 60)
    ∧ CompositorImplementation.RefreshRateFromResolution
        ScreenResolution.ScreenResolution_Unknown = 60
    ∧ ((CompositorImplementation.RefreshRateFromResolution c.Resolution = 24 ∧ c.interval = 41)
        ∨ (CompositorImplementation.RefreshRateFromResolution c.Resolution = 50
            ∧ c.interval = 20)
        ∨ (CompositorImplementation.RefreshRateFromResolution c.Resolution = 60
            ∧ c.interval = 16))
    ∧ c.interval
        = Int.tdiv 1000 (CompositorImplementation.RefreshRateFromResolution c.Resolution) :=
  ⟨rate_cases c, rfl, rate_values c.Resolution, rfl⟩

/-- C15, at the failing input: on a driver whose second call fails,
`eglMakeCurrent` succeeds and `eglBindAPI` fails; each of the four render
functions then returns with these two events only, the context still current
and no release; on the driver without errors the release is the last event. -/
theorem C15_no_release_when_bindAPI_fails :
    (∀ func g, (EGL.RenderWithoutSwap ⟨true⟩ func g (World.failing 1)).2.2.trace
        = [Ev.makeCurrent true, Ev.bindAPI false]
      ∧ (EGL.RenderWithoutSwap ⟨true⟩ func g (World.failing 1)).2.2.current = true)
    ∧ (∀ func post g, (EGL.Render ⟨true⟩ func post g (World.failing 1)).2.2.trace
        = [Ev.makeCurrent true, Ev.bindAPI false]
      ∧ (EGL.Render ⟨true⟩ func post g (World.failing 1)).2.2.current = true)
    ∧ (∀ prefunc postfunc g,
        (EGL.Render_pre_post ⟨true⟩ prefunc postfunc g (World.failing 1)).2.2.trace
          = [Ev.makeCurrent true, Ev.bindAPI false]
      ∧ (EGL.Render_pre_post ⟨true⟩ prefunc postfunc g (World.failing 1)).2.2.current = true)
    ∧ (EGL.Render_gles ⟨true⟩ (World.failing 1)).2.trace
        = [Ev.makeCurrent true, Ev.bindAPI false]
    ∧ (EGL.Render_gles ⟨true⟩ (World.failing 1)).2.current = true
    ∧ (World.failing 1).current = false
    ∧ (EGL.RenderWithoutSwap ⟨true⟩ idle GLES.init World.quiet).2.2.trace
        = [Ev.makeCurrent true, Ev.bindAPI true, Ev.sync, Ev.releaseCurrent true] :=
  ⟨fun _ _ => ⟨rfl, rfl⟩, fun _ _ _ => ⟨rfl, rfl⟩, fun _ _ _ => ⟨rfl, rfl⟩, rfl, rfl, rfl, rfl⟩

/-- C16: when the registry yields a valid object, `CreateClient` returns it,
and it is the object registered under the name afterwards, whether or not the
transfer channel is valid; the events are one `Attached` callback per entry
of the observer list, in its order, then the construction of the channel,
then its deletion when it is invalid; an invalid channel leaves the channel
reference of the compositor null, a valid one is stored running; and an
observer list without repetitions gives each observer exactly one callback. -/
theorem C16_CreateClient (K : IComposition) (c : CompositorImplementation) (w : World)
    (name : String) (width height : Nat) (hreg : w.registryOk = true) :
    ∃ object,
      (c.CreateClient K w name width height).1 = some object
      ∧ (c.CreateClient K w name width height).2.1.Find name = some object
      ∧ (c.CreateClient K w name width height).2.2.trace
          = w.trace ++ c._observers.map (fun o => Ev.attached o name)
              ++ [Ev.channelUp (DMATransfer.create (c.Attached w name)).1._valid]
              ++ (if (DMATransfer.create (c.Attached w name)).1._valid = true then []
                  else [Ev.channelDown])
      ∧ ((DMATransfer.create (c.Attached w name)).1._valid = false →
          (c.CreateClient K w name width height).2.1._dma = none)
      ∧ ((DMATransfer.create (c.Attached w name)).1._valid = true →
          (c.CreateClient K w name width height).2.1._dma
            = some { (DMATransfer.create (c.Attached w name)).1 with running := true })
      ∧ (c._observers.Nodup → ∀ o ∈ c._observers,
          (c._observers.map (fun o => Ev.attached o name)).count (Ev.attached o name) = 1) := by
  unfold CompositorImplementation.CreateClient
  rw [if_pos hreg]
  simp only []
  have hA : ∀ c1 : CompositorImplementation, c1._observers = c._observers →
      c1.Attached w name = c.Attached w name := by
    intro c1 h; unfold CompositorImplementation.Attached; rw [h]
  have hcount : c._observers.Nodup → ∀ o ∈ c._observers,
      (c._observers.map (fun o => Ev.attached o name)).count (Ev.attached o name) = 1 := by
    intro hn o ho
    rw [List.count_map_of_injective _ (fun o => Ev.attached o name)
      (fun a b h => by injection h)]
    exact List.count_eq_one_of_mem hn ho
  cases hf : c.Find name with
  | some existing =>
    simp only []
    refine ⟨existing, ?_, ?_, ?_, ?_, ?_, hcount⟩
    · split <;> rfl
    · split <;> exact hf
    · by_cases hv : (DMATransfer.create (c.Attached w name)).1._valid = true
      · simp [hv, create_trace, Attached_trace]
      · simp [hv, create_trace, Attached_trace, World.emit]
    · intro hv; simp [hv]
    · intro hv; simp [hv]
  | none =>
    simp only []
    have e1 := hA { c with _clients := c._clients
      ++ [(name, CompositorImplementation.newSurface K w name width height)] } rfl
    rw [e1]
    refine ⟨CompositorImplementation.newSurface K w name width height, ?_, ?_, ?_, ?_, ?_,
      hcount⟩
    · split <;> rfl
    · have : (c._clients ++ [(name, CompositorImplementation.newSurface K w name width height)]
          ).lookup name = some (CompositorImplementation.newSurface K w name width height) :=
        lookup_append_new _ _ _ hf
      split <;> exact this
    · by_cases hv : (DMATransfer.create (c.Attached w name)).1._valid = true
      · simp [hv, create_trace, Attached_trace]
      · simp [hv, create_trace, Attached_trace, World.emit]
    · intro hv; simp [hv]
    · intro hv; simp [hv]

/-- C16, at a compositor with the observers `1` and `2` on a driver whose
first call, `socket`, fails: the client is returned, the channel reference is
null, and the events are the two callbacks, the construction of the invalid
channel and its deletion. -/
theorem C16_CreateClient_witness :
    (CompositorImplementation.init.CreateClient IComposition.sample (World.failing 0)
        "a" 1280 720).1.isSome = true
    ∧ (CompositorImplementation.init.CreateClient IComposition.sample (World.failing 0)
        "a" 1280 720).2.1._dma = none
    ∧ (CompositorImplementation.init.CreateClient IComposition.sample (World.failing 0)
        "a" 1280 720).2.2.trace
        = [Ev.attached 1 "a", Ev.attached 2 "a", Ev.channelUp false, Ev.channelDown] := by
  obtain ⟨object, h1, _, h3, h4, _, _⟩ :=
    C16_CreateClient IComposition.sample CompositorImplementation.init (World.failing 0)
      "a" 1280 720 rfl
  refine ⟨by rw [h1]; rfl, h4 (by with_unfolding_all decide), ?_⟩
  rw [h3]
  with_unfolding_all decide

/-- C17, at the failing input: two clients are created on a driver without
errors; the events of the channels are two constructions of a valid channel
and no deletion, so that the channel of the first client is still alive when
that of the second is bound. -/
theorem C17_two_channels_alive :
    (runOps IComposition.sample CompositorImplementation.init World.quiet
        [Op.CreateClient "a" 1280 720, Op.CreateClient "b" 1280 720]).2.trace.filter isChannel
      = [Ev.channelUp true, Ev.channelUp true] := by
  with_unfolding_all decide

/-- C18, at the failing input: the worker accepts the connection `7` and
receives the name `ghost` of no client; it returns with `7` still stored as
the transfer descriptor and without a `close`; the same happens when the
receive fails. For the registered name `a` the exchange succeeds, the
descriptor is closed and `-1` is stored. -/
theorem C18_failed_exchange_keeps_descriptor :
    (DMATransfer.Worker ⟨3, -1, true, true⟩ CompositorImplementation.init World.request).1._transfer
        = 7
    ∧ World.request.accepted = 7
    ∧ (DMATransfer.Worker ⟨3, -1, true, true⟩ CompositorImplementation.init World.request).2.2.trace
        = []
    ∧ World.quiet.incoming = none
    ∧ (DMATransfer.Worker ⟨3, -1, true, true⟩ CompositorImplementation.init World.quiet).1._transfer
        = 7
    ∧ (DMATransfer.Worker ⟨3, -1, true, true⟩ CompositorImplementation.init World.quiet).2.2.trace
        = []
    ∧ (DMATransfer.Worker ⟨3, -1, true, true⟩ composited.1
          { composited.2 with incoming := some ("a", -1) }).1._transfer = -1
    ∧ Ev.close 7 ∈ (DMATransfer.Worker ⟨3, -1, true, true⟩ composited.1
          { composited.2 with incoming := some ("a", -1) }).2.2.trace := by
  with_unfolding_all decide

/-- C19, at the failing input: the scene of the composited client `a` holds
the image `1` with the texture `2`, which exists in the context;
`SkipEGLImageFromScene` returns true and removes the entry, and the texture
still exists afterwards; for every scene, driver and image the events of the
function are the lock and the unlock only, no GL command among them. -/
theorem C19_eviction_keeps_texture :
    composited.1._gles._scene.map (fun e => (e.1, e.2._tex)) = [(1, 2)]
    ∧ composited.2.textures = [2]
    ∧ (composited.1._gles.SkipEGLImageFromScene composited.2 1).1 = true
    ∧ (composited.1._gles.SkipEGLImageFromScene composited.2 1).2.1._scene = []
    ∧ (composited.1._gles.SkipEGLImageFromScene composited.2 1).2.2.textures = [2]
    ∧ (∀ (g : GLES) (w : World) (img : img_t),
        (g.SkipEGLImageFromScene w img).2.2.trace = w.trace ++ [Ev.lock, Ev.unlock]) := by
  refine ⟨?_, ?_, ?_, ?_, ?_, ?_⟩
  · with_unfolding_all decide
  · with_unfolding_all decide
  · with_unfolding_all decide
  · with_unfolding_all decide
  · with_unfolding_all decide
  · intro g w img
    unfold GLES.SkipEGLImageFromScene
    cases g._scene.find img <;> simp [World.emit]

/-- C20, as stated, fails: for a surface of 3000 x 2000 at full scale the
computed viewport is 6000 x 4000, above the maximum 4096 x 4096 of the device,
and nothing is reported; for a surface of 100 x 100 at horizontal scale 3/5
and offset 1/2 the computed viewport is `(-10, -100, 120, 200)`, so that the
applied rectangle starts at 50 and is 60 wide, beyond the surface, and nothing
is reported. -/
theorem C20_unreported_viewports :
    Ev.warn ∉ ((GLES.placed 1 0).SetupViewport 3000 2000 World.quiet).2.trace
    ∧ (GLES.placed 1 0).quirk 3000 2000 = (-3000, -2000, 6000, 4000)
    ∧ World.quiet.maxViewportDims = (4096, 4096)
    ∧ ((GLES.placed (3 / 5) (1 / 2)).SetupViewport 100 100 World.quiet).2.trace
        = [Ev.gl GLCmd.GetMaxViewportDims, Ev.gl (GLCmd.Viewport (-10) (-100) 120 200)] := by
  refine ⟨?_, ?_, rfl, ?_⟩
  · with_unfolding_all decide
  · norm_num [GLES.quirk, GLES.placed]
  · with_unfolding_all decide

/-- C20, amended: when no GL error is pending and the query of the maximum
succeeds, `SetupViewport` returns true and its events are the query, then one
report exactly when the applied origin `w/2 + x`, `h/2 + y` is negative in a
direction, or `x` or `y` is positive, or the applied extent `w/2`, `h/2` is
above the size of the surface, or the surface is larger than the maximum of
the device in a direction, and then `glViewport` with the computed `x`, `y`,
`w`, `h`, cast to integers and not clamped, reported or not. -/
theorem C20_SetupViewport_report (_width _height : Int) (g : GLES) (w : World)
    (h0 : w.glError = false) (h1 : w.fail w.issued = false) :
    (g.SetupViewport _width _height w).1 = true
    ∧ (g.SetupViewport _width _height w).2.trace
        = w.trace ++ [Ev.gl GLCmd.GetMaxViewportDims]
            ++ (if anomaly (g.quirk _width _height) _width _height w.maxViewportDims
                then [Ev.warn] else [])
            ++ [Ev.gl (GLCmd.Viewport (truncToInt (g.quirk _width _height).1)
                  (truncToInt (g.quirk _width _height).2.1)
                  (truncToInt (g.quirk _width _height).2.2.1)
                  (truncToInt (g.quirk _width _height).2.2.2))] := by
  have ha := anomaly_iff g _width _height w.maxViewportDims
  unfold GLES.SetupViewport
  simp only [World.glGetError, World.gl, h0, h1, Bool.not_false, if_true, Bool.false_eq_true,
    if_false, World.effect]
  by_cases hA : anomaly (g.quirk _width _height) _width _height w.maxViewportDims
  · rw [if_pos (ha.2 hA), if_pos hA]
    constructor
    · trivial
    · simp only [World.emit]
      split <;> simp [GLES.quirk]
  · rw [if_neg (fun h => hA (ha.1 h)), if_neg hA]
    constructor
    · trivial
    · split <;> simp [GLES.quirk]

/-- C20, amended, at a surface of 100 x 100, full scale and the horizontal
offset -1/2: the applied origin is negative, which is reported, and the
viewport `(-150, -100, 200, 200)` is passed on as computed. -/
theorem C20_SetupViewport_report_witness :
    ((GLES.placed 1 (-1 / 2)).SetupViewport 100 100 World.quiet).1 = true
    ∧ ((GLES.placed 1 (-1 / 2)).SetupViewport 100 100 World.quiet).2.trace
        = [Ev.gl GLCmd.GetMaxViewportDims, Ev.warn,
           Ev.gl (GLCmd.Viewport (-150) (-100) 200 200)] := by
  obtain ⟨h1, h2⟩ := C20_SetupViewport_report 100 100 (GLES.placed 1 (-1 / 2)) World.quiet
    rfl rfl
  refine ⟨h1, ?_⟩
  rw [h2]
  with_unfolding_all decide

/-- C21: the dimensions of every resolution value. For the two 2160p modes
`WidthFromResolution` returns 2160, where the comment of the case reads
3840 x 2160; for 480i it returns 0 next to the height 480; the other values
are as listed: 720 x 480, 1280 x 720, 1920 x 1080, and 0 x 0 for the unknown
value and every value that is not listed. -/
theorem C21_width_of_2160p :
    CompositorImplementation.WidthFromResolution .ScreenResolution_2160p50Hz = 2160
    ∧ CompositorImplementation.WidthFromResolution .ScreenResolution_2160p60Hz = 2160
    ∧ CompositorImplementation.HeightFromResolution .ScreenResolution_2160p50Hz = 2160
    ∧ CompositorImplementation.HeightFromResolution .ScreenResolution_2160p60Hz = 2160
    ∧ (CompositorImplementation.WidthFromResolution .ScreenResolution_480p,
        CompositorImplementation.HeightFromResolution .ScreenResolution_480p) = (720, 480)
    ∧ (CompositorImplementation.WidthFromResolution .ScreenResolution_720p,
        CompositorImplementation.HeightFromResolution .ScreenResolution_720p) = (1280, 720)
    ∧ (CompositorImplementation.WidthFromResolution .ScreenResolution_720p50Hz,
        CompositorImplementation.HeightFromResolution .ScreenResolution_720p50Hz) = (1280, 720)
    ∧ (CompositorImplementation.WidthFromResolution .ScreenResolution_1080p24Hz,
        CompositorImplementation.HeightFromResolution .ScreenResolution_1080p24Hz) = (1920, 1080)
    ∧ (CompositorImplementation.WidthFromResolution .ScreenResolution_1080i50Hz,
        CompositorImplementation.HeightFromResolution .ScreenResolution_1080i50Hz) = (1920, 1080)
    ∧ (CompositorImplementation.WidthFromResolution .ScreenResolution_1080p50Hz,
        CompositorImplementation.HeightFromResolution .ScreenResolution_1080p50Hz) = (1920, 1080)
    ∧ (CompositorImplementation.WidthFromResolution .ScreenResolution_1080p60Hz,
        CompositorImplementation.HeightFromResolution .ScreenResolution_1080p60Hz) = (1920, 1080)
    ∧ (CompositorImplementation.WidthFromResolution .ScreenResolution_480i,
        CompositorImplementation.HeightFromResolution .ScreenResolution_480i) = (0, 480)
    ∧ (CompositorImplementation.WidthFromResolution .ScreenResolution_Unknown,
        CompositorImplementation.HeightFromResolution .ScreenResolution_Unknown) = (0, 0)
    ∧ (∀ code, (CompositorImplementation.WidthFromResolution (.ScreenResolution_Other code),
        CompositorImplementation.HeightFromResolution (.ScreenResolution_Other code))
          = (0, 0)) := by
  refine ⟨rfl, rfl, rfl, rfl, rfl, rfl, rfl, rfl, rfl, rfl, rfl, rfl, rfl, fun _ => rfl⟩

/-- C22, as stated, fails: stage 1 for a client at a quarter of the display with
opacity 128 of 255 ends with scale 1 x 1 and offset 0 where the derived values
are 1/2 x 1/2 and (1/4, 1/4, 0), and its draw sets the alpha 128/255. -/
theorem C22_stage1_draws_untransformed :
    ((restyled ⟨320, 180, 640, 360⟩ 128).1.stage1 IComposition.sample
        (restyled ⟨320, 180, 640, 360⟩ 128).2
        ((ClientSurface.sample.Geometry ⟨320, 180, 640, 360⟩).Opacity 128) gbm_bo.sample).1 = true
    ∧ (restyled ⟨320, 180, 640, 360⟩ 128).1.Find "a"
        = some ((ClientSurface.sample.Geometry ⟨320, 180, 640, 360⟩).Opacity 128)
    ∧ CompositorImplementation.derivedScale (restyled ⟨320, 180, 640, 360⟩ 128).1._platform
        ⟨320, 180, 640, 360⟩ = ⟨1 / 2, 1 / 2⟩
    ∧ CompositorImplementation.derivedOffset IComposition.sample
        (restyled ⟨320, 180, 640, 360⟩ 128).1._platform ⟨320, 180, 640, 360⟩ 0 = ⟨1 / 4, 1 / 4, 0⟩
    ∧ ((restyled ⟨320, 180, 640, 360⟩ 128).1.stage1 IComposition.sample
        (restyled ⟨320, 180, 640, 360⟩ 128).2
        ((ClientSurface.sample.Geometry ⟨320, 180, 640, 360⟩).Opacity 128)
        gbm_bo.sample).2.1._scale = ⟨1, 1⟩
    ∧ ((restyled ⟨320, 180, 640, 360⟩ 128).1.stage1 IComposition.sample
        (restyled ⟨320, 180, 640, 360⟩ 128).2
        ((ClientSurface.sample.Geometry ⟨320, 180, 640, 360⟩).Opacity 128)
        gbm_bo.sample).2.1._offset = ⟨0, 0, 0⟩
    ∧ ((restyled ⟨320, 180, 640, 360⟩ 128).1.stage1 IComposition.sample
        (restyled ⟨320, 180, 640, 360⟩ 128).2
        ((ClientSurface.sample.Geometry ⟨320, 180, 640, 360⟩).Opacity 128)
        gbm_bo.sample).2.1._opacity = ⟨128 / 255⟩
    ∧ InitialOpacity = ⟨1⟩
    ∧ Ev.gl (GLCmd.Uniform1f (128 / 255))
        ∈ ((restyled ⟨320, 180, 640, 360⟩ 128).1.stage1 IComposition.sample
            (restyled ⟨320, 180, 640, 360⟩ 128).2
            ((ClientSurface.sample.Geometry ⟨320, 180, 640, 360⟩).Opacity 128)
            gbm_bo.sample).2.2.trace
    ∧ Ev.gl (GLCmd.Uniform1f 1)
        ∉ ((restyled ⟨320, 180, 640, 360⟩ 128).1.stage1 IComposition.sample
            (restyled ⟨320, 180, 640, 360⟩ 128).2
            ((ClientSurface.sample.Geometry ⟨320, 180, 640, 360⟩).Opacity 128)
            gbm_bo.sample).2.2.trace := by
  refine ⟨?_, rfl, ?_, ?_, ?_, ?_, ?_, ?_, ?_, ?_⟩ <;> with_unfolding_all decide

/-- C22, amended: when `RenderEGLImage` succeeds, its draw ran with the initial offset
and scale (the viewport is the one of the identity transform, and these are the
values the object is left with) and with the opacity the object held at entry
(the alpha uniform of the draw); the offset, scale and opacity held at entry
are stored in the scene entry of the image. -/
theorem C22_RenderEGLImage_transform (g : GLES) (w : World) (img : img_t) (width height : Int)
    (h : (g.RenderEGLImage w img width height).1 = true) :
    (g.RenderEGLImage w img width height).2.1._offset = InitialOffset
    ∧ (g.RenderEGLImage w img width height).2.1._scale = InitialScale
    ∧ (g.RenderEGLImage w img width height).2.1._opacity = g._opacity
    ∧ Ev.gl (GLCmd.Uniform1f g._opacity._alpha)
        ∈ (g.RenderEGLImage w img width height).2.2.trace
    ∧ Ev.gl (GLCmd.Viewport
          (truncToInt (GLES.init.quirk (GLES.imagePrelude w img width height).2.2.1
            (GLES.imagePrelude w img width height).2.2.2.1).1)
          (truncToInt (GLES.init.quirk (GLES.imagePrelude w img width height).2.2.1
            (GLES.imagePrelude w img width height).2.2.2.1).2.1)
          (truncToInt (GLES.init.quirk (GLES.imagePrelude w img width height).2.2.1
            (GLES.imagePrelude w img width height).2.2.2.1).2.2.1)
          (truncToInt (GLES.init.quirk (GLES.imagePrelude w img width height).2.2.1
            (GLES.imagePrelude w img width height).2.2.2.1).2.2.2))
        ∈ (g.RenderEGLImage w img width height).2.2.trace
    ∧ ∃ t, (g.RenderEGLImage w img width height).2.1._scene.find img = some t
        ∧ t._offset = g._offset ∧ t._scale = g._scale ∧ t._opacity = g._opacity :=
  RenderEGLImage_draw g w img width height h

/-- C22, amended, at an object with offset `(1/4, 1/4, 0)`, scale `1/2 x 1/2`
and alpha `1/2`: the call succeeds, leaves the scale `1 x 1` and its draw set
the alpha `1/2`. -/
theorem C22_RenderEGLImage_transform_witness :
    (GLES.styled.RenderEGLImage World.ready 1 1280 720).1 = true
    ∧ (GLES.styled.RenderEGLImage World.ready 1 1280 720).2.1._scale = ⟨1, 1⟩
    ∧ Ev.gl (GLCmd.Uniform1f (1 / 2))
        ∈ (GLES.styled.RenderEGLImage World.ready 1 1280 720).2.2.trace :=
  ⟨by with_unfolding_all decide,
   (C22_RenderEGLImage_transform GLES.styled World.ready 1 1280 720
      (by with_unfolding_all decide)).2.1,
   (C22_RenderEGLImage_transform GLES.styled World.ready 1 1280 720
      (by with_unfolding_all decide)).2.2.2.1⟩

/-- C23, as stated, fails: `RenderEGLImage` for an image without a scene entry
issues eight GL commands between taking and releasing the scene lock, starting
with `glGenTextures`, and `Deinitialize` issues its three `glDeleteTextures`
there. -/
theorem C23_commands_under_lock :
    (underLock false
        (news World.ready (GLES.init.RenderEGLImage World.ready 1 1280 720).2.2)).head?
      = some (Ev.gl (GLCmd.GenTextures 2))
    ∧ (underLock false
        (news World.ready (GLES.init.RenderEGLImage World.ready 1 1280 720).2.2)).length = 8
    ∧ underLock false (news World.ready ( GLES.Deinitialize GLES.sample World.ready).2)
      = [Ev.gl (GLCmd.DeleteTextures 11), Ev.gl (GLCmd.DeleteTextures 12),
         Ev.gl (GLCmd.DeleteTextures 13)] := by
  refine ⟨?_, ?_, ?_⟩ <;> with_unfolding_all decide

/-- C23, amended: what is issued while the scene lock is held. `RenderScene` issues
nothing there; `RenderEGLImage` issues nothing there when the image has a scene
entry or its prelude failed, and otherwise the commands of `SetupTexture` for
the scene texture; `Deinitialize` issues one `glDeleteTextures` per scene
entry there. -/
theorem C23_under_the_scene_lock (g : GLES) (w : World) (img : img_t) (width height : Int)
    (_width _height : Nat) (sortfunc : texture → texture → Bool) :
    underLock false (news w (g.RenderScene w _width _height sortfunc).2.2) = []
    ∧ underLock false (news w (g.RenderEGLImage w img width height).2.2)
      = (if (GLES.imagePrelude w img width height).1 = true ∧ g._scene.find img = none then
          news ((GLES.imagePrelude w img width height).2.2.2.2.emit Ev.lock)
            (SetupTexture w.current w.current
              (texture.make GL_TEXTURE_2D InitialOffset InitialScale InitialOpacity)
              img width height
              ((GLES.imagePrelude w img width height).2.2.2.2.emit Ev.lock)).2.2
        else [])
    ∧ underLock false (news w ( GLES.Deinitialize g w).2)
      = g._scene.map (fun e => Ev.gl (GLCmd.DeleteTextures e.2._tex)) :=
  ⟨RenderScene_under g w _width _height sortfunc, RenderEGLImage_under g w img width height,
   Deinitialize_under g w⟩

/-- C24: the viewport of `SetupViewport`, in exact arithmetic, is
`x = -W*sh + ox*W`, `y = -H*sv + oy*H`, `w = 2*W*sh`, `h = 2*H*sv`; the call
passes these values, cast to integers, to `glViewport` as its last command; and
the applied origin `(w/2 + x, h/2 + y)` is `(ox*W, oy*H)`, the applied extent
`(w/2, h/2)` is `(sh*W, sv*H)`. -/
theorem C24_viewport_formula (W H : Int) (g : GLES) (w : World)
    (h0 : w.glError = false) (h1 : w.fail w.issued = false) :
    g.quirk W H
      = (-(W : ℚ) * g._scale._horiz + g._offset._x * W,
         -(H : ℚ) * g._scale._vert + g._offset._y * H,
         2 * W * g._scale._horiz,
         2 * H * g._scale._vert)
    ∧ (g.SetupViewport W H w).2.trace.getLast?
      = some (Ev.gl (GLCmd.Viewport
          (truncToInt (-(W : ℚ) * g._scale._horiz + g._offset._x * W))
          (truncToInt (-(H : ℚ) * g._scale._vert + g._offset._y * H))
          (truncToInt (2 * W * g._scale._horiz))
          (truncToInt (2 * H * g._scale._vert))))
    ∧ (g.quirk W H).2.2.1 / 2 + (g.quirk W H).1 = g._offset._x * W
    ∧ (g.quirk W H).2.2.2 / 2 + (g.quirk W H).2.1 = g._offset._y * H
    ∧ (g.quirk W H).2.2.1 / 2 = g._scale._horiz * W
    ∧ (g.quirk W H).2.2.2 / 2 = g._scale._vert * H := by
  have hq : g.quirk W H
      = (-(W : ℚ) * g._scale._horiz + g._offset._x * W,
         -(H : ℚ) * g._scale._vert + g._offset._y * H,
         2 * W * g._scale._horiz,
         2 * H * g._scale._vert) := by
    unfold GLES.quirk
    simp only [Int.cast_neg, Prod.mk.injEq]
    refine ⟨?_, ?_, ?_, ?_⟩ <;> first | trivial | ring
  refine ⟨hq, ?_, ?_, ?_, ?_, ?_⟩
  · rw [(SetupViewport_events W H g w h0 h1).2, hq]
    split_ifs <;> simp
  · rw [hq]; ring
  · rw [hq]; ring
  · rw [hq]; ring
  · rw [hq]; ring

/-- C24, at a surface of 1280 x 720 with scale `1/2 x 1/2` and offset
`(1/4, 1/4)`: the viewport passed to `glViewport` is `(-320, -180, 1280, 720)`. -/
theorem C24_viewport_formula_witness :
    (GLES.styled.SetupViewport 1280 720 World.ready).2.trace.getLast?
      = some (Ev.gl (GLCmd.Viewport (-320) (-180) 1280 720)) := by
  rw [(C24_viewport_formula 1280 720 GLES.styled World.ready rfl rfl).2.1]
  norm_num [GLES.styled, truncToInt, Int.ceil_eq_iff, Int.floor_eq_iff]

/-- C25: for a registered, render-complete client with geometry `(x, y, w, h)`,
z-order `z` and opacity `a`, `w`, `h` positive, on a display `W x H`, `W`, `H`
positive, the values `CompositeFor` derives are the scale `(w/W, h/H)`, the
offset `(x/W, y/H, z/(maxZOrder - minZOrder))` and the alpha
`a/(maxOpacity - minOpacity)`: stage 1 hands exactly these to `UpdateOffset`,
`UpdateScale` and `UpdateOpacity` in this order, and a `CompositeFor` that
returns true has stored them in the scene entry of the client's image. The z
divisor is positive and a z-order up to it maps into `[0, 1]`. `UpdateScale`
accepts the derived scale exactly when `w ≤ W` and `h ≤ H`, and `CompositeFor`
returns false otherwise. -/
theorem C25_derived_transform (K : IComposition) (c : CompositorImplementation) (w : World)
    (name : String) (client : ClientSurface) (bo : gbm_bo) (g : GLES)
    (hfind : c.Find name = some client) (hname : name = client._name)
    (hready : (client._nativeSurface.RenderComplete && c._egl.Valid && c._gles.Valid) = true)
    (hbuf : client._nativeSurface._buf = some bo)
    (hw : 0 < client._destination.width) (hh : 0 < client._destination.height)
    (hW : 0 < c._platform.width) (hH : 0 < c._platform.height) :
    c.stage1 K w client bo
      = (if ((true, c._gles, w)
              |> andG (fun g => g.UpdateOffset
                  ⟨(client._destination.x : ℚ) / c._platform.width,
                   (client._destination.y : ℚ) / c._platform.height,
                   (client._layer : ℚ) / ((K.maxZOrder : ℚ) - K.minZOrder)⟩)
              |> andG (fun g => g.UpdateScale
                  ⟨(client._destination.width : ℚ) / c._platform.width,
                   (client._destination.height : ℚ) / c._platform.height⟩)
              |> andG (fun g => g.UpdateOpacity
                  ⟨(client._opacity : ℚ) / ((K.maxOpacity : ℚ) - K.minOpacity)⟩)).1 = true
        then
          c._egl.RenderWithoutSwap
            (fun g w => g.RenderEGLImage w client._nativeSurface._khr bo.width bo.height)
            ((true, c._gles, w)
              |> andG (fun g => g.UpdateOffset
                  ⟨(client._destination.x : ℚ) / c._platform.width,
                   (client._destination.y : ℚ) / c._platform.height,
                   (client._layer : ℚ) / ((K.maxZOrder : ℚ) - K.minZOrder)⟩)
              |> andG (fun g => g.UpdateScale
                  ⟨(client._destination.width : ℚ) / c._platform.width,
                   (client._destination.height : ℚ) / c._platform.height⟩)
              |> andG (fun g => g.UpdateOpacity
                  ⟨(client._opacity : ℚ) / ((K.maxOpacity : ℚ) - K.minOpacity)⟩)).2.1
            w
        else
          ((true, c._gles, w)
              |> andG (fun g => g.UpdateOffset
                  ⟨(client._destination.x : ℚ) / c._platform.width,
                   (client._destination.y : ℚ) / c._platform.height,
                   (client._layer : ℚ) / ((K.maxZOrder : ℚ) - K.minZOrder)⟩)
              |> andG (fun g => g.UpdateScale
                  ⟨(client._destination.width : ℚ) / c._platform.width,
                   (client._destination.height : ℚ) / c._platform.height⟩)
              |> andG (fun g => g.UpdateOpacity
                  ⟨(client._opacity : ℚ) / ((K.maxOpacity : ℚ) - K.minOpacity)⟩)))
    ∧ ((c.CompositeFor K w name).1 = true →
        ∃ t, (c.CompositeFor K w name).2.1._gles._scene.find client._nativeSurface._khr = some t
          ∧ t._scale = ⟨(client._destination.width : ℚ) / c._platform.width,
                        (client._destination.height : ℚ) / c._platform.height⟩
          ∧ t._offset = ⟨(client._destination.x : ℚ) / c._platform.width,
                         (client._destination.y : ℚ) / c._platform.height,
                         (client._layer : ℚ) / ((K.maxZOrder : ℚ) - K.minZOrder)⟩
          ∧ t._opacity = ⟨(client._opacity : ℚ) / ((K.maxOpacity : ℚ) - K.minOpacity)⟩)
    ∧ CompositorImplementation.derivedScale c._platform client._destination
        = ⟨(client._destination.width : ℚ) / c._platform.width,
           (client._destination.height : ℚ) / c._platform.height⟩
    ∧ CompositorImplementation.derivedOffset K c._platform client._destination client._layer
        = ⟨(client._destination.x : ℚ) / c._platform.width,
           (client._destination.y : ℚ) / c._platform.height,
           (client._layer : ℚ) / ((K.maxZOrder : ℚ) - K.minZOrder)⟩
    ∧ CompositorImplementation.derivedOpacity K client._opacity
        = ⟨(client._opacity : ℚ) / ((K.maxOpacity : ℚ) - K.minOpacity)⟩
    ∧ 0 < (K.maxZOrder : ℚ) - K.minZOrder
    ∧ ((client._layer : ℚ) ≤ (K.maxZOrder : ℚ) - K.minZOrder →
        0 ≤ (client._layer : ℚ) / ((K.maxZOrder : ℚ) - K.minZOrder)
        ∧ (client._layer : ℚ) / ((K.maxZOrder : ℚ) - K.minZOrder) ≤ 1)
    ∧ ((g.UpdateScale ⟨(client._destination.width : ℚ) / c._platform.width,
                       (client._destination.height : ℚ) / c._platform.height⟩).1 = true
        ↔ client._destination.width ≤ c._platform.width
          ∧ client._destination.height ≤ c._platform.height)
    ∧ (¬ (client._destination.width ≤ c._platform.width
          ∧ client._destination.height ≤ c._platform.height) →
        (c.CompositeFor K w name).1 = false) := by
  have hw' : (0 : ℚ) < client._destination.width := by exact_mod_cast hw
  have hh' : (0 : ℚ) < client._destination.height := by exact_mod_cast hh
  have hW' : (0 : ℚ) < c._platform.width := by exact_mod_cast hW
  have hH' : (0 : ℚ) < c._platform.height := by exact_mod_cast hH
  have hz : (0 : ℚ) < (K.maxZOrder : ℚ) - K.minZOrder := by
    have : (K.minZOrder : ℚ) < K.maxZOrder := by exact_mod_cast K.zRange
    linarith
  have eS : CompositorImplementation.derivedScale c._platform client._destination
      = ⟨(client._destination.width : ℚ) / c._platform.width,
         (client._destination.height : ℚ) / c._platform.height⟩ := rfl
  have eA : CompositorImplementation.derivedOpacity K client._opacity
      = ⟨(client._opacity : ℚ) / ((K.maxOpacity : ℚ) - K.minOpacity)⟩ := rfl
  have eO : CompositorImplementation.derivedOffset K c._platform client._destination
      client._layer
      = ⟨(client._destination.x : ℚ) / c._platform.width,
         (client._destination.y : ℚ) / c._platform.height,
         (client._layer : ℚ) / ((K.maxZOrder : ℚ) - K.minZOrder)⟩ := by
    unfold CompositorImplementation.derivedOffset CompositorImplementation.derivedScale
    simp only [offset.mk.injEq]
    refine ⟨?_, ?_, trivial⟩
    · field_simp
      ring
    · field_simp
      ring
  have hnz : ¬ (c._platform.width = 0 ∨ c._platform.height = 0
      ∨ client._destination.width = 0 ∨ client._destination.height = 0) := by omega
  have hiff : ∀ g : GLES,
      (g.UpdateScale ⟨(client._destination.width : ℚ) / c._platform.width,
                       (client._destination.height : ℚ) / c._platform.height⟩).1 = true
        ↔ client._destination.width ≤ c._platform.width
          ∧ client._destination.height ≤ c._platform.height := by
    intro g
    unfold GLES.UpdateScale
    simp only [scale._min, scale._max]
    have e1 : (client._destination.width : ℚ) / c._platform.width ≤ 1
        ↔ client._destination.width ≤ c._platform.width := by
      rw [div_le_one hW']; exact_mod_cast Iff.rfl
    have e2 : (client._destination.height : ℚ) / c._platform.height ≤ 1
        ↔ client._destination.height ≤ c._platform.height := by
      rw [div_le_one hH']; exact_mod_cast Iff.rfl
    have p1 : (client._destination.width : ℚ) / c._platform.width ≥ 0 := by positivity
    have p2 : (client._destination.height : ℚ) / c._platform.height ≥ 0 := by positivity
    constructor
    · intro h
      split at h
      · rename_i hc
        exact ⟨e1.1 hc.2.1, e2.1 hc.2.2.2⟩
      · exact absurd h (by simp)
    · rintro ⟨a1, a2⟩
      rw [if_pos ⟨p1, e1.2 a1, p2, e2.2 a2⟩]
  have hsucc : (c.CompositeFor K w name).1 = true →
      (c._gles.UpdateScale (CompositorImplementation.derivedScale c._platform
        client._destination)).1 = true
      ∧ ∃ t, (c.CompositeFor K w name).2.1._gles._scene.find client._nativeSurface._khr = some t
        ∧ t._offset = CompositorImplementation.derivedOffset K c._platform client._destination
            client._layer
        ∧ t._scale = CompositorImplementation.derivedScale c._platform client._destination
        ∧ t._opacity = CompositorImplementation.derivedOpacity K client._opacity := by
    intro h
    obtain ⟨h1, h2⟩ := CompositeFor_true K c w name client bo hfind hname hready hbuf h
    rw [h2]
    exact stage1_true K c w client bo h1
  refine ⟨?_, ?_, eS, eO, eA, hz, ?_, hiff g, ?_⟩
  · rw [stage1_eq K c w client bo hnz, eO, eS, eA]
  · intro h
    obtain ⟨_, t, t1, t2, t3, t4⟩ := hsucc h
    exact ⟨t, t1, t3.trans eS, t2.trans eO, t4.trans eA⟩
  · intro hle
    exact ⟨div_nonneg (by positivity) hz.le, (div_le_one hz).2 hle⟩
  · intro hn
    by_contra hc
    have hc' : (c.CompositeFor K w name).1 = true := by simpa using hc
    exact hn ((hiff c._gles).1 (by rw [← eS]; exact (hsucc hc').1))

/-- C25, at the client `a` with the geometry `(320, 180, 640, 360)`, z-order
255 and opacity 255 on a display of 1280 x 720 with the ranges `0 .. 255`:
`CompositeFor` returns true and the scene entry of its image holds the scale
`(1/2, 1/2)`, the offset `(1/4, 1/4, 1)` and the alpha 1. -/
theorem C25_derived_transform_witness :
    ((arranged ⟨320, 180, 640, 360⟩ 255 255).1.CompositeFor IComposition.sample
        (arranged ⟨320, 180, 640, 360⟩ 255 255).2 "a").1 = true
    ∧ ∃ t, ((arranged ⟨320, 180, 640, 360⟩ 255 255).1.CompositeFor IComposition.sample
          (arranged ⟨320, 180, 640, 360⟩ 255 255).2 "a").2.1._gles._scene.find 1 = some t
        ∧ t._scale = ⟨1 / 2, 1 / 2⟩ ∧ t._offset = ⟨1 / 4, 1 / 4, 1⟩ ∧ t._opacity = ⟨1⟩ := by
  have hT : ((arranged ⟨320, 180, 640, 360⟩ 255 255).1.CompositeFor IComposition.sample
      (arranged ⟨320, 180, 640, 360⟩ 255 255).2 "a").1 = true := by with_unfolding_all decide
  obtain ⟨t, h1, h2, h3, h4⟩ := (C25_derived_transform IComposition.sample
    (arranged ⟨320, 180, 640, 360⟩ 255 255).1 (arranged ⟨320, 180, 640, 360⟩ 255 255).2 "a"
    (((ClientSurface.sample.Geometry ⟨320, 180, 640, 360⟩).Opacity 255).ZOrder 255)
    gbm_bo.sample GLES.init rfl rfl rfl rfl (by decide) (by decide) (by decide)
    (by decide)).2.1 hT
  refine ⟨hT, t, h1, ?_, ?_, ?_⟩
  · rw [h2]; with_unfolding_all decide
  · rw [h3]; with_unfolding_all decide
  · rw [h4]; with_unfolding_all decide

/-- C26: when `CreateImage` succeeds for a surface with a buffer whose modifier
fits 64 bits, it made exactly one `eglCreateImage` call, with the attribute
list width, height, fourcc, descriptor, offset 0, pitch, modifier low half,
modifier high half, image preserved, `EGL_NONE`; the halves are below `2^32`
and `hi * 2^32 + lo` is the modifier. -/
theorem C26_CreateImage_attributes (egl : EGL) (surf : surf_t) (w : World) (bo : gbm_bo)
    (hb : surf._buf = some bo) (hm : bo.modifier < 2 ^ 64)
    (h : (egl.CreateImage surf w).1 ≠ InvalidImage) :
    (egl.CreateImage surf w).2.trace
      = w.trace ++ [Ev.createImage
          [0x3057, (bo.width : Int), 0x3056, (bo.height : Int), 0x3271, (bo.format : Int),
           0x3272, surf._fd, 0x3273, 0, 0x3274, (bo.stride : Int),
           0x3443, ((bo.modifier % 2 ^ 32 : Nat) : Int),
           0x3444, ((bo.modifier / 2 ^ 32 : Nat) : Int),
           0x30D2, 1, 0x3038]
          (egl.CreateImage surf w).1]
    ∧ bo.modifier % 2 ^ 32 < 2 ^ 32
    ∧ bo.modifier / 2 ^ 32 < 2 ^ 32
    ∧ bo.modifier / 2 ^ 32 * 2 ^ 32 + bo.modifier % 2 ^ 32 = bo.modifier := by
  refine ⟨?_, ?_, ?_, ?_⟩
  · rw [CreateImage_success egl surf w bo hb h, imageAttrs_eq bo surf._fd hm]
  · exact Nat.mod_lt _ (by norm_num)
  · rw [Nat.div_lt_iff_lt_mul (by norm_num)]
    calc bo.modifier < 2 ^ 64 := hm
      _ = 2 ^ 32 * 2 ^ 32 := by norm_num
  · exact Nat.div_add_mod' _ _

/-- C26, at a buffer with the modifier `2^56 + 7`: the halves passed on are 7
and `2^24`. -/
theorem C26_CreateImage_attributes_witness :
    (EGL.CreateImage ⟨true⟩ surf_t.tiled World.tiled).2.trace
      = [Ev.createImage
          [0x3057, 1280, 0x3056, 720, 0x3271, 875713112, 0x3272, 5, 0x3273, 0, 0x3274, 5120,
           0x3443, 7, 0x3444, 16777216, 0x30D2, 1, 0x3038] 1] := by
  have h := (C26_CreateImage_attributes ⟨true⟩ surf_t.tiled World.tiled
    ⟨1280, 720, 5120, 875713112, 2 ^ 56 + 7, 5⟩ rfl (by norm_num)
    (by with_unfolding_all decide)).1
  rw [h]
  rfl

/-- C28: from the initial state `UpdateOpacity` accepts the alpha 2, which is
then the stored opacity, outside `[0, 1]`; after that `UpdateOpacity` refuses
the alpha 1/2 and the stored opacity stays 2, also after any `UpdateOffset`
and `UpdateScale`. -/
theorem C28_valid_opacity_refused :
    (GLES.init.UpdateOpacity ⟨2⟩).1 = true
    ∧ (GLES.init.UpdateOpacity ⟨2⟩).2._opacity = ⟨2⟩
    ∧ ((GLES.init.UpdateOpacity ⟨2⟩).2.UpdateOpacity ⟨1 / 2⟩).1 = false
    ∧ ((GLES.init.UpdateOpacity ⟨2⟩).2.UpdateOpacity ⟨1 / 2⟩).2._opacity = ⟨2⟩
    ∧ (∀ (o : offset) (s : scale),
        ((((GLES.init.UpdateOpacity ⟨2⟩).2.UpdateOffset o).2.UpdateScale s).2.UpdateOpacity
          ⟨1 / 2⟩).1 = false) := by
  refine ⟨?_, ?_, ?_, ?_, ?_⟩
  · with_unfolding_all decide
  · with_unfolding_all decide
  · with_unfolding_all decide
  · with_unfolding_all decide
  · intro o s
    have h1 : ∀ g : GLES, (g.UpdateOffset o).2._opacity = g._opacity := by
      intro g; unfold GLES.UpdateOffset; split <;> rfl
    have h2 : ∀ g : GLES, (g.UpdateScale s).2._opacity = g._opacity := by
      intro g; unfold GLES.UpdateScale; split <;> rfl
    have h3 : ((((GLES.init.UpdateOpacity ⟨2⟩).2.UpdateOffset o).2.UpdateScale s).2)._opacity
        = ⟨2⟩ := by
      rw [h2, h1]; with_unfolding_all decide
    generalize (((GLES.init.UpdateOpacity ⟨2⟩).2.UpdateOffset o).2.UpdateScale s).2 = g at h3 ⊢
    unfold GLES.UpdateOpacity
    rw [h3]
    norm_num [opacity._max, opacity._min]

/-- C29, as stated, fails: with the extension string
`GL_OES_EGL_image_external`, whose only token is that name, `Supported`
returns true for the name `GL_OES_EGL_image`. -/
theorem C29_Supported_substring :
    GLES.Supported World.external "GL_OES_EGL_image".toList = true
    ∧ World.external.glExtensions = some "GL_OES_EGL_image_external".toList
    ∧ tokens "GL_OES_EGL_image_external".toList = ["GL_OES_EGL_image_external".toList]
    ∧ "GL_OES_EGL_image".toList ∉ tokens "GL_OES_EGL_image_external".toList := by
  refine ⟨?_, rfl, ?_, ?_⟩ <;> with_unfolding_all decide

/-- C29, amended: `GLES::Supported` returns true exactly when the extension
string is present and the name is non-empty and occurs in it as a contiguous
part; so it returns true for every non-empty whole token of the string, and
false when the string is absent. -/
theorem C29_Supported_iff (w : World) (name : List Char) :
    (GLES.Supported w name = true
        ↔ ∃ ext, w.glExtensions = some ext ∧ name ≠ [] ∧ name <:+: ext)
    ∧ (∀ ext, w.glExtensions = some ext → name ≠ [] → name ∈ tokens ext →
        GLES.Supported w name = true)
    ∧ (w.glExtensions = none → GLES.Supported w name = false) := by
  have hlen : decide (name.length > 0) = true ↔ name ≠ [] := by
    cases name <;> simp
  refine ⟨?_, ?_, ?_⟩
  · unfold GLES.Supported
    cases hx : w.glExtensions with
    | none => simp
    | some ext =>
      simp only [Bool.and_eq_true, hlen, strFind_iff]
      constructor
      · intro h; exact ⟨ext, rfl, h.1, h.2⟩
      · rintro ⟨e, he, h1, h2⟩
        cases he
        exact ⟨h1, h2⟩
  · intro ext hx hn ht
    unfold GLES.Supported
    rw [hx]
    simp only [Bool.and_eq_true, hlen, strFind_iff]
    exact ⟨hn, tokens_infix ext name ht⟩
  · intro hx
    unfold GLES.Supported
    rw [hx]

/-- C29, amended, at the string `GL_OES_EGL_image GL_OES_EGL_image_external`:
its second token is reported as supported; without a string nothing is. -/
theorem C29_Supported_iff_witness :
    GLES.Supported World.quiet "GL_OES_EGL_image_external".toList = true
    ∧ GLES.Supported { World.quiet with glExtensions := none } "GL_OES_EGL_image".toList
        = false :=
  ⟨(C29_Supported_iff World.quiet "GL_OES_EGL_image_external".toList).2.1
      "GL_OES_EGL_image GL_OES_EGL_image_external".toList rfl (by decide)
      (by with_unfolding_all decide),
   (C29_Supported_iff { World.quiet with glExtensions := none }
      "GL_OES_EGL_image".toList).2.2 rfl⟩

end Compositor

/-! ### The claim on the transport channel -/

namespace A2DP

/-- C30: for a channel with a codec of a positive number of channels,
`Transmit` returns the count the packet ingested, as a 32-bit value; when the
count is 0 the channel is unchanged; otherwise the sequence number is the old
one plus 1 modulo `2^16` and the timestamp the old one plus
`consumed / (Channels * 2)` modulo `2^32`, the other fields unchanged,
whatever the result of the exchange; `Reset` sets the timestamp to 0. -/
theorem C30_Transmit (t : TransportChannel) (codec : IAudioCodec)
    (ingest : IAudioCodec → Nat → Nat → Nat → Nat → List Nat → Nat)
    (exchange other : Nat) (length : Nat) (data : List Nat) (ticks : Nat)
    (hc : t._codec = some codec) (hpos : 0 < codec.Channels) :
    ∃ t' : TransportChannel,
      t.Transmit ingest exchange length data = some (t.consumed codec ingest length data, t')
      ∧ (t.consumed codec ingest length data = 0 → t' = t)
      ∧ (0 < t.consumed codec ingest length data →
          t'._sequence = (t._sequence + 1) % 2 ^ 16
          ∧ t'._timestamp
              = (t._timestamp + t.consumed codec ingest length data / (codec.Channels * 2))
                  % 2 ^ 32
          ∧ t'._codec = t._codec ∧ t'._ssrc = t._ssrc)
      ∧ t.Transmit ingest other length data = t.Transmit ingest exchange length data
      ∧ (t.Reset ticks)._timestamp = 0 := by
  unfold TransportChannel.Transmit TransportChannel.consumed
  rw [hc]
  simp only [TransportChannel.BytesPerSample]
  have h2 : ¬ codec.Channels * 2 = 0 := by omega
  by_cases h : ingest codec t._ssrc t._sequence t._timestamp length data % 2 ^ 32 > 0
  · simp only [if_pos h, if_neg h2]
    exact ⟨_, rfl, fun h0 => absurd h0 (by omega), fun _ => ⟨rfl, rfl, rfl, rfl⟩, trivial, rfl⟩
  · simp only [if_neg h]
    exact ⟨t, rfl, fun _ => rfl, fun h0 => absurd h0 h, trivial, rfl⟩

/-- C30, at a stereo channel with the sequence number `2^16 - 1` and the
timestamp `2^32 - 1` that ingests 512 bytes: the call returns 512, the
sequence number wraps to 0 and the timestamp to 127. -/
theorem C30_Transmit_witness :
    (TransportChannel.Transmit ⟨some ⟨2⟩, 1, 4294967295, 65535⟩ sampleIngest 0 512 []).map
        (fun r => (r.1, r.2._sequence, r.2._timestamp))
      = some (512, 0, 127) := by
  obtain ⟨t', h1, _, h3, _, _⟩ := C30_Transmit ⟨some ⟨2⟩, 1, 4294967295, 65535⟩ ⟨2⟩ sampleIngest
    0 0 512 [] 0 rfl (by decide)
  have hc : TransportChannel.consumed ⟨some ⟨2⟩, 1, 4294967295, 65535⟩ ⟨2⟩ sampleIngest 512 []
      = 512 := by decide
  obtain ⟨hs, ht, _, _⟩ := h3 (by rw [hc]; decide)
  rw [h1, Option.map_some', hs, ht, hc]
  show some ((512 : Nat), _, _) = _
  decide

end A2DP
